import Mathlib

/-! libweave / buffet: typed value engine, state change queue, device registration, errors
and examples

A shallow embedding of

* `buffet/commands/schema_utils.cc` (conversion between JSON nodes and typed values, equality
  of objects),
* the state change queue exercised by `src/states/state_change_queue_unittest.cc`,
* `buffet/device_registration_info.cc` (registration of the device with the cloud, the
  persisted record),
* `buffet/commands/command_manager.cc` (`LoadJsonDict`),
* `include/weave/error.h` (error chains),
* `examples/provider/curl_http_client.cc` (`SendRequestBlocking`),
* `examples/daemon/ledflasher/ledflasher.cc` (the LED handlers),

followed by theorems about them.

Conventions.

* `int` and `double` payloads are never combined arithmetically by the embedded code, only
  stored, converted (`int` to `double`) and compared, so they are carried as `Int` and as
  `Rat` (every finite double is a rational and the conversion of an `int` is exact).
* A C++ out-parameter becomes an input (the old content) and a component of the result (the
  new content).
* `ErrorPtr* error` is `Option ErrorPtr`: `none` is a null slot pointer, `some e` a slot that
  currently holds the chain `e` (`e = none` for an empty chain).
* Code that talks to the cloud takes the world (time, requests sent, seconds slept, the
  persisted file) as an input and returns the new world; what the cloud answers is an
  input, the environment. A `base::Time` is a count of microseconds, an `Int`.
* The retry loop of `FinishRegistration` has no bound: its model takes fuel, and the theorems
  show how much fuel gives the result.
-/

/-! ## base::Value (libchrome) -/

namespace base

/-- A `base::Value` node. `dictionary` lists the entries in iteration order. -/
inductive Value where
  | null
  | boolean (b : Bool)
  | integer (i : Int)
  | double (d : Rat)
  | string (s : String)
  | list (l : List Value)
  | dictionary (kvs : List (String × Value))

/-- Order of `std::string` keys (`operator<`), decided on the character lists. -/
def keyLt (a b : String) : Bool := decide (a.toList < b.toList)

/-- A `std::map<std::string, α>::find`: the entry stored under `key`, if any. -/
def mapFind {α : Type} (key : String) : List (String × α) → Option α
  | [] => none
  | (k, x) :: rest => if k = key then some x else mapFind key rest

/-- A `std::map<std::string, α>::insert`: keeps an existing entry, otherwise puts the new
entry before the first larger key. -/
def mapInsert {α : Type} (key : String) (v : α) : List (String × α) → List (String × α)
  | [] => [(key, v)]
  | (k, x) :: rest =>
    if k = key then (k, x) :: rest
    else if keyLt key k then (key, v) :: (k, x) :: rest
    else (k, x) :: mapInsert key v rest

/-- A `std::map<std::string, α>::operator[]` assignment: replaces the value of an existing
entry, otherwise puts the new entry before the first larger key. -/
def mapSet {α : Type} (key : String) (v : α) : List (String × α) → List (String × α)
  | [] => [(key, v)]
  | (k, x) :: rest =>
    if k = key then (k, v) :: rest
    else if keyLt key k then (key, v) :: (k, x) :: rest
    else (k, x) :: mapSet key v rest

/-- The keys of a map, in iteration order. -/
def mapKeys {α : Type} (m : List (String × α)) : List String := m.map Prod.fst

namespace Value

/-- The payload when the node is a boolean (`Value::GetAsBoolean`). -/
def GetAsBoolean : Value → Option Bool
  | .boolean b => some b
  | _ => none

/-- The payload when the node is an integer (`Value::GetAsInteger`). -/
def GetAsInteger : Value → Option Int
  | .integer i => some i
  | _ => none

/-- The payload as a double when the node is a double or an integer
(`Value::GetAsDouble`). -/
def GetAsDouble : Value → Option Rat
  | .double d => some d
  | .integer i => some (i : Rat)
  | _ => none

/-- The payload when the node is a string (`Value::GetAsString`). -/
def GetAsString : Value → Option String
  | .string s => some s
  | _ => none

/-- The entries when the node is a dictionary (`Value::GetAsDictionary`). -/
def GetAsDictionary : Value → Option (List (String × Value))
  | .dictionary kvs => some kvs
  | _ => none

end Value

/-- The entry test `DictionaryValue::HasKey`. -/
def HasKey (dict : List (String × Value)) (key : String) : Bool :=
  (mapFind key dict).isSome

/-- The lookup `DictionaryValue::GetWithoutPathExpansion`. -/
def GetWithoutPathExpansion (dict : List (String × Value)) (key : String) : Option Value :=
  mapFind key dict

/-- The update `DictionaryValue::SetWithoutPathExpansion`. -/
def SetWithoutPathExpansion (dict : List (String × Value)) (key : String) (v : Value) :
    List (String × Value) :=
  mapSet key v dict

end base

/-! ## buffet: errors, property types and values -/

namespace buffet

open base

/-- An error record with its inner error, head of a singly linked chain. -/
inductive Error where
  | mk (domain : String) (code : String) (message : String) (inner_error : Option Error)

/-- An owning pointer to an error chain, `none` when there is no error. -/
abbrev ErrorPtr := Option Error

namespace Error

/-- The domain of the head error. -/
def GetDomain : Error → String
  | .mk d _ _ _ => d

/-- The code of the head error. -/
def GetCode : Error → String
  | .mk _ c _ _ => c

/-- The message of the head error. -/
def GetMessage : Error → String
  | .mk _ _ m _ => m

/-- The error wrapped by the head error. -/
def GetInnerError : Error → Option Error
  | .mk _ _ _ i => i

/-- Modelled from the spec: `Error::AddToPrintf` (the error implementation is not under
src/), with the message already formatted. Following the comment of `Error::AddTo` in
`error.h`: when the slot pointer is not null a new error is created and put at the head of
the chain the slot holds. -/
def AddToPrintf (error : Option ErrorPtr) (domain code message : String) : Option ErrorPtr :=
  match error with
  | none => none
  | some chain => some (some (Error.mk domain code message chain))

end Error

namespace errors
namespace commands

/-- Modelled from the spec: the constants of `errors::commands` (error_codes.h is not
under src/), with the names the spec lists for the `commands` domain. -/
def kDomain : String := "commands"

/-- Modelled from the spec: the code of `commands/type_mismatch`. -/
def kTypeMismatch : String := "type_mismatch"

/-- Modelled from the spec: the code of `commands/parameter_missing`. -/
def kPropertyMissing : String := "parameter_missing"

/-- Modelled from the spec: the code of `commands/unknown_property`. -/
def kUnknownProperty : String := "unknown_property"

/-- Modelled from the spec: the code of `commands/invalid_parameter_value`. -/
def kInvalidPropValue : String := "invalid_parameter_value"

/-- Modelled from the spec: the code of `commands/out_of_range` (scenario 2 of the spec). -/
def kOutOfRange : String := "out_of_range"

end commands
end errors

/-- Modelled from the spec: the kinds of value `schema_utils.cc` converts (the enum
`ValueType` of prop_types.h, which is not under src/). -/
inductive ValueType where
  | Int
  | Double
  | String
  | Boolean
  | Object
  deriving DecidableEq, Repr

/-- Modelled from the spec: a primitive payload, an element of an enumerated `oneOf` list. -/
inductive Primitive where
  | boolean (b : Bool)
  | integer (i : Int)
  | double (d : Rat)
  | string (s : String)
  deriving DecidableEq

/-- Modelled from the spec: the constraints a PropType may carry (prop_constraints.cc is
not under src/): numeric `minimum`/`maximum`, string `minLength`/`maxLength` and the
enumerated `oneOf` list. -/
inductive Constraint where
  | Min (limit : Rat)
  | Max (limit : Rat)
  | StringLengthMin (limit : Nat)
  | StringLengthMax (limit : Nat)
  | OneOf (choices : List Primitive)
  deriving DecidableEq

mutual
/-- Modelled from the spec: a PropType (prop_types.h is not under src/): its kind, its
constraints, its optional default value and, for the object kind, its field schema. -/
inductive PropType where
  | mk (type : ValueType) (constraints : List Constraint) (default_value : Option PropValue)
      (object_schema : ObjectSchema)
/-- Modelled from the spec: an ObjectSchema (object_schema.h is not under src/): the mapping
from field name to PropType, in iteration order, and the `extraPropertiesAllowed` flag. -/
inductive ObjectSchema where
  | mk (properties : List (String × PropType)) (extra_properties_allowed : Bool)
/-- Modelled from the spec: a PropValue (prop_values.h is not under src/): a concrete value
paired with its PropType. An object value is a `native_types::Object`, a map from field
name to PropValue. -/
inductive PropValue where
  | BooleanValue (type : PropType) (value : Bool)
  | IntValue (type : PropType) (value : Int)
  | DoubleValue (type : PropType) (value : Rat)
  | StringValue (type : PropType) (value : String)
  | ObjectValue (type : PropType) (value : List (String × PropValue))
end

namespace native_types

/-- Modelled from the spec: the map `native_types::Object` from field name to value
(schema_utils.h is not under src/), held in iteration order. -/
abbrev Object := List (String × PropValue)

end native_types

namespace PropType

/-- Modelled from the spec: `PropType::GetType`, the kind of a type. -/
def GetType : PropType → ValueType
  | .mk t _ _ _ => t

/-- Modelled from the spec: the constraints of a type. -/
def GetConstraints : PropType → List Constraint
  | .mk _ c _ _ => c

/-- Modelled from the spec: `PropType::GetDefaultValue`, the default value of a type, null
when none is declared. -/
def GetDefaultValue : PropType → Option PropValue
  | .mk _ _ d _ => d

/-- Modelled from the spec: `PropType::GetObjectSchemaPtr`, the field schema of a type. -/
def GetObjectSchemaPtr : PropType → ObjectSchema
  | .mk _ _ _ s => s

/-- Modelled from the spec: `PropType::GetTypeStringFromType`, with the type names of the
schema short forms. -/
def GetTypeStringFromType : ValueType → String
  | .Int => "integer"
  | .Double => "number"
  | .String => "string"
  | .Boolean => "boolean"
  | .Object => "object"

end PropType

namespace ObjectSchema

/-- Modelled from the spec: `ObjectSchema::GetProps`, the declared fields in iteration
order. -/
def GetProps : ObjectSchema → List (String × PropType)
  | .mk p _ => p

/-- Modelled from the spec: `ObjectSchema::GetExtraPropertiesAllowed`, whether keys outside
the schema are tolerated. -/
def GetExtraPropertiesAllowed : ObjectSchema → Bool
  | .mk _ e => e

end ObjectSchema

namespace PropValue

/-- Modelled from the spec: `PropValue::GetPropType`, the type a value is paired with. -/
def GetPropType : PropValue → PropType
  | .BooleanValue t _ => t
  | .IntValue t _ => t
  | .DoubleValue t _ => t
  | .StringValue t _ => t
  | .ObjectValue t _ => t

/-- Modelled from the spec: `PropValue::Clone`, a copy equal to the original. -/
def Clone (v : PropValue) : PropValue := v

/-- Modelled from the spec: the payload of a primitive value, as compared by `oneOf`. -/
def primitive : PropValue → Option Primitive
  | .BooleanValue _ b => some (.boolean b)
  | .IntValue _ i => some (.integer i)
  | .DoubleValue _ d => some (.double d)
  | .StringValue _ s => some (.string s)
  | .ObjectValue _ _ => none

/-- Modelled from the spec: the payload of a numeric value, as compared by `minimum` and
`maximum`. -/
def numeric : PropValue → Option Rat
  | .IntValue _ i => some (i : Rat)
  | .DoubleValue _ d => some d
  | _ => none

end PropValue

namespace Constraint

/-- Modelled from the spec: whether a value satisfies one constraint. A constraint that does
not apply to the kind of the value (the spec excludes such schemas) is satisfied. -/
def holds (c : Constraint) (value : PropValue) : Bool :=
  match c, value with
  | .Min limit, v =>
    match v.numeric with
    | some x => decide (limit ≤ x)
    | none => true
  | .Max limit, v =>
    match v.numeric with
    | some x => decide (x ≤ limit)
    | none => true
  | .StringLengthMin limit, .StringValue _ s => decide (limit ≤ s.length)
  | .StringLengthMax limit, .StringValue _ s => decide (s.length ≤ limit)
  | .OneOf choices, v =>
    match v.primitive with
    | some p => decide (p ∈ choices)
    | none => true
  | _, _ => true

/-- Modelled from the spec: the text reported for a violated constraint. The spec gives no
wording; no theorem depends on it. -/
def describe : Constraint → String
  | .Min _ => "Value is out of range. It must not be less than the minimum"
  | .Max _ => "Value is out of range. It must not be greater than the maximum"
  | .StringLengthMin _ => "String is too short"
  | .StringLengthMax _ => "String is too long"
  | .OneOf _ => "Value is not one of the expected values"

/-- Modelled from the spec: `Constraint::Validate`: a violated constraint adds the
constraint-specific error `commands/out_of_range` and fails. -/
def Validate (c : Constraint) (value : PropValue) (error : Option ErrorPtr) :
    Bool × Option ErrorPtr :=
  if c.holds value then (true, error)
  else (false, Error.AddToPrintf error errors.commands.kDomain errors.commands.kOutOfRange
    c.describe)

end Constraint

/-- Modelled from the spec: the loop of `PropType::ValidateConstraints`: the constraints are
checked in order, stopping at the first violation. -/
def ValidateConstraintList : List Constraint → PropValue → Option ErrorPtr →
    Bool × Option ErrorPtr
  | [], _, error => (true, error)
  | c :: rest, value, error =>
    match c.Validate value error with
    | (true, error1) => ValidateConstraintList rest value error1
    | (false, error1) => (false, error1)

/-- Modelled from the spec: `PropType::ValidateConstraints` (prop_types.cc is not under
src/): the value is checked against every constraint of the type. -/
def PropType.ValidateConstraints (t : PropType) (value : PropValue)
    (error : Option ErrorPtr) : Bool × Option ErrorPtr :=
  ValidateConstraintList t.GetConstraints value error

/-! ## buffet/commands/schema_utils.cc

`write` stands for `base::JSONWriter::Write`, the text of a JSON node, which only enters
the message of a type mismatch. -/

/-- Helper function to report "type mismatch" errors when parsing JSON. -/
def ReportJsonTypeMismatch (write : Value → String) (value_in : Value)
    (expected_type : String) (error : Option ErrorPtr) : Option ErrorPtr :=
  Error.AddToPrintf error errors.commands.kDomain errors.commands.kTypeMismatch
    ("Unable to convert value " ++ write value_in ++ " into " ++ expected_type)

/-- Reports a type mismatch for the kind of the output parameter. Always returns false. -/
def ReportUnexpectedJson (write : Value → String) (value_in : Value) (type : ValueType)
    (error : Option ErrorPtr) : Bool × Option ErrorPtr :=
  (false, ReportJsonTypeMismatch write value_in (PropType.GetTypeStringFromType type) error)

/-- Reports a required parameter that is missing. Always returns false. -/
def ErrorMissingProperty (error : Option ErrorPtr) (param_name : String) :
    Bool × Option ErrorPtr :=
  (false, Error.AddToPrintf error errors.commands.kDomain errors.commands.kPropertyMissing
    ("Required parameter missing: " ++ param_name))

/-- The overload `TypedValueToJson(bool, ErrorPtr*)`. -/
def TypedValueToJson_bool (value : Bool) (_error : Option ErrorPtr) : Option Value :=
  some (Value.boolean value)

/-- The overload `TypedValueToJson(int, ErrorPtr*)`. -/
def TypedValueToJson_int (value : Int) (_error : Option ErrorPtr) : Option Value :=
  some (Value.integer value)

/-- The overload `TypedValueToJson(double, ErrorPtr*)`. -/
def TypedValueToJson_double (value : Rat) (_error : Option ErrorPtr) : Option Value :=
  some (Value.double value)

/-- The overload `TypedValueToJson(const std::string&, ErrorPtr*)`. -/
def TypedValueToJson_string (value : String) (_error : Option ErrorPtr) : Option Value :=
  some (Value.string value)

mutual
/-- Modelled from the spec: `PropValue::ToJson` (prop_values.h is not under src/): the
payload is handed to the `TypedValueToJson` overload of its kind. -/
def PropValue.ToJson : PropValue → Option ErrorPtr → Option Value
  | .BooleanValue _ b, error => TypedValueToJson_bool b error
  | .IntValue _ i, error => TypedValueToJson_int i error
  | .DoubleValue _ d, error => TypedValueToJson_double d error
  | .StringValue _ s, error => TypedValueToJson_string s error
  | .ObjectValue _ obj, error => TypedValueToJson_fields obj [] error
/-- The loop of `TypedValueToJson(const native_types::Object&, ErrorPtr*)` over the
remaining fields, `dict` being the dictionary built so far. A field that fails to convert
ends the loop with a null result. -/
def TypedValueToJson_fields : List (String × PropValue) → List (String × Value) →
    Option ErrorPtr → Option Value
  | [], dict, _ => some (Value.dictionary dict)
  | (name, v) :: rest, dict, error =>
    match PropValue.ToJson v error with
    | none => none
    | some prop_value =>
      TypedValueToJson_fields rest (SetWithoutPathExpansion dict name prop_value) error
end

/-- The overload `TypedValueToJson(const native_types::Object&, ErrorPtr*)`. -/
def TypedValueToJson_Object (value : native_types.Object) (error : Option ErrorPtr) :
    Option Value :=
  TypedValueToJson_fields value [] error

/-- The overload `TypedValueFromJson(..., bool* value_out, ...)`. -/
def TypedValueFromJson_bool (write : Value → String) (value_in : Value) (value_out : Bool)
    (error : Option ErrorPtr) : Bool × Bool × Option ErrorPtr :=
  match value_in.GetAsBoolean with
  | some b => (true, b, error)
  | none => (false, value_out, (ReportUnexpectedJson write value_in .Boolean error).2)

/-- The overload `TypedValueFromJson(..., int* value_out, ...)`. -/
def TypedValueFromJson_int (write : Value → String) (value_in : Value) (value_out : Int)
    (error : Option ErrorPtr) : Bool × Int × Option ErrorPtr :=
  match value_in.GetAsInteger with
  | some i => (true, i, error)
  | none => (false, value_out, (ReportUnexpectedJson write value_in .Int error).2)

/-- The overload `TypedValueFromJson(..., double* value_out, ...)`. -/
def TypedValueFromJson_double (write : Value → String) (value_in : Value) (value_out : Rat)
    (error : Option ErrorPtr) : Bool × Rat × Option ErrorPtr :=
  match value_in.GetAsDouble with
  | some d => (true, d, error)
  | none => (false, value_out, (ReportUnexpectedJson write value_in .Double error).2)

/-- The overload `TypedValueFromJson(..., std::string* value_out, ...)`. -/
def TypedValueFromJson_string (write : Value → String) (value_in : Value)
    (value_out : String) (error : Option ErrorPtr) : Bool × String × Option ErrorPtr :=
  match value_in.GetAsString with
  | some s => (true, s, error)
  | none => (false, value_out, (ReportUnexpectedJson write value_in .String error).2)

/-- The scan of the dictionary for a key that was not processed while extra properties are
not allowed (the `while (!iter.IsAtEnd())` loop): the first such key, if any. -/
def FindUnknownKey (keys_processed : List String) (extra_properties_allowed : Bool) :
    List (String × Value) → Option String
  | [] => none
  | (key, _) :: rest =>
    if key ∉ keys_processed ∧ extra_properties_allowed = false then some key
    else FindUnknownKey keys_processed extra_properties_allowed rest

/-- The final loop of the object overload: every value of the output object is validated
against the constraints of its own type; the first violation adds
`commands/invalid_parameter_value` on top of the error of the constraint. -/
def ValidateProps : List (String × PropValue) → Option ErrorPtr → Bool × Option ErrorPtr
  | [], error => (true, error)
  | (name, v) :: rest, error =>
    match v.GetPropType.ValidateConstraints v error with
    | (true, error1) => ValidateProps rest error1
    | (false, error1) =>
      (false, Error.AddToPrintf error1 errors.commands.kDomain
        errors.commands.kInvalidPropValue
        ("Invalid parameter value for property \x27" ++ name ++ "\x27"))

mutual
/-- Modelled from the spec: `PropType::CreateValue` followed by `PropValue::FromJson`
(prop_types.cc and prop_values.h are not under src/): a fresh value of the type, with an
empty payload, is filled by the `TypedValueFromJson` overload of its kind, an object with
the field schema of the type. -/
def PropType.CreateValueFromJson (write : Value → String) :
    PropType → Value → Option ErrorPtr → Bool × PropValue × Option ErrorPtr
  | .mk type c d s, value_in, error =>
    match type with
    | .Boolean =>
      match TypedValueFromJson_bool write value_in false error with
      | (ok, b, error1) => (ok, .BooleanValue (.mk .Boolean c d s) b, error1)
    | .Int =>
      match TypedValueFromJson_int write value_in 0 error with
      | (ok, i, error1) => (ok, .IntValue (.mk .Int c d s) i, error1)
    | .Double =>
      match TypedValueFromJson_double write value_in 0 error with
      | (ok, x, error1) => (ok, .DoubleValue (.mk .Double c d s) x, error1)
    | .String =>
      match TypedValueFromJson_string write value_in "" error with
      | (ok, x, error1) => (ok, .StringValue (.mk .String c d s) x, error1)
    | .Object =>
      match TypedValueFromJson_Object write value_in s [] error with
      | (ok, obj, error1) => (ok, .ObjectValue (.mk .Object c d s) obj, error1)
/-- The overload `TypedValueFromJson(..., native_types::Object* value_out, ...)`.
`CHECK(object_schema)` is a precondition: the schema parameter is never null here. -/
def TypedValueFromJson_Object (write : Value → String) :
    Value → ObjectSchema → List (String × PropValue) → Option ErrorPtr →
    Bool × List (String × PropValue) × Option ErrorPtr
  | value_in, .mk props extra, value_out, error =>
    match value_in.GetAsDictionary with
    | none => (false, value_out, (ReportUnexpectedJson write value_in .Object error).2)
    | some dict =>
      match TypedValueFromJson_props write props dict value_out [] error with
      | (false, value_out1, _, error1) => (false, value_out1, error1)
      | (true, value_out1, keys_processed, error1) =>
        match FindUnknownKey keys_processed extra dict with
        | some key =>
          (false, value_out1, Error.AddToPrintf error1 errors.commands.kDomain
            errors.commands.kUnknownProperty ("Unrecognized parameter \x27" ++ key ++ "\x27"))
        | none =>
          match ValidateProps value_out1 error1 with
          | (ok, error2) => (ok, value_out1, error2)
/-- The first loop of the object overload, over the remaining declared fields. `HasKey`
holds exactly when the lookup of the key succeeds, so the CHECK on the lookup cannot fail
and both are the one `match`. -/
def TypedValueFromJson_props (write : Value → String) :
    List (String × PropType) → List (String × Value) → List (String × PropValue) →
    List String → Option ErrorPtr →
    Bool × List (String × PropValue) × List String × Option ErrorPtr
  | [], _, value_out, keys_processed, error => (true, value_out, keys_processed, error)
  | (name, ptype) :: rest, dict, value_out, keys_processed, error =>
    match GetWithoutPathExpansion dict name with
    | some param_value =>
      match PropType.CreateValueFromJson write ptype param_value error with
      | (true, value, error1) =>
        TypedValueFromJson_props write rest dict (mapInsert name value value_out)
          (name :: keys_processed) error1
      | (false, _, error1) => (false, value_out, keys_processed, error1)
    | none =>
      match ptype.GetDefaultValue with
      | some def_value =>
        TypedValueFromJson_props write rest dict (mapInsert name def_value.Clone value_out)
          (name :: keys_processed) error
      | none => (false, value_out, keys_processed, (ErrorMissingProperty error name).2)
end

/-! ### The normal form of the round-trip law -/

mutual
/-- The `normalize` of the round-trip law, by the words of the spec: the keys of an object
are reordered to schema declaration order and each absent field is filled with its declared
default; nothing else changes, so keys the schema does not declare are kept (after the
declared ones) and every value given in the JSON is kept as given. -/
def normalize : ObjectSchema → Value → Value
  | .mk props _, .dictionary kvs =>
    .dictionary (normalizeFields props kvs ++ kvs.filter fun p => (mapFind p.1 props).isNone)
  | _, v => v
/-- The declared fields of `normalize`, in schema declaration order. -/
def normalizeFields : List (String × PropType) → List (String × Value) →
    List (String × Value)
  | [], _ => []
  | (name, .mk type _ d s) :: rest, kvs =>
    match mapFind name kvs with
    | some v =>
      (name, if type = .Object then normalize s v else v) :: normalizeFields rest kvs
    | none =>
      match d with
      | some def_value => (name, (def_value.ToJson none).getD .null) :: normalizeFields rest kvs
      | none => normalizeFields rest kvs
end

/-- The JSON node a parsed primitive is written back as: an integer given for a Number
field comes back as a double. -/
def coerced (type : ValueType) (v : Value) : Value :=
  match type, v with
  | .Double, .integer i => .double (i : Rat)
  | _, _ => v

mutual
/-- The normal form the code produces: only the declared fields, in schema declaration
order, each absent field filled with its declared default, an integer given for a Number
field turned into a double. -/
def normalizeDeclared : ObjectSchema → Value → Value
  | .mk props _, .dictionary kvs => .dictionary (normalizeDeclaredFields props kvs)
  | _, v => v
/-- The fields of `normalizeDeclared`, in schema declaration order. -/
def normalizeDeclaredFields : List (String × PropType) → List (String × Value) →
    List (String × Value)
  | [], _ => []
  | (name, .mk type _ d s) :: rest, kvs =>
    match mapFind name kvs with
    | some v =>
      (name, if type = .Object then normalizeDeclared s v else coerced type v) ::
        normalizeDeclaredFields rest kvs
    | none =>
      match d with
      | some def_value =>
        (name, (def_value.ToJson none).getD .null) :: normalizeDeclaredFields rest kvs
      | none => normalizeDeclaredFields rest kvs
end

/-- Keys in strictly ascending order, as a `std::map` iterates them. -/
def keysAscending : List String → Bool
  | [] => true
  | k :: rest => rest.all (fun k2 => keyLt k k2) && keysAscending rest

mutual
/-- The field schema of an object type, and of every object type nested in it, declares its
fields in ascending key order. -/
def PropType.SortedKeys : PropType → Bool
  | .mk type _ _ s => if type = .Object then ObjectSchema.SortedKeys s else true
/-- The schema and every schema nested in it declare their fields in ascending key order,
the iteration order of the `std::map` that holds them. -/
def ObjectSchema.SortedKeys : ObjectSchema → Bool
  | .mk props _ => keysAscending (props.map Prod.fst) && propsSortedKeys props
/-- Every type of the list has sorted keys. -/
def propsSortedKeys : List (String × PropType) → Bool
  | [] => true
  | (_, t) :: rest => PropType.SortedKeys t && propsSortedKeys rest
end

/-! ### The fields the first loop stores -/

/-- The value the first loop stores for one declared field, if it accepts the field: the value
parsed from the JSON when the key is present, a clone of the default otherwise. -/
def fieldValue (write : Value → String) (dict : List (String × Value))
    (error : Option ErrorPtr) (name : String) (ptype : PropType) : Option PropValue :=
  match GetWithoutPathExpansion dict name with
  | some param_value =>
    match ptype.CreateValueFromJson write param_value error with
    | (true, value, _) => some value
    | (false, _, _) => none
  | none => ptype.GetDefaultValue.map PropValue.Clone

/-- The fields the first loop stores, in schema iteration order. -/
def parsedFields (write : Value → String) (dict : List (String × Value))
    (error : Option ErrorPtr) (props : List (String × PropType)) :
    List (String × PropValue) :=
  props.filterMap fun p => (fieldValue write dict error p.1 p.2).map fun v => (p.1, v)

/-- The object after a list of fields is inserted, in order. -/
def insertAll (fields : List (String × PropValue)) (value_out : List (String × PropValue)) :
    List (String × PropValue) :=
  fields.foldl (fun m p => mapInsert p.1 p.2 m) value_out

/-- The JSON node a field of the given type comes back as in `normalizeDeclared`. -/
def normalizeDeclaredValue : PropType → Value → Value
  | .mk type _ _ s, v => if type = .Object then normalizeDeclared s v else coerced type v

/-! ### Concrete schemas

The command definitions registered by `LedFlasherHandler::Register`
(examples/daemon/ledflasher/ledflasher.cc), and variants of them used as inputs. -/

/-- The parameter `"_led": {"minimum": 1, "maximum": 3}`. -/
def ledflasher_led : PropType := .mk .Int [.Min 1, .Max 3] none (.mk [] false)

/-- The parameter `"_on": "boolean"`. -/
def ledflasher_on : PropType := .mk .Boolean [] none (.mk [] false)

/-- The parameters of `_ledflasher._set`. -/
def ledflasher_set_parameters : ObjectSchema :=
  .mk [("_led", ledflasher_led), ("_on", ledflasher_on)] false

/-- The parameters of `_ledflasher._toggle`. -/
def ledflasher_toggle_parameters : ObjectSchema := .mk [("_led", ledflasher_led)] false

/-- The parameters of `_ledflasher._toggle`, with extra properties allowed. -/
def ledflasher_toggle_open : ObjectSchema := .mk [("_led", ledflasher_led)] true

/-- A schema with one Number field `x`. -/
def number_schema : ObjectSchema := .mk [("x", .mk .Double [] none (.mk [] false))] false

/-- The parameter `_on` with the default value false. -/
def on_defaulted : PropType :=
  .mk .Boolean [] (some (.BooleanValue ledflasher_on false)) (.mk [] false)

/-- The parameters of `_ledflasher._set`, `_on` defaulted, extra properties allowed. -/
def set_parameters_defaulted : ObjectSchema :=
  .mk [("_led", ledflasher_led), ("_on", on_defaulted)] true

/-- A stand-in for `base::JSONWriter::Write` in concrete inputs; its text only appears inside
the message of a type mismatch. -/
def plainWriter : Value → String := fun _ => "?"

end buffet

/-! ## weave: the state change queue -/

namespace weave

open base

mutual
/-- The merge `DictionaryValue::MergeDictionary` (libchrome) of `source` into `target`,
entry by entry in the iteration order of `source`. -/
def MergeDictionary (target : List (String × Value)) :
    List (String × Value) → List (String × Value)
  | [] => target
  | (key, merge_value) :: rest => MergeDictionary (MergeEntry target key merge_value) rest
/-- One step of `MergeDictionary`: a dictionary met under a key that holds a dictionary in
`target` is merged into it recursively; every other value replaces what `target` holds
under the key. -/
def MergeEntry (target : List (String × Value)) (key : String) :
    Value → List (String × Value)
  | .dictionary source =>
    match mapFind key target with
    | some (.dictionary sub_dict) =>
      mapSet key (.dictionary (MergeDictionary sub_dict source)) target
    | _ => mapSet key (.dictionary source) target
  | merge_value => mapSet key merge_value target
end

/-- One recorded state change: a timestamp (`base::Time`, as a tick count) and the
properties changed at that time. -/
structure StateChange where
  timestamp : Int
  changed_properties : List (String × Value)

/-- Modelled from the spec: the state of a StateChangeQueue (state_change_queue.cc is not
under src/): the capacity, the recorded changes from oldest to newest and the counter
`lastUpdateId`. -/
structure StateChangeQueue where
  max_queue_size : Nat
  state_changes : List StateChange
  last_change_id : Nat

/-- Modelled from the spec: "When full, the oldest two entries are merged (fold newer
values over older; timestamp becomes the later of the two)". A queue with fewer than two
entries has nothing to merge. -/
def MergeOldestTwo : List StateChange → List StateChange
  | element_old :: element_new :: rest =>
    { timestamp := max element_old.timestamp element_new.timestamp
      changed_properties :=
        MergeDictionary element_old.changed_properties element_new.changed_properties } :: rest
  | changes => changes

/-- Modelled from the spec: the entry appended to a queue that is bounded by `max_queue_size`:
"When full, the oldest two entries are merged [...], then the new entry is appended." -/
def AppendBounded (max_queue_size : Nat) (changes : List StateChange) (change : StateChange) :
    List StateChange :=
  (if max_queue_size ≤ changes.length then MergeOldestTwo changes else changes) ++ [change]

/-- Modelled from the spec: "Adjacent entries with identical timestamps are merged in-place
on insert" (later values overwrite earlier for the same key): a change that carries the
timestamp of the newest entry is merged into that entry, any other change is appended. -/
def RecordChange (max_queue_size : Nat) (changes : List StateChange) (change : StateChange) :
    List StateChange :=
  match changes.getLast? with
  | some newest =>
    if newest.timestamp = change.timestamp then
      changes.dropLast ++
        [{ timestamp := change.timestamp
           changed_properties :=
             MergeDictionary newest.changed_properties change.changed_properties }]
    else AppendBounded max_queue_size changes change
  | none => AppendBounded max_queue_size changes change

namespace StateChangeQueue

/-- Modelled from the spec: the constructor `StateChangeQueue(max_queue_size)`: an empty
queue whose counter is 0. -/
def create (max_queue_size : Nat) : StateChangeQueue :=
  { max_queue_size := max_queue_size, state_changes := [], last_change_id := 0 }

/-- Modelled from the spec: `IsEmpty()`. -/
def IsEmpty (q : StateChangeQueue) : Bool := q.state_changes.isEmpty

/-- Modelled from the spec: `GetLastStateChangeId()`, the counter `lastUpdateId`. -/
def GetLastStateChangeId (q : StateChangeQueue) : Nat := q.last_change_id

/-- Modelled from the spec: `NotifyPropertiesUpdated(timestamp, changed_properties)`: the
change is recorded and the counter is incremented ("incremented on every logical insert");
the call returns true. -/
def NotifyPropertiesUpdated (q : StateChangeQueue) (timestamp : Int)
    (changed_properties : List (String × Value)) : Bool × StateChangeQueue :=
  (true,
    { q with
      state_changes := RecordChange q.max_queue_size q.state_changes
        { timestamp := timestamp, changed_properties := changed_properties }
      last_change_id := q.last_change_id + 1 })

/-- Modelled from the spec: `GetAndClearRecordedStateChanges()`: "drains the queue atomically
and returns the ordered list"; the counter is left as it is. -/
def GetAndClearRecordedStateChanges (q : StateChangeQueue) :
    List StateChange × StateChangeQueue :=
  (q.state_changes, { q with state_changes := [] })

end StateChangeQueue

/-- A call made on a queue. -/
inductive QueueCall where
  | Notify (timestamp : Int) (changed_properties : List (String × Value))
  | Drain

/-- The queue after one call. -/
def QueueCall.apply (q : StateChangeQueue) : QueueCall → StateChangeQueue
  | .Notify timestamp changed_properties =>
    (q.NotifyPropertiesUpdated timestamp changed_properties).2
  | .Drain => q.GetAndClearRecordedStateChanges.2

/-- The queue after a sequence of calls, made in order. -/
def runCalls (q : StateChangeQueue) (calls : List QueueCall) : StateChangeQueue :=
  calls.foldl QueueCall.apply q

/-- The queue after a sequence of `NotifyPropertiesUpdated` calls, made in order. -/
def notifyAll (q : StateChangeQueue) (updates : List StateChange) : StateChangeQueue :=
  updates.foldl (fun q u => (q.NotifyPropertiesUpdated u.timestamp u.changed_properties).2) q

/-- The first update of `GroupByTimestamp`. -/
def test_name1_1 : List (String × Value) := [("prop", .dictionary [("name1", .integer 1)])]

/-- The second update of `GroupByTimestamp`. -/
def test_name2_2 : List (String × Value) := [("prop", .dictionary [("name2", .integer 2)])]

/-- The third update of `GroupByTimestamp`. -/
def test_name1_3 : List (String × Value) := [("prop", .dictionary [("name1", .integer 3)])]

/-- The first update of `MaxQueueSize`. -/
def test_max1 : List (String × Value) :=
  [("prop", .dictionary [("name1", .integer 1), ("name2", .integer 2)])]

/-- The second update of `MaxQueueSize`. -/
def test_max2 : List (String × Value) :=
  [("prop", .dictionary [("name1", .integer 3), ("name3", .integer 4)])]

/-- The third update of `MaxQueueSize`. -/
def test_max3 : List (String × Value) :=
  [("prop", .dictionary [("name10", .integer 10), ("name11", .integer 11)])]

end weave

/-! ## weave: observers of the state change queue -/

namespace weave

/-- Modelled from the spec: `AddOnStateUpdatedCallback(callback)` (state_change_queue.cc is
not under src/): the callback is registered and "invokes cb immediately with lastUpdateId if
the queue is empty; otherwise it is deferred until the next drain-and-publish". The result
is the list of registered callbacks after the call and the invocations made before the call
returns, each a callback with its argument. -/
def StateChangeQueue.AddOnStateUpdatedCallback {Callback : Type} (q : StateChangeQueue)
    (callbacks : List Callback) (callback : Callback) :
    List Callback × List (Callback × Nat) :=
  (callbacks ++ [callback], if q.IsEmpty then [(callback, q.last_change_id)] else [])

end weave

/-! ## buffet/commands/schema_utils.cc: equality of objects -/

namespace buffet

open base

mutual
/-- Modelled from the spec: `PropValue::IsEqual` (prop_values.h is not under src/): "Two
PropValues are equal iff their types match and their contents compare equal (deep,
field-wise for objects)". The types match when they are of the same kind; the contents of
two objects are compared by `operator==` of `native_types::Object`. -/
def PropValue.IsEqual : PropValue → PropValue → Bool
  | .BooleanValue t a, other =>
    decide (t.GetType = other.GetPropType.GetType) &&
      match other with
      | .BooleanValue _ b => decide (a = b)
      | _ => false
  | .IntValue t a, other =>
    decide (t.GetType = other.GetPropType.GetType) &&
      match other with
      | .IntValue _ b => decide (a = b)
      | _ => false
  | .DoubleValue t a, other =>
    decide (t.GetType = other.GetPropType.GetType) &&
      match other with
      | .DoubleValue _ b => decide (a = b)
      | _ => false
  | .StringValue t a, other =>
    decide (t.GetType = other.GetPropType.GetType) &&
      match other with
      | .StringValue _ b => decide (a = b)
      | _ => false
  | .ObjectValue t a, other =>
    decide (t.GetType = other.GetPropType.GetType) &&
      match other with
      | .ObjectValue _ b => decide (a.length = b.length) && ObjectsMatch a b
      | _ => false
/-- The call `std::mismatch(obj1.begin(), obj1.end(), obj2.begin(), obj_cmp)` of
`operator==`, compared with the pair of end iterators: the entries of the first object are
compared in iteration order with the entries of the second at the same position, by key and
by `IsEqual`, and the scan has to reach the end of both. -/
def ObjectsMatch : List (String × PropValue) → List (String × PropValue) → Bool
  | [], obj2 => obj2.isEmpty
  | _ :: _, [] => false
  | (k1, v1) :: rest1, (k2, v2) :: rest2 =>
    if decide (k1 = k2) && PropValue.IsEqual v1 v2 then ObjectsMatch rest1 rest2 else false
end

/-- Compares two sets of key-value pairs from two Objects. -/
def obj_cmp (v1 v2 : String × PropValue) : Bool :=
  decide (v1.1 = v2.1) && v1.2.IsEqual v2.2

/-- The `operator==` of two `native_types::Object`. -/
def Object_eq (obj1 obj2 : List (String × PropValue)) : Bool :=
  if obj1.length ≠ obj2.length then false
  else ObjectsMatch obj1 obj2

end buffet

/-! ## base::DictionaryValue paths, base::Time (libchrome) -/

namespace base

/-- The pieces of a character list between the occurrences of `sep`; `cur` holds the
characters of the current piece, last first. -/
def splitChars (sep : Char) : List Char → List Char → List String
  | [], cur => [String.mk cur.reverse]
  | c :: cs, cur =>
    if c = sep then String.mk cur.reverse :: splitChars sep cs []
    else splitChars sep cs (c :: cur)

/-- The keys of a dictionary path, which are separated by dots. -/
def splitPath (path : String) : List String := splitChars '.' path.toList []

/-- The lookup `DictionaryValue::Get` along the keys of a path: every key but the last has
to hold a dictionary. -/
def GetPath : List String → List (String × Value) → Option Value
  | [], _ => none
  | [key], dict => mapFind key dict
  | key :: rest, dict =>
    match mapFind key dict with
    | some (.dictionary child) => GetPath rest child
    | _ => none

/-- The lookup `DictionaryValue::Get(path)`. -/
def Get (dict : List (String × Value)) (path : String) : Option Value :=
  GetPath (splitPath path) dict

/-- The lookup `DictionaryValue::GetString(path)`: the value has to be a string. -/
def GetString (dict : List (String × Value)) (path : String) : Option String :=
  (Get dict path).bind Value.GetAsString

/-- The lookup `DictionaryValue::GetInteger(path)`: the value has to be an integer. -/
def GetInteger (dict : List (String × Value)) (path : String) : Option Int :=
  (Get dict path).bind Value.GetAsInteger

/-- The update `DictionaryValue::Set` along the keys of a path: a key before the last that
holds no dictionary gets a new, empty one. -/
def SetPath : List String → Value → List (String × Value) → List (String × Value)
  | [], _, dict => dict
  | [key], v, dict => mapSet key v dict
  | key :: rest, v, dict =>
    match mapFind key dict with
    | some (.dictionary child) => mapSet key (.dictionary (SetPath rest v child)) dict
    | _ => mapSet key (.dictionary (SetPath rest v [])) dict

/-- The update `DictionaryValue::Set(path, value)`. -/
def Set (dict : List (String × Value)) (path : String) (v : Value) : List (String × Value) :=
  SetPath (splitPath path) v dict

/-- The update `DictionaryValue::SetString(path, value)`. -/
def SetString (dict : List (String × Value)) (path : String) (s : String) :
    List (String × Value) :=
  Set dict path (.string s)

namespace Time

/-- The test `base::Time::is_null()` on a time, which is a count of microseconds: the null
time is the count 0. -/
def is_null (t : Int) : Bool := decide (t = 0)

end Time

namespace TimeDelta

/-- The duration `base::TimeDelta::FromSeconds(secs)`, in microseconds. -/
def FromSeconds (secs : Int) : Int := secs * 1000000

end TimeDelta

end base

/-! ## chromeos::http: requests and responses

The transport is not under src/ (only `http_utils.h` is). A request is identified with the
helper call that sends it; the world records the requests sent, the seconds slept and the
time; the environment answers a request from the list of all requests sent so far. -/

namespace chromeos
namespace http

open base

/-- The type `FormFieldList` of `http_utils.h`. -/
abbrev FormFieldList := List (String × String)

/-- Modelled from the spec: the type `HeaderList` (http_request.h is not under src/). -/
abbrev HeaderList := List (String × String)

/-- Modelled from the spec: the type `WebParamList` (data_encoding.h is not under src/). -/
abbrev WebParamList := List (String × String)

namespace status_code

/-- Modelled from the spec: the status `Ok`, HTTP 200. -/
def Ok : Int := 200

/-- Modelled from the spec: the status `BadRequest`, HTTP 400. -/
def BadRequest : Int := 400

end status_code

namespace request_header

/-- Modelled from the spec: the header name `kAuthorization`, "Authorization". -/
def kAuthorization : String := "Authorization"

end request_header

/-- A request, by the helper of `http_utils.h` that sends it. The data of `PostBinary` is a
string, empty for `PostBinary(url, nullptr, 0)`. -/
inductive Request where
  | Get (url : String) (headers : HeaderList)
  | PostBinary (url : String) (data : String)
  | PostFormData (url : String) (data : FormFieldList) (headers : HeaderList)
  | PostJson (url : String) (json : Value) (headers : HeaderList)
  | PatchJson (url : String) (json : Value) (headers : HeaderList)

/-- Modelled from the spec: a `Response` (http_request.h is not under src/): its status code
and what `ParseJsonResponse` makes of its body, the JSON object it holds or else the reason
why it holds none. -/
structure Response where
  status_code : Int
  json : Option (List (String × Value))
  parse_error : String

/-- The status code `Response::GetStatusCode()`. -/
def Response.GetStatusCode (r : Response) : Int := r.status_code

/-- What can be read of the persisted file: nothing, a text that is not JSON, or a JSON
value. -/
inductive FileContent where
  | unreadable
  | invalid_json
  | json (v : Value)

/-- The part of the world the registration code acts on. -/
structure World where
  now : Int
  sent : List Request
  slept : Nat
  file : FileContent
  written : List (List (String × Value))

/-- The part of the world the registration code does not control: the answer to the last of
the requests sent so far (none when no response is obtained), the microseconds that request
takes, and whether the persisted file can be written. -/
structure Environment where
  server : List Request → Option Response
  elapsed : List Request → Nat
  writable : Bool

/-- A request is sent: it is recorded, time passes and the environment answers. -/
def Send (env : Environment) (w : World) (request : Request) : Option Response × World :=
  (env.server (w.sent ++ [request]),
    { w with sent := w.sent ++ [request], now := w.now + env.elapsed (w.sent ++ [request]) })

/-- The call `sleep(secs)`. -/
def sleep (w : World) (secs : Nat) : World :=
  { w with slept := w.slept + secs, now := w.now + TimeDelta.FromSeconds secs }

/-- Modelled from the spec: `ParseJsonResponse(response, status_code, error_message)`, by the
comment of its declaration in `http_utils.h`: "parse the body data into Json object. Returns
null if failed. Optional |error_message| can be passed in to get the extended error
information as to why the parse failed." The result is the JSON object, the status code
(`status_code` when there is no response) and the error message. -/
def ParseJsonResponse (response : Option Response) (status_code : Int)
    (error_message : Option String) :
    Option (List (String × Value)) × Int × Option String :=
  match response with
  | none => (none, status_code, error_message)
  | some r =>
    match r.json with
    | some dict => (some dict, r.GetStatusCode, error_message)
    | none => (none, r.GetStatusCode, error_message.map fun _ => r.parse_error)

end http
end chromeos

/-! ## buffet/device_registration_info.cc

`WebParamsEncode` stands for `chromeos::data_encoding::WebParamsEncode`, the form-encoding of
a parameter list, and `write` for `base::JSONWriter::Write`; neither is under src/. -/

namespace buffet

open base chromeos.http

/-- Persistent key `client_id`. -/
def kClientId : String := "client_id"

/-- Persistent key `client_secret`. -/
def kClientSecret : String := "client_secret"

/-- Persistent key `api_key`. -/
def kApiKey : String := "api_key"

/-- Persistent key `refresh_token`. -/
def kRefreshToken : String := "refresh_token"

/-- Persistent key `device_id`. -/
def kDeviceId : String := "device_id"

/-- Persistent key `oauth_url`. -/
def kOAuthURL : String := "oauth_url"

/-- Persistent key `service_url`. -/
def kServiceURL : String := "service_url"

/-- Persistent key `robot_account`. -/
def kRobotAccount : String := "robot_account"

/-- Transient key `device_kind`. -/
def kDeviceKind : String := "device_kind"

/-- Transient key `system_name`. -/
def kSystemName : String := "system_name"

/-- Transient key `display_name`. -/
def kDisplayName : String := "display_name"

/-- Modelled from the spec: the data members of `DeviceRegistrationInfo`
(device_registration_info.h is not under src/), as `device_registration_info.cc` uses them.
The expiration is a `base::Time`, a count of microseconds. -/
structure DeviceRegistrationInfo where
  client_id_ : String
  client_secret_ : String
  api_key_ : String
  refresh_token_ : String
  device_id_ : String
  device_robot_account_ : String
  oauth_url_ : String
  service_url_ : String
  access_token_ : String
  access_token_expiration_ : Int
  ticket_id_ : String
  device_kind_ : String
  system_name_ : String
  display_name_ : String

/-- Modelled from the spec: `chromeos::string_utils::Join(delimiter, str1, str2)`
(string_utils.h is not under src/): the two strings with the delimiter between them. -/
def Join (delimiter : Char) (str1 str2 : String) : String :=
  str1 ++ String.singleton delimiter ++ str2

/-- The helper `GetParamValue`: the string stored under the name, if there is one; the
output keeps its old content otherwise. -/
def GetParamValue (params : List (String × Value)) (param_name : String)
    (param_value : String) : Bool × String :=
  match mapFind param_name params with
  | none => (false, param_value)
  | some p =>
    match p.GetAsString with
    | some s => (true, s)
    | none => (false, param_value)

/-- The helper `BuildAuthHeader`. -/
def BuildAuthHeader (access_token_type access_token : String) : String × String :=
  (request_header.kAuthorization, Join ' ' access_token_type access_token)

/-- The helper `ParseOAuthResponse`: the JSON object of the response unless the status code
is `BadRequest` or above. The result is the object and the error message. -/
def ParseOAuthResponse (response : Option Response) (error_message : Option String) :
    Option (List (String × Value)) × Option String :=
  match ParseJsonResponse response 0 error_message with
  | (some resp, code, error1) =>
    if code ≥ status_code.BadRequest then
      (none, error1.map fun _ =>
        match GetString resp "error", GetString resp "error_description" with
        | some error_code, some error => error_code ++ " (" ++ error ++ ")"
        | _, _ => "Unexpected OAuth error")
    else (some resp, error1)
  | (none, _, error1) => (none, error1)

/-- The helper `BuildURL`. -/
def BuildURL (WebParamsEncode : WebParamList → String) (url subpath : String)
    (params : WebParamList) : String :=
  let url1 :=
    if subpath ≠ "" then
      (if url ≠ "" ∧ url.back ≠ '/' then url ++ "/" else url) ++ subpath
    else url
  if params ≠ [] then url1 ++ "?" ++ WebParamsEncode params else url1

/-- The helper `CheckParam`. The result is the return value and the error message. -/
def CheckParam (param_name param_value : String) (error_msg : Option String) :
    Bool × Option String :=
  if param_value ≠ "" then (true, error_msg)
  else (false, error_msg.map fun _ => "Parameter " ++ param_name ++ " not specified")

namespace DeviceRegistrationInfo

/-- The method `GetAuthorizationHeader`. -/
def GetAuthorizationHeader (self : DeviceRegistrationInfo) : String × String :=
  BuildAuthHeader "OAuth" self.access_token_

/-- The method `GetServiceURL`. -/
def GetServiceURL (WebParamsEncode : WebParamList → String) (self : DeviceRegistrationInfo)
    (subpath : String) (params : WebParamList) : String :=
  BuildURL WebParamsEncode self.service_url_ subpath params

/-- The method `GetDeviceURL`; no result when the CHECK on the device ID fails. -/
def GetDeviceURL (WebParamsEncode : WebParamList → String) (self : DeviceRegistrationInfo)
    (subpath : String) (params : WebParamList) : Option String :=
  if self.device_id_ = "" then none
  else
    some (self.GetServiceURL WebParamsEncode
      (if subpath ≠ "" then "devices/" ++ self.device_id_ ++ ("/" ++ subpath)
       else "devices/" ++ self.device_id_)
      params)

/-- The method `GetOAuthURL`. -/
def GetOAuthURL (WebParamsEncode : WebParamList → String) (self : DeviceRegistrationInfo)
    (subpath : String) (params : WebParamList) : String :=
  BuildURL WebParamsEncode self.oauth_url_ subpath params

/-- The dictionary `Save` writes. -/
def SavedDictionary (self : DeviceRegistrationInfo) : List (String × Value) :=
  SetString (SetString (SetString (SetString (SetString (SetString (SetString (SetString []
    kClientId self.client_id_) kClientSecret self.client_secret_) kApiKey self.api_key_)
    kRefreshToken self.refresh_token_) kDeviceId self.device_id_) kOAuthURL self.oauth_url_)
    kServiceURL self.service_url_) kRobotAccount self.device_robot_account_

/-- The method `Save`: the dictionary is handed to `WriteFile` as JSON text, which the file
holds afterwards if it can be written; the result tells whether it was written. -/
def Save (self : DeviceRegistrationInfo) (env : Environment) (w : World) : Bool × World :=
  if env.writable then
    (true, { w with file := .json (.dictionary self.SavedDictionary),
                    written := w.written ++ [self.SavedDictionary] })
  else (false, { w with written := w.written ++ [self.SavedDictionary] })

/-- The method `ValidateAndRefreshAccessToken`. `Time::Now()` is the time of the world at the
moment of the call. -/
def ValidateAndRefreshAccessToken (WebParamsEncode : WebParamList → String)
    (env : Environment) (self : DeviceRegistrationInfo) (w : World) :
    Bool × DeviceRegistrationInfo × World :=
  if self.access_token_ ≠ "" ∧ Time.is_null self.access_token_expiration_ = false ∧
      self.access_token_expiration_ > w.now then (true, self, w)
  else
    match Send env w (.PostFormData (self.GetOAuthURL WebParamsEncode "token" [])
        [("refresh_token", self.refresh_token_), ("client_id", self.client_id_),
         ("client_secret", self.client_secret_), ("grant_type", "refresh_token")] []) with
    | (none, w1) => (false, self, w1)
    | (some response, w1) =>
      match (ParseOAuthResponse (some response) (some "")).1 with
      | none => (false, self, w1)
      | some json =>
        match GetString json "access_token" with
        | none => (false, self, w1)
        | some access_token =>
          match GetInteger json "expires_in" with
          | none => (false, { self with access_token_ := access_token }, w1)
          | some expires_in =>
            if access_token = "" ∨ expires_in ≤ 0 then
              (false, { self with access_token_ := access_token }, w1)
            else
              (true, { self with
                access_token_ := access_token
                access_token_expiration_ := w1.now + TimeDelta.FromSeconds expires_in }, w1)

/-- The JSON body of the registration ticket request of `StartRegistration`. -/
def TicketRequest (self : DeviceRegistrationInfo) : List (String × Value) :=
  Set (SetString (SetString (SetString (SetString (SetString []
    "oauthClientId" self.client_id_)
    "deviceDraft.deviceKind" self.device_kind_)
    "deviceDraft.systemName" self.system_name_)
    "deviceDraft.displayName" self.display_name_)
    "deviceDraft.channel.supportedType" "xmpp")
    "deviceDraft.commands.base.vendorCommands"
    (.list [.dictionary (Set (SetString [] "name" "SetDeviceConfiguration") "parameter"
      (.list [.dictionary (SetString [] "name" "data")]))])

/-- The record after the nine `GetParamValue` calls of `StartRegistration`. -/
def MergeParams (self : DeviceRegistrationInfo) (params : List (String × Value)) :
    DeviceRegistrationInfo :=
  { self with
    client_id_ := (GetParamValue params kClientId self.client_id_).2
    client_secret_ := (GetParamValue params kClientSecret self.client_secret_).2
    api_key_ := (GetParamValue params kApiKey self.api_key_).2
    device_id_ := (GetParamValue params kDeviceId self.device_id_).2
    device_kind_ := (GetParamValue params kDeviceKind self.device_kind_).2
    system_name_ := (GetParamValue params kSystemName self.system_name_).2
    display_name_ := (GetParamValue params kDisplayName self.display_name_).2
    oauth_url_ := (GetParamValue params kOAuthURL self.oauth_url_).2
    service_url_ := (GetParamValue params kServiceURL self.service_url_).2 }

/-- The seven `CheckParam` calls of `StartRegistration`, in order, up to the first that
fails. -/
def CheckParams (self : DeviceRegistrationInfo) (error_msg : Option String) :
    Bool × Option String :=
  match CheckParam kClientId self.client_id_ error_msg with
  | (false, e) => (false, e)
  | (true, e) =>
  match CheckParam kClientSecret self.client_secret_ e with
  | (false, e) => (false, e)
  | (true, e) =>
  match CheckParam kApiKey self.api_key_ e with
  | (false, e) => (false, e)
  | (true, e) =>
  match CheckParam kDeviceKind self.device_kind_ e with
  | (false, e) => (false, e)
  | (true, e) =>
  match CheckParam kSystemName self.system_name_ e with
  | (false, e) => (false, e)
  | (true, e) =>
  match CheckParam kOAuthURL self.oauth_url_ e with
  | (false, e) => (false, e)
  | (true, e) => CheckParam kServiceURL self.service_url_ e

/-- The method `StartRegistration`. The result is the returned string (empty when no ticket
is obtained), the error message, the record and the world. The response of
`ParseJsonResponse` is a dictionary, so the branch "Invalid response received" is never
taken. -/
def StartRegistration (WebParamsEncode : WebParamList → String) (write : Value → String)
    (env : Environment) (self : DeviceRegistrationInfo) (w : World)
    (params : List (String × Value)) (error_msg : Option String) :
    String × Option String × DeviceRegistrationInfo × World :=
  match (self.MergeParams params).CheckParams error_msg with
  | (false, error1) => ("", error1, self.MergeParams params, w)
  | (true, error1) =>
    match Send env w (.PostJson
        ((self.MergeParams params).GetServiceURL WebParamsEncode "registrationTickets"
          [("key", (self.MergeParams params).api_key_)])
        (.dictionary (self.MergeParams params).TicketRequest) []) with
    | (response, w1) =>
      match ParseJsonResponse response 0 error1 with
      | (none, _, error2) => ("", error2, self.MergeParams params, w1)
      | (some resp_dict, _, error2) =>
        match GetString resp_dict "id" with
        | none => ("", error2, self.MergeParams params, w1)
        | some ticket_id =>
          (write (.dictionary (SetString (SetString [] "ticket_id" ticket_id) "auth_url"
              ((self.MergeParams params).GetOAuthURL WebParamsEncode "auth"
                [("scope", "https://www.googleapis.com/auth/clouddevices"),
                 ("redirect_uri", "urn:ietf:wg:oauth:2.0:oob"),
                 ("response_type", "code"),
                 ("client_id", (self.MergeParams params).client_id_)]))),
            error2, { self.MergeParams params with ticket_id_ := ticket_id }, w1)

/-- The part of `FinishRegistration` before the loop: a user authorization code that is not
empty is exchanged for an access token of the user, with which the ticket is patched. The
result tells whether `FinishRegistration` goes on. -/
def PopulateUserInfo (WebParamsEncode : WebParamList → String) (env : Environment)
    (self : DeviceRegistrationInfo) (w : World) (user_auth_code : String) : Bool × World :=
  if user_auth_code = "" then (true, w)
  else
    match Send env w (.PostFormData (self.GetOAuthURL WebParamsEncode "token" [])
        [("code", user_auth_code), ("client_id", self.client_id_),
         ("client_secret", self.client_secret_),
         ("redirect_uri", "urn:ietf:wg:oauth:2.0:oob"),
         ("grant_type", "authorization_code")] []) with
    | (none, w1) => (false, w1)
    | (some response, w1) =>
      match (ParseOAuthResponse (some response) none).1 with
      | none => (false, w1)
      | some json_resp =>
        match GetString json_resp "access_token" with
        | none => (false, w1)
        | some user_access_token =>
          match Send env w1 (.PatchJson
              (self.GetServiceURL WebParamsEncode ("registrationTickets/" ++ self.ticket_id_)
                [])
              (.dictionary (SetString [] "userEmail" "me"))
              [BuildAuthHeader "Bearer" user_access_token]) with
          | (response2, w2) =>
            match (ParseJsonResponse response2 0 (some "")).1 with
            | none => (false, w2)
            | some _ => (true, w2)

/-- The URL of the loop of `FinishRegistration`: the URL of the ticket, to which
`"/finalize?key=" + api_key_` is appended. -/
def FinalizeURL (WebParamsEncode : WebParamList → String)
    (self : DeviceRegistrationInfo) : String :=
  self.GetServiceURL WebParamsEncode ("registrationTickets/" ++ self.ticket_id_) []
    ++ ("/finalize?key=" ++ self.api_key_)

/-- The `do ... while` loop of `FinishRegistration`: the request is sent again, after a sleep
of one second, as long as the response has the status `BadRequest`. The loop has no bound;
`fuel` bounds the number of requests of the model, which has no result when it runs out. -/
def FinalizeLoop (env : Environment) (url : String) : Nat → World →
    Option (Option Response × World)
  | 0, _ => none
  | fuel + 1, w =>
    match Send env w (.PostBinary url "") with
    | (none, w1) => some (none, w1)
    | (some response, w1) =>
      if response.GetStatusCode = status_code.BadRequest then
        FinalizeLoop env url fuel (sleep w1 1)
      else some (some response, w1)

/-- The part of `FinishRegistration` that exchanges the authorization code of the robot
account for the access token and the refresh token, and saves the record. -/
def ExchangeRobotCode (WebParamsEncode : WebParamList → String) (env : Environment)
    (self : DeviceRegistrationInfo) (w : World) (auth_code : String) :
    Bool × DeviceRegistrationInfo × World :=
  match Send env w (.PostFormData (self.GetOAuthURL WebParamsEncode "token" [])
      [("code", auth_code), ("client_id", self.client_id_),
       ("client_secret", self.client_secret_), ("redirect_uri", "oob"),
       ("scope", "https://www.googleapis.com/auth/clouddevices"),
       ("grant_type", "authorization_code")] []) with
  | (none, w1) => (false, self, w1)
  | (some response, w1) =>
    match (ParseOAuthResponse (some response) none).1 with
    | none => (false, self, w1)
    | some json_resp =>
      match GetString json_resp "access_token" with
      | none => (false, self, w1)
      | some access_token =>
        match GetString json_resp "refresh_token" with
        | none => (false, { self with access_token_ := access_token }, w1)
        | some refresh_token =>
          match GetInteger json_resp "expires_in" with
          | none =>
            (false, { self with access_token_ := access_token
                                refresh_token_ := refresh_token }, w1)
          | some expires_in =>
            if access_token = "" ∨ refresh_token = "" ∨ expires_in ≤ 0 then
              (false, { self with access_token_ := access_token
                                  refresh_token_ := refresh_token }, w1)
            else
              (true,
                { self with
                  access_token_ := access_token
                  refresh_token_ := refresh_token
                  access_token_expiration_ := w1.now + TimeDelta.FromSeconds expires_in },
                ({ self with
                  access_token_ := access_token
                  refresh_token_ := refresh_token
                  access_token_expiration_ := w1.now + TimeDelta.FromSeconds expires_in
                  }.Save env w1).2)

/-- The part of `FinishRegistration` after the loop, for the last response of the loop. -/
def CompleteRegistration (WebParamsEncode : WebParamList → String) (env : Environment)
    (self : DeviceRegistrationInfo) (w : World) (response : Option Response) :
    Bool × DeviceRegistrationInfo × World :=
  match response with
  | none => (true, self, w)
  | some r =>
    if r.GetStatusCode = status_code.Ok then
      match (ParseJsonResponse (some r) 0 none).1 with
      | none => (true, self, w)
      | some json_resp =>
        match GetString json_resp "robotAccountEmail" with
        | none => (true, self, w)
        | some robot_account =>
          match GetString json_resp "robotAccountAuthorizationCode" with
          | none => (true, { self with device_robot_account_ := robot_account }, w)
          | some auth_code =>
            match GetString json_resp "deviceDraft.id" with
            | none => (true, { self with device_robot_account_ := robot_account }, w)
            | some device_id =>
              ExchangeRobotCode WebParamsEncode env
                { self with device_robot_account_ := robot_account, device_id_ := device_id }
                w auth_code
    else (true, self, w)

/-- The method `FinishRegistration`. There is no result when the model of the loop runs out
of fuel. -/
def FinishRegistration (WebParamsEncode : WebParamList → String) (env : Environment)
    (fuel : Nat) (self : DeviceRegistrationInfo) (w : World) (user_auth_code : String) :
    Option (Bool × DeviceRegistrationInfo × World) :=
  if self.ticket_id_ = "" then some (false, self, w)
  else
    match self.PopulateUserInfo WebParamsEncode env w user_auth_code with
    | (false, w1) => some (false, self, w1)
    | (true, w1) =>
      match FinalizeLoop env (self.FinalizeURL WebParamsEncode) fuel w1 with
      | none => none
      | some (response, w2) => some (CompleteRegistration WebParamsEncode env self w2 response)

end DeviceRegistrationInfo

end buffet

/-! ## Registration records and cloud servers used as examples -/

namespace buffet

open base chromeos.http

namespace DeviceRegistrationInfo

/-- The seven values `StartRegistration` hands to `CheckParam`, each with the name it is
checked under, in the order of the calls. -/
def RequiredParams (self : DeviceRegistrationInfo) : List (String × String) :=
  [(kClientId, self.client_id_), (kClientSecret, self.client_secret_),
   (kApiKey, self.api_key_), (kDeviceKind, self.device_kind_),
   (kSystemName, self.system_name_), (kOAuthURL, self.oauth_url_),
   (kServiceURL, self.service_url_)]

/-- The request the loop of `FinishRegistration` sends: a `PostBinary` without data to the
finalize URL of the ticket. -/
def FinalizeRequest (WebParamsEncode : WebParamList → String)
    (self : DeviceRegistrationInfo) : Request :=
  .PostBinary (self.FinalizeURL WebParamsEncode) ""

/-- The request of `FinishRegistration` that exchanges the authorization code of the robot
account for tokens. -/
def RobotTokenRequest (WebParamsEncode : WebParamList → String)
    (self : DeviceRegistrationInfo) (auth_code : String) : Request :=
  .PostFormData (self.GetOAuthURL WebParamsEncode "token" [])
    [("code", auth_code), ("client_id", self.client_id_),
     ("client_secret", self.client_secret_), ("redirect_uri", "oob"),
     ("scope", "https://www.googleapis.com/auth/clouddevices"),
     ("grant_type", "authorization_code")] []

/-- The request of `ValidateAndRefreshAccessToken` that refreshes the access token. -/
def RefreshRequest (WebParamsEncode : WebParamList → String)
    (self : DeviceRegistrationInfo) : Request :=
  .PostFormData (self.GetOAuthURL WebParamsEncode "token" [])
    [("refresh_token", self.refresh_token_), ("client_id", self.client_id_),
     ("client_secret", self.client_secret_), ("grant_type", "refresh_token")] []

end DeviceRegistrationInfo

/-- A record in which every string is empty and the expiration is the null time. -/
def blank_device : DeviceRegistrationInfo :=
  { client_id_ := "", client_secret_ := "", api_key_ := "", refresh_token_ := "",
    device_id_ := "", device_robot_account_ := "", oauth_url_ := "", service_url_ := "",
    access_token_ := "", access_token_expiration_ := 0, ticket_id_ := "",
    device_kind_ := "", system_name_ := "", display_name_ := "" }

/-- A device that holds a registration ticket and is not registered yet. -/
def ticketed_device : DeviceRegistrationInfo :=
  { blank_device with
    client_id_ := "client", client_secret_ := "secret", api_key_ := "key",
    oauth_url_ := "https://oauth.example/o", service_url_ := "https://cloud.example/api/",
    ticket_id_ := "ticket7", device_kind_ := "vendor", system_name_ := "lamp" }

/-- A registered device whose access token expires at time 5000000. -/
def registered_device : DeviceRegistrationInfo :=
  { ticketed_device with
    refresh_token_ := "refresh1", device_id_ := "device9",
    device_robot_account_ := "robot@example", access_token_ := "access1",
    access_token_expiration_ := 5000000, ticket_id_ := "" }

/-- A form-encoding that is good enough for examples: `name=value` items joined by `&`,
nothing escaped. -/
def plainEncode : WebParamList → String
  | [] => ""
  | [(name, value)] => name ++ "=" ++ value
  | (name, value) :: rest => name ++ "=" ++ value ++ "&" ++ plainEncode rest

/-- A world at time `now` in which nothing has happened yet. -/
def quiet_world (now : Int) : World :=
  { now := now, sent := [], slept := 0, file := .unreadable, written := [] }

/-- The body of a token response: an access token that lasts an hour. -/
def refreshed_token : List (String × Value) :=
  [("access_token", .string "access2"), ("expires_in", .integer 3600)]

/-- A cloud whose token endpoint answers every request with `refreshed_token`, after two
microseconds. -/
def refresh_cloud : Environment :=
  { server := fun _ => some { status_code := 200, json := some refreshed_token,
                              parse_error := "" },
    elapsed := fun _ => 2,
    writable := true }

/-- The body of the finalize response of `approving_cloud`. -/
def finalized_ticket : List (String × Value) :=
  [("deviceDraft", .dictionary [("id", .string "device9")]),
   ("robotAccountAuthorizationCode", .string "code4"),
   ("robotAccountEmail", .string "robot@example")]

/-- The body of the token response of `approving_cloud`. -/
def robot_tokens : List (String × Value) :=
  [("access_token", .string "access1"), ("expires_in", .integer 3600),
   ("refresh_token", .string "refresh1")]

/-- A cloud in which the user approves the ticket after the second finalize request: the
first two requests are answered with the status 400, the third with the status 200 and
`finalized_ticket`, the fourth (the token exchange) with `robot_tokens`; later requests
get no response. -/
def approving_cloud : Environment :=
  { server := fun sent =>
      match sent.length with
      | 1 => some { status_code := 400, json := none, parse_error := "no body" }
      | 2 => some { status_code := 400, json := none, parse_error := "no body" }
      | 3 => some { status_code := 200, json := some finalized_ticket, parse_error := "" }
      | 4 => some { status_code := 200, json := some robot_tokens, parse_error := "" }
      | _ => none,
    elapsed := fun _ => 0,
    writable := true }

end buffet

/-! ## buffet/device_registration_info.cc: the persisted record -/

namespace buffet

open base chromeos.http

namespace DeviceRegistrationInfo

/-- The method `Load`: the values are read into temporaries first, and the record changes
only when all eight are there. The file is read from the world. -/
def Load (self : DeviceRegistrationInfo) (w : World) : Bool × DeviceRegistrationInfo :=
  match w.file with
  | .unreadable => (false, self)
  | .invalid_json => (false, self)
  | .json value =>
    match value.GetAsDictionary with
    | none => (false, self)
    | some dict =>
      match GetString dict kClientId with
      | none => (false, self)
      | some client_id =>
      match GetString dict kClientSecret with
      | none => (false, self)
      | some client_secret =>
      match GetString dict kApiKey with
      | none => (false, self)
      | some api_key =>
      match GetString dict kRefreshToken with
      | none => (false, self)
      | some refresh_token =>
      match GetString dict kDeviceId with
      | none => (false, self)
      | some device_id =>
      match GetString dict kOAuthURL with
      | none => (false, self)
      | some oauth_url =>
      match GetString dict kServiceURL with
      | none => (false, self)
      | some service_url =>
      match GetString dict kRobotAccount with
      | none => (false, self)
      | some device_robot_account =>
        (true, { self with
          client_id_ := client_id
          client_secret_ := client_secret
          api_key_ := api_key
          refresh_token_ := refresh_token
          device_id_ := device_id
          oauth_url_ := oauth_url
          service_url_ := service_url
          device_robot_account_ := device_robot_account })

/-- The eight persistent keys, in the order in which `Load` and `Save` go through them. -/
def PersistentKeys : List String :=
  [kClientId, kClientSecret, kApiKey, kRefreshToken, kDeviceId, kOAuthURL, kServiceURL,
   kRobotAccount]

/-- The eight fields of the record that are persisted, each with its key, in the order of
`PersistentKeys`. -/
def PersistentFields (self : DeviceRegistrationInfo) : List (String × String) :=
  [(kClientId, self.client_id_), (kClientSecret, self.client_secret_),
   (kApiKey, self.api_key_), (kRefreshToken, self.refresh_token_),
   (kDeviceId, self.device_id_), (kOAuthURL, self.oauth_url_),
   (kServiceURL, self.service_url_), (kRobotAccount, self.device_robot_account_)]

end DeviceRegistrationInfo

/-- A persisted registration with a ninth key, `note`, that the code does not know. -/
def annotated_registration : List (String × Value) :=
  [("api_key", .string "key"), ("client_id", .string "client"),
   ("client_secret", .string "secret"), ("device_id", .string "device9"),
   ("note", .string "kept by hand"), ("oauth_url", .string "https://oauth.example/o"),
   ("refresh_token", .string "refresh1"), ("robot_account", .string "robot@example"),
   ("service_url", .string "https://cloud.example/api/")]

/-- A world at time 0 whose persisted file holds the given JSON value. -/
def stored_world (value : Value) : World :=
  { now := 0, sent := [], slept := 0, file := .json value, written := [] }

/-- A cloud that answers every request with the status 500 and no JSON. -/
def failing_cloud : Environment :=
  { server := fun _ => some { status_code := 500, json := none, parse_error := "no body" },
    elapsed := fun _ => 0,
    writable := true }

/-- A cloud that answers no request. -/
def silent_cloud : Environment :=
  { server := fun _ => none, elapsed := fun _ => 0, writable := true }

/-- A cloud whose finalize response has the status 200 and holds the robot account, but
neither the authorization code nor the device ID. -/
def forgetful_cloud : Environment :=
  { server := fun _ => some { status_code := 200,
                              json := some [("robotAccountEmail", .string "robot@example")],
                              parse_error := "" },
    elapsed := fun _ => 0,
    writable := true }

end buffet

/-! ## buffet/commands/command_manager.cc

`ReadFileToString` stands for `base::ReadFileToString`, the content of the file at a path if
it can be read, and `ReadAndReturnError` for `base::JSONReader::ReadAndReturnError`, the
JSON value of a text or else the message of the parser; neither is under src/. -/

namespace buffet

open base

namespace errors

namespace file_system

/-- Modelled from the spec: the constants of `errors::file_system` (error_codes.h is not
under src/), with the names the spec lists for the `file_system` domain. -/
def kDomain : String := "file_system"

/-- Modelled from the spec: the code of `file_system/file_read_error`. -/
def kFileReadError : String := "file_read_error"

end file_system

namespace json

/-- Modelled from the spec: the constants of `errors::json` (error_codes.h is not under
src/), with the names the spec lists for the `json` domain. -/
def kDomain : String := "json"

/-- Modelled from the spec: the code of `json/parse_error`. -/
def kParseError : String := "parse_error"

/-- Modelled from the spec: the code of `json/object_expected`. -/
def kObjectExpected : String := "object_expected"

end json

end errors

namespace CommandManager

/-- The method `LoadJsonDict`. The result is the dictionary (none for a null pointer) and
the error slot. -/
def LoadJsonDict (ReadFileToString : String → Option String)
    (ReadAndReturnError : String → Except String Value) (json_file_path : String)
    (error : Option ErrorPtr) : Option (List (String × Value)) × Option ErrorPtr :=
  match ReadFileToString json_file_path with
  | none =>
    (none, Error.AddToPrintf error errors.file_system.kDomain
      errors.file_system.kFileReadError
      ("Failed to read file \x27" ++ json_file_path ++ "\x27"))
  | some json_string =>
    match ReadAndReturnError json_string with
    | .error error_message =>
      (none, Error.AddToPrintf error errors.json.kDomain errors.json.kParseError
        ("Error parsing content of JSON file \x27" ++ json_file_path ++ "\x27: " ++
          error_message))
    | .ok value =>
      match value.GetAsDictionary with
      | none =>
        (none, Error.AddToPrintf error errors.json.kDomain errors.json.kObjectExpected
          ("Content of file \x27" ++ json_file_path ++ "\x27 is not a JSON object"))
      | some dict_value => (some dict_value, error)

end CommandManager

/-- A file system with three files for examples: `commands.json` holds a JSON object,
`list.json` a JSON list and `broken.json` a text that is not JSON. -/
def example_files : String → Option String
  | "commands.json" => some "object"
  | "list.json" => some "list"
  | "broken.json" => some "broken"
  | _ => none

/-- A reader for the texts of `example_files`. -/
def example_reader : String → Except String Value
  | "object" => .ok (.dictionary [("_ledflasher", .dictionary [])])
  | "list" => .ok (.list [.integer 1])
  | _ => .error "Line: 1, column: 1, Unexpected token."

end buffet

/-! ## include/weave/error.h

The header declares `weave::Error`; its implementation (error.cc) is not under src/, so the
functions follow the comments of their declarations. -/

namespace tracked_objects

/-- Modelled from the spec: a `tracked_objects::Location` (base/location.h is not under
src/), the place in the source code that `FROM_HERE` stands for. -/
structure Location where
  function_name : String
  file_name : String
  line_number : Nat

end tracked_objects

namespace weave

open tracked_objects

/-- The class `Error`: domain, code, message, location and the inner error, which forms a
chain of errors. -/
inductive Error where
  | mk (location : Location) (domain : String) (code : String) (message : String)
      (inner_error : Option Error)

/-- The type `ErrorPtr`, null when there is no error. -/
abbrev ErrorPtr := Option Error

namespace Error

/-- The accessor `GetDomain`. -/
def GetDomain : Error → String
  | .mk _ d _ _ _ => d

/-- The accessor `GetCode`. -/
def GetCode : Error → String
  | .mk _ _ c _ _ => c

/-- The accessor `GetMessage`. -/
def GetMessage : Error → String
  | .mk _ _ _ m _ => m

/-- The accessor `GetLocation`. -/
def GetLocation : Error → Location
  | .mk l _ _ _ _ => l

/-- The accessor `GetInnerError`: "Gets a pointer to the inner error, if present. Returns
nullptr otherwise." -/
def GetInnerError : Error → Option Error
  | .mk _ _ _ _ i => i

/-- Modelled from the spec: `Error::Create` with an inner error: "Creates an instance of
Error class." -/
def Create (location : Location) (domain code message : String) (inner_error : ErrorPtr) :
    Error :=
  .mk location domain code message inner_error

/-- Modelled from the spec: `Error::AddTo`: "If |error| is not nullptr, creates another
instance of Error class, initializes it with specified arguments and adds it to the head of
the error chain pointed to by |error|." The slot is the argument and the result. -/
def AddTo (error : Option ErrorPtr) (location : Location) (domain code message : String) :
    Option ErrorPtr :=
  match error with
  | none => none
  | some chain => some (some (Create location domain code message chain))

/-- The errors of a chain from its head on, each with the chain it heads. -/
def Chain : Error → List Error
  | .mk l d c m none => [.mk l d c m none]
  | .mk l d c m (some inner) => .mk l d c m (some inner) :: Chain inner

/-- The errors of the chain a pointer starts, none for a null pointer. -/
def ChainFrom : Option Error → List Error
  | none => []
  | some e => e.Chain

/-- Modelled from the spec: `Error::GetFirstError`: "Gets a pointer to the first error
occurred. Returns itself if no inner error are available." -/
def GetFirstError : Error → Error
  | .mk l d c m none => .mk l d c m none
  | .mk _ _ _ _ (some inner) => GetFirstError inner

/-- Modelled from the spec: the walk of `Error::FindErrorOfDomain` from an error that is
there: "Returns the a pointer to the first matching error object found. Returns nullptr if
no match is found." -/
def FindErrorOfDomainFrom : Error → String → Option Error
  | .mk l d c m none, domain =>
    if d = domain then some (.mk l d c m none) else none
  | .mk l d c m (some inner), domain =>
    if d = domain then some (.mk l d c m (some inner))
    else FindErrorOfDomainFrom inner domain

/-- Modelled from the spec: `Error::FindErrorOfDomain`: "Finds an error object of particular
domain in the error chain stating at |error_chain_start|. [...] This method is safe to call
on a nullptr |error_chain_start| in which case the result will also be nullptr." -/
def FindErrorOfDomain (error_chain_start : Option Error) (domain : String) : Option Error :=
  match error_chain_start with
  | none => none
  | some e => e.FindErrorOfDomainFrom domain

/-- Modelled from the spec: the walk of `Error::FindError` from an error that is there:
"Returns the pointer to the first matching error object. Returns nullptr if no match is
found". -/
def FindErrorFrom : Error → String → String → Option Error
  | .mk l d c m none, domain, code =>
    if d = domain ∧ c = code then some (.mk l d c m none) else none
  | .mk l d c m (some inner), domain, code =>
    if d = domain ∧ c = code then some (.mk l d c m (some inner))
    else FindErrorFrom inner domain code

/-- Modelled from the spec: `Error::FindError`: "Finds an error of particular domain with
the given code in the error chain stating at |error_chain_start|. [...] Returns nullptr if
no match is found or if |error_chain_start| is nullptr." -/
def FindError (error_chain_start : Option Error) (domain code : String) : Option Error :=
  match error_chain_start with
  | none => none
  | some e => e.FindErrorFrom domain code

/-- Modelled from the spec: `Error::HasDomain`: "Checks if this or any of the inner errors
in the chain has the specified error domain." -/
def HasDomain : Error → String → Bool
  | .mk _ d _ _ none, domain => decide (d = domain)
  | .mk _ d _ _ (some inner), domain => decide (d = domain) || HasDomain inner domain

/-- Modelled from the spec: `Error::HasError`: "Checks if this or any of the inner errors in
the chain matches the specified error domain and code." -/
def HasError : Error → String → String → Bool
  | .mk _ d c _ none, domain, code => decide (d = domain) && decide (c = code)
  | .mk _ d c _ (some inner), domain, code =>
    (decide (d = domain) && decide (c = code)) || HasError inner domain code

end Error

/-- A chain of three errors for examples: an HTTP error wrapped by a JSON error wrapped by
another HTTP error. -/
def example_chain : Error :=
  .mk ⟨"Outer", "outer.cc", 30⟩ "http" "timeout" "third"
    (some (.mk ⟨"Middle", "middle.cc", 20⟩ "json" "parse_error" "second"
      (some (.mk ⟨"Inner", "inner.cc", 10⟩ "http" "timeout" "first" none))))

end weave

/-! ## examples/provider/curl_http_client.cc

libcurl is not under src/: what `curl_easy_perform` does with a request is the parameter
`perform`, which yields the result code, the text of `curl_easy_strerror` for it, the header
block and the body handed to `WriteFunction`, and the response code. A `std::string` is
held as a `String` and searched as its list of characters. -/

namespace weave
namespace examples

open tracked_objects

/-- The search behind `std::string::find`: the first position, counted from `i` at the head
of the remaining characters, at which the pattern occurs in them. -/
def findFrom (pattern : List Char) : List Char → Nat → Option Nat
  | [], i => if pattern = [] then some i else none
  | c :: cs, i =>
    if pattern.isPrefixOf (c :: cs) then some i else findFrom pattern cs (i + 1)

/-- The call `s.find(pattern, pos)`: the first position at or after `pos` at which the
pattern occurs, none for `npos`. Positions count characters, which for the single-byte
characters of a response header are the bytes that `std::string` counts. -/
def find (s pattern : String) (pos : Nat) : Option Nat :=
  if pos ≤ s.length then findFrom pattern.data (s.data.drop pos) pos else none

/-- The call `s.substr(pos, count)` for `pos` within the string: at most `count` characters
from position `pos` on. -/
def substr (s : String) (pos count : Nat) : String :=
  String.mk ((s.data.drop pos).take count)

/-- The struct `ResponseImpl`. -/
structure ResponseImpl where
  status : Int
  content_type : String
  data : String

/-- The method `GetStatusCode`. -/
def ResponseImpl.GetStatusCode (r : ResponseImpl) : Int := r.status

/-- The method `GetContentType`. -/
def ResponseImpl.GetContentType (r : ResponseImpl) : String := r.content_type

/-- The method `GetData`. -/
def ResponseImpl.GetData (r : ResponseImpl) : String := r.data

/-- The enumeration `CurlHttpClient::Method`. -/
inductive Method where
  | kGet
  | kPost
  | kPatch
  | kPut

/-- What `curl_easy_perform` and `curl_easy_getinfo` leave behind. -/
structure Transfer where
  res : Nat
  strerror : String
  header_data : String
  body_data : String
  response_code : Int

/-- The result code `CURLE_OK`. -/
def CURLE_OK : Nat := 0

/-- The constant `kContentType` of `SendRequestBlocking`. -/
def kContentType : String := "\r\nContent-Type:"

/-- The function `SendRequestBlocking`. The result is the response (none for a null
pointer) and the error. Both header and body are appended by `WriteFunction`, the header
block to `content_type`. -/
def SendRequestBlocking
    (perform : Method → String → List (String × String) → String → Transfer)
    (method : Method) (url : String) (headers : List (String × String)) (data : String) :
    Option ResponseImpl × ErrorPtr :=
  let transfer := perform method url headers data
  if transfer.res ≠ CURLE_OK then
    (none, (Error.AddTo (some none) ⟨"SendRequestBlocking", "curl_http_client.cc", 89⟩
      "curl" "curl_easy_perform_error" transfer.strerror).getD none)
  else
    match find transfer.header_data kContentType 0 with
    | none =>
      (none, (Error.AddTo (some none) ⟨"SendRequestBlocking", "curl_http_client.cc", 97⟩
        "curl" "no_content_header" "Content-Type header is missing").getD none)
    | some pos0 =>
      let pos := pos0 + kContentType.length
      let pos_end :=
        match find transfer.header_data "\r\n" pos with
        | none => transfer.header_data.length
        | some p => p
      (some { status := transfer.response_code
              content_type := substr transfer.header_data pos pos_end
              data := transfer.body_data }, none)

/-- The content type as the specification words it: the text between the marker
`"\r\nContent-Type:"` and the next `"\r\n"`, or the end of the block if there is none;
none when the marker is absent. -/
def TextAfterMarker (header_block : String) : Option String :=
  match find header_block kContentType 0 with
  | none => none
  | some pos0 =>
    match find header_block "\r\n" (pos0 + kContentType.length) with
    | none => some (String.mk (header_block.data.drop (pos0 + kContentType.length)))
    | some pos_end =>
      some (String.mk ((header_block.data.drop (pos0 + kContentType.length)).take
        (pos_end - (pos0 + kContentType.length))))

/-- The header block of a response with two header lines. -/
def json_header_block : String :=
  "HTTP/1.1 200 OK\r\nContent-Type: application/json\r\nContent-Length: 2\r\n\r\n"

/-- A transfer that succeeds with `json_header_block`, whatever the request is. -/
def json_transfer : Method → String → List (String × String) → String → Transfer :=
  fun _ _ _ _ =>
    { res := CURLE_OK, strerror := "No error", header_data := json_header_block,
      body_data := "{}", response_code := 200 }

/-- A transfer that succeeds with a header block without a content type. -/
def plain_transfer : Method → String → List (String × String) → String → Transfer :=
  fun _ _ _ _ =>
    { res := CURLE_OK, strerror := "No error",
      header_data := "HTTP/1.1 204 No Content\r\nContent-Length: 0\r\n\r\n",
      body_data := "", response_code := 204 }

end examples
end weave

/-! ## examples/daemon/ledflasher/ledflasher.cc

A command is handed to a handler as the dictionary of its parameters, or as none when the
weak pointer has expired. The `std::bitset` is the list of its bits from the least
significant one on. -/

namespace base

/-- The lookup `DictionaryValue::GetBoolean(path)`: the value has to be a boolean. -/
def GetBoolean (dict : List (String × Value)) (path : String) : Option Bool :=
  (Get dict path).bind Value.GetAsBoolean

end base

namespace ledflasher

open base

/-- Supported LED count on this device. -/
def kLedCount : Nat := 3

/-- The read `bits[index]` of a `std::bitset`: none when the index is out of range, where
the C++ access is undefined. -/
def bitset_get (bits : List Bool) (index : Int) : Option Bool :=
  if 0 ≤ index ∧ index < bits.length then bits.get? index.toNat else none

/-- The write `bits[index] = value` of a `std::bitset`: none when the index is out of range,
where the C++ access is undefined. -/
def bitset_set (bits : List Bool) (index : Int) (value : Bool) : Option (List Bool) :=
  if 0 ≤ index ∧ index < bits.length then some (bits.set index.toNat value) else none

/-- How a handler leaves a command: completed, or aborted with an error. -/
inductive CommandOutcome where
  | Complete
  | Abort (error : weave.Error)

/-- The class `LedFlasherHandler`: the bits `led_status_`, and the state property
`_ledflasher._leds` of the device as the handler last set it. -/
structure LedFlasherHandler where
  led_status_ : List Bool
  device_leds : List Bool

namespace LedFlasherHandler

/-- The method `UpdateLedState`: the bits are published as the state property. -/
def UpdateLedState (self : LedFlasherHandler) : LedFlasherHandler :=
  { self with device_leds := self.led_status_ }

/-- The error both handlers abort a command with. -/
def InvalidParameters (line : Nat) (function_name : String) : weave.Error :=
  weave.Error.Create ⟨function_name, "ledflasher.cc", line⟩ "example"
    "invalid_parameter_value" "Invalid parameters" none

/-- The handler `OnFlasherSetCommand`. There is no result when a bit out of range is
accessed; the outcome is none when the command is gone. -/
def OnFlasherSetCommand (self : LedFlasherHandler)
    (command : Option (List (String × Value))) :
    Option (LedFlasherHandler × Option CommandOutcome) :=
  match command with
  | none => some (self, none)
  | some parameters =>
    match GetInteger parameters "_led", GetBoolean parameters "_on" with
    | some led_index, some cmd_value =>
      match bitset_get self.led_status_ (led_index - 1) with
      | none => none
      | some cur_state =>
        match bitset_set self.led_status_ (led_index - 1) cmd_value with
        | none => none
        | some led_status =>
          if cmd_value ≠ cur_state then
            some (UpdateLedState { self with led_status_ := led_status }, some .Complete)
          else some ({ self with led_status_ := led_status }, some .Complete)
    | _, _ => some (self, some (.Abort (InvalidParameters 86 "OnFlasherSetCommand")))

/-- The handler `OnFlasherToggleCommand`. There is no result when a bit out of range is
accessed; the outcome is none when the command is gone. -/
def OnFlasherToggleCommand (self : LedFlasherHandler)
    (command : Option (List (String × Value))) :
    Option (LedFlasherHandler × Option CommandOutcome) :=
  match command with
  | none => some (self, none)
  | some parameters =>
    match GetInteger parameters "_led" with
    | some led_index =>
      match bitset_get self.led_status_ (led_index - 1) with
      | none => none
      | some cur_state =>
        match bitset_set self.led_status_ (led_index - 1) (!cur_state) with
        | none => none
        | some led_status =>
          some (UpdateLedState { self with led_status_ := led_status }, some .Complete)
    | none => some (self, some (.Abort (InvalidParameters 107 "OnFlasherToggleCommand")))

end LedFlasherHandler

/-- The handler as it is constructed and registered: all LEDs off. -/
def fresh_handler : LedFlasherHandler :=
  { led_status_ := [false, false, false], device_leds := [false, false, false] }

end ledflasher

/-! ## weave: leaf keys of changed properties, timestamps of calls -/

namespace weave

open base

mutual
/-- Whether the keys of every dictionary inside a value are distinct, as they are in a
`base::DictionaryValue`. -/
def DistinctKeys : Value → Bool
  | .dictionary entries => decide ((entries.map Prod.fst).Nodup) && DistinctKeysIn entries
  | _ => true
/-- Whether the keys of every dictionary inside the values of the entries are distinct. -/
def DistinctKeysIn : List (String × Value) → Bool
  | [] => true
  | (_, v) :: rest => DistinctKeys v && DistinctKeysIn rest
end

/-- The timestamp of a call that notifies, none for a drain. -/
def QueueCall.timestamp : QueueCall → Option Int
  | .Notify timestamp _ => some timestamp
  | .Drain => none

end weave

/-! ## Theorems -/

/-! ### Induction over types, constraint validation -/

namespace buffet
open base

theorem PropType_induct {P : PropType → Prop}
    (step : ∀ type c d props extra, (∀ p ∈ props, P p.2) →
      P (.mk type c d (.mk props extra))) : ∀ t, P t
  | .mk type c d (.mk props extra) =>
    step type c d props extra (fun p hp => PropType_induct step p.2)
termination_by t => sizeOf t
decreasing_by
  have h1 := List.sizeOf_lt_of_mem hp
  have h2 : sizeOf p.2 < sizeOf p := by
    cases p; simp
  simp
  omega

theorem Constraint.Validate_true (c : Constraint) (v : PropValue) (e : Option ErrorPtr)
    (h : (c.Validate v e).1 = true) : c.holds v = true ∧ c.Validate v e = (true, e) := by
  unfold Constraint.Validate at *
  by_cases hc : c.holds v = true
  · simp [hc]
  · simp [hc] at h

theorem Constraint.Validate_false (c : Constraint) (v : PropValue) (e : Option ErrorPtr)
    (h : (c.Validate v e).1 = false) :
    c.holds v = false ∧ c.Validate v e = (false, Error.AddToPrintf e errors.commands.kDomain
      errors.commands.kOutOfRange c.describe) := by
  unfold Constraint.Validate at *
  by_cases hc : c.holds v = true
  · simp [hc] at h
  · simp [hc]

theorem ValidateConstraintList_true (cs : List Constraint) (v : PropValue)
    (e : Option ErrorPtr) (h : (ValidateConstraintList cs v e).1 = true) :
    ValidateConstraintList cs v e = (true, e) ∧ ∀ c ∈ cs, c.holds v = true := by
  induction cs with
  | nil => simp [ValidateConstraintList]
  | cons c rest ih =>
    simp only [ValidateConstraintList] at h ⊢
    cases hv : (c.Validate v e).1 with
    | true =>
      have h1 := Constraint.Validate_true c v e hv
      rw [h1.2] at h ⊢
      simp only at h ⊢
      have h2 := ih h
      refine ⟨h2.1, ?_⟩
      intro c' hc'
      rcases List.mem_cons.mp hc' with rfl | hm
      · exact h1.1
      · exact h2.2 c' hm
    | false =>
      have h1 := Constraint.Validate_false c v e hv
      rw [h1.2] at h
      simp at h

theorem ValidateConstraintList_false (cs : List Constraint) (v : PropValue)
    (e : Option ErrorPtr) (h : (ValidateConstraintList cs v e).1 = false) :
    ∃ c ∈ cs, c.holds v = false ∧
      ValidateConstraintList cs v e = (false, Error.AddToPrintf e errors.commands.kDomain
        errors.commands.kOutOfRange c.describe) := by
  induction cs with
  | nil => simp [ValidateConstraintList] at h
  | cons c rest ih =>
    simp only [ValidateConstraintList] at h ⊢
    cases hv : (c.Validate v e).1 with
    | true =>
      have h1 := Constraint.Validate_true c v e hv
      rw [h1.2] at h ⊢
      simp only at h ⊢
      obtain ⟨c', hm, hc', heq⟩ := ih h
      exact ⟨c', List.mem_cons_of_mem _ hm, hc', heq⟩
    | false =>
      have h1 := Constraint.Validate_false c v e hv
      rw [h1.2]
      exact ⟨c, List.mem_cons_self _ _, h1.1, rfl⟩

end buffet

namespace buffet
open base

theorem ValidateConstraintList_fst (cs : List Constraint) (v : PropValue)
    (e : Option ErrorPtr) :
    (ValidateConstraintList cs v e).1 = cs.all (fun c => c.holds v) := by
  induction cs generalizing e with
  | nil => simp [ValidateConstraintList]
  | cons c rest ih =>
    simp only [ValidateConstraintList, List.all_cons]
    by_cases hc : c.holds v = true
    · simp [Constraint.Validate, hc, ih]
    · simp [Constraint.Validate, hc]

theorem ValidateConstraints_fst_indep (t : PropType) (v : PropValue)
    (e e2 : Option ErrorPtr) :
    (t.ValidateConstraints v e).1 = (t.ValidateConstraints v e2).1 := by
  simp [PropType.ValidateConstraints, ValidateConstraintList_fst]

theorem ValidateConstraints_true (t : PropType) (v : PropValue) (e : Option ErrorPtr)
    (h : (t.ValidateConstraints v e).1 = true) : t.ValidateConstraints v e = (true, e) :=
  (ValidateConstraintList_true _ v e h).1

theorem ValidateConstraints_false (t : PropType) (v : PropValue) (e : Option ErrorPtr)
    (h : (t.ValidateConstraints v e).1 = false) :
    ∃ c ∈ t.GetConstraints, c.holds v = false ∧
      t.ValidateConstraints v e = (false, Error.AddToPrintf e errors.commands.kDomain
        errors.commands.kOutOfRange c.describe) :=
  ValidateConstraintList_false _ v e h

theorem ValidateProps_true (out : List (String × PropValue)) (e : Option ErrorPtr)
    (h : (ValidateProps out e).1 = true) :
    ValidateProps out e = (true, e) ∧
      ∀ p ∈ out, (p.2.GetPropType.ValidateConstraints p.2 e).1 = true := by
  induction out with
  | nil => simp [ValidateProps]
  | cons p rest ih =>
    obtain ⟨name, v⟩ := p
    simp only [ValidateProps] at h ⊢
    cases hv : (v.GetPropType.ValidateConstraints v e).1 with
    | true =>
      have h1 := ValidateConstraints_true _ v e hv
      rw [h1] at h ⊢
      simp only at h ⊢
      have h2 := ih h
      refine ⟨h2.1, ?_⟩
      intro p hp
      rcases List.mem_cons.mp hp with rfl | hm
      · exact hv
      · exact h2.2 p hm
    | false =>
      obtain ⟨c, -, -, h1⟩ := ValidateConstraints_false _ v e hv
      rw [h1] at h
      simp at h

theorem ValidateProps_false (out : List (String × PropValue)) (e : Option ErrorPtr)
    (h : ∃ p ∈ out, (p.2.GetPropType.ValidateConstraints p.2 e).1 = false) :
    ∃ pre name v post, out = pre ++ (name, v) :: post ∧
      (∀ p ∈ pre, (p.2.GetPropType.ValidateConstraints p.2 e).1 = true) ∧
      (v.GetPropType.ValidateConstraints v e).1 = false ∧
      ValidateProps out e = (false, Error.AddToPrintf
        (v.GetPropType.ValidateConstraints v e).2 errors.commands.kDomain
        errors.commands.kInvalidPropValue
        ("Invalid parameter value for property \x27" ++ name ++ "\x27")) := by
  induction out with
  | nil => simp at h
  | cons p rest ih =>
    obtain ⟨name, v⟩ := p
    simp only [ValidateProps]
    cases hv : (v.GetPropType.ValidateConstraints v e).1 with
    | true =>
      have h1 := ValidateConstraints_true _ v e hv
      rw [h1]
      simp only
      have h' : ∃ p ∈ rest, (p.2.GetPropType.ValidateConstraints p.2 e).1 = false := by
        obtain ⟨p, hp, hpv⟩ := h
        rcases List.mem_cons.mp hp with rfl | hm
        · simp [hv] at hpv
        · exact ⟨p, hm, hpv⟩
      obtain ⟨pre, n2, v2, post, heq, hpre, hv2, hres⟩ := ih h'
      refine ⟨(name, v) :: pre, n2, v2, post, by simp [heq], ?_, hv2, hres⟩
      intro p hp
      rcases List.mem_cons.mp hp with rfl | hm
      · exact hv
      · exact hpre p hm
    | false =>
      obtain ⟨c, -, -, h1⟩ := ValidateConstraints_false _ v e hv
      refine ⟨[], name, v, rest, rfl, by simp, hv, ?_⟩
      rw [h1]

end buffet

/-! ### The first loop of the object overload -/

namespace buffet
open base

theorem props_ok (write : Value → String) (props : List (String × PropType))
    (hK : ∀ p ∈ props, ∀ j e pv e2, p.2.CreateValueFromJson write j e = (true, pv, e2) → e2 = e)
    (dict : List (String × Value)) (vo : List (String × PropValue)) (ks : List String)
    (e : Option ErrorPtr) (out : List (String × PropValue)) (ks2 : List String)
    (e2 : Option ErrorPtr)
    (h : TypedValueFromJson_props write props dict vo ks e = (true, out, ks2, e2)) :
    e2 = e ∧ ks2 = (props.map Prod.fst).reverse ++ ks ∧
      (∀ p ∈ props, (fieldValue write dict e p.1 p.2).isSome = true) ∧
      out = insertAll (parsedFields write dict e props) vo := by
  induction props generalizing vo ks with
  | nil =>
    simp only [TypedValueFromJson_props, Prod.mk.injEq] at h
    obtain ⟨-, rfl, rfl, rfl⟩ := h
    simp [parsedFields, insertAll]
  | cons p rest ih =>
    obtain ⟨name, t⟩ := p
    have hK2 : ∀ p ∈ rest, ∀ j e pv e2,
        p.2.CreateValueFromJson write j e = (true, pv, e2) → e2 = e :=
      fun p hp => hK p (List.mem_cons_of_mem _ hp)
    simp only [TypedValueFromJson_props] at h
    cases hg : GetWithoutPathExpansion dict name with
    | some j =>
      rw [hg] at h
      simp only at h
      generalize hc : t.CreateValueFromJson write j e = r at h
      obtain ⟨ok, val, e1⟩ := r
      cases ok with
      | false => simp at h
      | true =>
        simp only at h
        have he1 : e1 = e := hK (name, t) (List.mem_cons_self _ _) j e val e1 hc
        subst he1
        obtain ⟨h1, h2, h3, h4⟩ := ih hK2 _ _ h
        have hf : fieldValue write dict e1 name t = some val := by
          simp [fieldValue, hg, hc]
        refine ⟨h1, ?_, ?_, ?_⟩
        · simp [h2]
        · intro p hp
          rcases List.mem_cons.mp hp with rfl | hm
          · simp [hf]
          · exact h3 p hm
        · rw [h4]
          simp [parsedFields, insertAll, hf]
    | none =>
      rw [hg] at h
      simp only at h
      cases hd : t.GetDefaultValue with
      | none =>
        rw [hd] at h
        simp at h
      | some dv =>
        rw [hd] at h
        simp only at h
        obtain ⟨h1, h2, h3, h4⟩ := ih hK2 _ _ h
        have hf : fieldValue write dict e name t = some dv.Clone := by
          simp [fieldValue, hg, hd]
        refine ⟨h1, ?_, ?_, ?_⟩
        · simp [h2]
        · intro p hp
          rcases List.mem_cons.mp hp with rfl | hm
          · simp [hf]
          · exact h3 p hm
        · rw [h4]
          simp [parsedFields, insertAll, hf]

end buffet

namespace buffet
open base

theorem Object_ok_error_aux (write : Value → String) (props : List (String × PropType))
    (extra : Bool)
    (hK : ∀ p ∈ props, ∀ j e pv e2, p.2.CreateValueFromJson write j e = (true, pv, e2) → e2 = e)
    (v : Value) (vo : List (String × PropValue)) (e : Option ErrorPtr)
    (out : List (String × PropValue)) (e2 : Option ErrorPtr)
    (h : TypedValueFromJson_Object write v (.mk props extra) vo e = (true, out, e2)) :
    e2 = e := by
  simp only [TypedValueFromJson_Object] at h
  cases hd : v.GetAsDictionary with
  | none => rw [hd] at h; simp at h
  | some dict =>
    rw [hd] at h
    simp only at h
    generalize hl : TypedValueFromJson_props write props dict vo [] e = r at h
    obtain ⟨ok, out1, ks1, e1⟩ := r
    cases ok with
    | false => simp at h
    | true =>
      simp only at h
      obtain ⟨he1, -, -, -⟩ := props_ok write props hK dict vo [] e out1 ks1 e1 hl
      subst he1
      cases hu : FindUnknownKey ks1 extra dict with
      | some key => rw [hu] at h; simp at h
      | none =>
        rw [hu] at h
        simp only at h
        generalize hv : ValidateProps out1 e1 = r2 at h
        obtain ⟨ok2, e3⟩ := r2
        simp only [Prod.mk.injEq] at h
        obtain ⟨rfl, -, rfl⟩ := h
        have := (ValidateProps_true out1 e1 (by rw [hv])).1
        rw [hv] at this
        simpa using this

theorem CreateValueFromJson_ok_error (write : Value → String) (t : PropType) :
    ∀ j e pv e2, t.CreateValueFromJson write j e = (true, pv, e2) → e2 = e := by
  induction t using PropType_induct with
  | step type c d props extra ih =>
    intro j e pv e2 h
    cases type with
    | Boolean =>
      simp only [PropType.CreateValueFromJson, TypedValueFromJson_bool] at h
      cases hj : j.GetAsBoolean with
      | none => rw [hj] at h; simp at h
      | some b => rw [hj] at h; simp at h; exact h.2.symm
    | Int =>
      simp only [PropType.CreateValueFromJson, TypedValueFromJson_int] at h
      cases hj : j.GetAsInteger with
      | none => rw [hj] at h; simp at h
      | some b => rw [hj] at h; simp at h; exact h.2.symm
    | Double =>
      simp only [PropType.CreateValueFromJson, TypedValueFromJson_double] at h
      cases hj : j.GetAsDouble with
      | none => rw [hj] at h; simp at h
      | some b => rw [hj] at h; simp at h; exact h.2.symm
    | String =>
      simp only [PropType.CreateValueFromJson, TypedValueFromJson_string] at h
      cases hj : j.GetAsString with
      | none => rw [hj] at h; simp at h
      | some b => rw [hj] at h; simp at h; exact h.2.symm
    | Object =>
      simp only [PropType.CreateValueFromJson] at h
      generalize ho : TypedValueFromJson_Object write j (.mk props extra) [] e = r at h
      obtain ⟨ok, obj, e1⟩ := r
      simp only [Prod.mk.injEq] at h
      obtain ⟨rfl, -, rfl⟩ := h
      exact Object_ok_error_aux write props extra ih j [] e obj e1 ho

theorem Object_ok_error (write : Value → String) (schema : ObjectSchema)
    (v : Value) (vo : List (String × PropValue)) (e : Option ErrorPtr)
    (out : List (String × PropValue)) (e2 : Option ErrorPtr)
    (h : TypedValueFromJson_Object write v schema vo e = (true, out, e2)) : e2 = e := by
  obtain ⟨props, extra⟩ := schema
  exact Object_ok_error_aux write props extra
    (fun p _ => CreateValueFromJson_ok_error write p.2) v vo e out e2 h

theorem props_ok2 (write : Value → String) (props : List (String × PropType))
    (dict : List (String × Value)) (vo : List (String × PropValue)) (ks : List String)
    (e : Option ErrorPtr) (out : List (String × PropValue)) (ks2 : List String)
    (e2 : Option ErrorPtr)
    (h : TypedValueFromJson_props write props dict vo ks e = (true, out, ks2, e2)) :
    e2 = e ∧ ks2 = (props.map Prod.fst).reverse ++ ks ∧
      (∀ p ∈ props, (fieldValue write dict e p.1 p.2).isSome = true) ∧
      out = insertAll (parsedFields write dict e props) vo :=
  props_ok write props (fun p _ => CreateValueFromJson_ok_error write p.2) dict vo ks e out
    ks2 e2 h

end buffet

/-! ### Missing parameters (C3) -/

namespace buffet
open base

theorem props_append (write : Value → String) (pre rest : List (String × PropType))
    (dict : List (String × Value)) (vo : List (String × PropValue)) (ks : List String)
    (e : Option ErrorPtr) :
    TypedValueFromJson_props write (pre ++ rest) dict vo ks e =
      match TypedValueFromJson_props write pre dict vo ks e with
      | (true, out, ks1, e1) => TypedValueFromJson_props write rest dict out ks1 e1
      | (false, out, ks1, e1) => (false, out, ks1, e1) := by
  induction pre generalizing vo ks e with
  | nil => simp [TypedValueFromJson_props]
  | cons p pre ih =>
    obtain ⟨name, t⟩ := p
    simp only [List.cons_append, TypedValueFromJson_props]
    cases hg : GetWithoutPathExpansion dict name with
    | some j =>
      simp only
      generalize hc : t.CreateValueFromJson write j e = r
      obtain ⟨ok, val, e1⟩ := r
      cases ok with
      | false => simp
      | true => simp only; exact ih _ _ _
    | none =>
      simp only
      cases hd : t.GetDefaultValue with
      | none => simp
      | some dv => simp only; exact ih _ _ _

theorem Object_props_false (write : Value → String) (props : List (String × PropType))
    (extra : Bool) (dict : List (String × Value)) (vo : List (String × PropValue))
    (e : Option ErrorPtr)
    (h : (TypedValueFromJson_props write props dict vo [] e).1 = false) :
    TypedValueFromJson_Object write (.dictionary dict) (.mk props extra) vo e =
      (false, (TypedValueFromJson_props write props dict vo [] e).2.1,
        (TypedValueFromJson_props write props dict vo [] e).2.2.2) := by
  generalize hl : TypedValueFromJson_props write props dict vo [] e = r at *
  obtain ⟨ok, out, ks, e1⟩ := r
  simp only at h
  subst h
  simp [TypedValueFromJson_Object, Value.GetAsDictionary, hl]

theorem props_first_rejected (write : Value → String) (props : List (String × PropType))
    (dict : List (String × Value)) (vo : List (String × PropValue)) (ks : List String)
    (e : Option ErrorPtr)
    (h : (TypedValueFromJson_props write props dict vo ks e).1 = false) :
    ∃ pre name ptype post, props = pre ++ (name, ptype) :: post ∧
      (TypedValueFromJson_props write pre dict vo ks e).1 = true ∧
      ((∃ param_value, GetWithoutPathExpansion dict name = some param_value ∧
          (ptype.CreateValueFromJson write param_value e).1 = false ∧
          TypedValueFromJson_props write props dict vo ks e =
            (false, (TypedValueFromJson_props write pre dict vo ks e).2.1,
              (TypedValueFromJson_props write pre dict vo ks e).2.2.1,
              (ptype.CreateValueFromJson write param_value e).2.2)) ∨
        (GetWithoutPathExpansion dict name = none ∧ ptype.GetDefaultValue = none ∧
          TypedValueFromJson_props write props dict vo ks e =
            (false, (TypedValueFromJson_props write pre dict vo ks e).2.1,
              (TypedValueFromJson_props write pre dict vo ks e).2.2.1,
              Error.AddToPrintf e "commands" "parameter_missing"
                ("Required parameter missing: " ++ name)))) := by
  induction props generalizing vo ks with
  | nil => simp [TypedValueFromJson_props] at h
  | cons p rest ih =>
    obtain ⟨n, t⟩ := p
    cases hg : GetWithoutPathExpansion dict n with
    | some j =>
      generalize hc : t.CreateValueFromJson write j e = r
      obtain ⟨ok, val, e1⟩ := r
      cases ok with
      | false =>
        refine ⟨[], n, t, rest, rfl, by simp [TypedValueFromJson_props], Or.inl ⟨j, hg, ?_, ?_⟩⟩
        · rw [hc]
        · simp [TypedValueFromJson_props, hg, hc]
      | true =>
        have he : e1 = e := CreateValueFromJson_ok_error write t j e val e1 hc
        subst he
        have hstep : ∀ l : List (String × PropType),
            TypedValueFromJson_props write ((n, t) :: l) dict vo ks e1 =
              TypedValueFromJson_props write l dict (mapInsert n val vo) (n :: ks) e1 := by
          intro l
          simp [TypedValueFromJson_props, hg, hc]
        rw [hstep] at h
        obtain ⟨pre, name, ptype, post, hsplit, hpre, hcase⟩ := ih _ _ h
        refine ⟨(n, t) :: pre, name, ptype, post, by rw [hsplit]; rfl, by rw [hstep]; exact hpre,
          ?_⟩
        rw [hstep, hstep]
        exact hcase
    | none =>
      cases hd : t.GetDefaultValue with
      | none =>
        refine ⟨[], n, t, rest, rfl, by simp [TypedValueFromJson_props], Or.inr ⟨hg, hd, ?_⟩⟩
        simp [TypedValueFromJson_props, hg, hd, ErrorMissingProperty,
          errors.commands.kDomain, errors.commands.kPropertyMissing]
      | some dv =>
        have hstep : ∀ l : List (String × PropType),
            TypedValueFromJson_props write ((n, t) :: l) dict vo ks e =
              TypedValueFromJson_props write l dict (mapInsert n dv.Clone vo) (n :: ks) e := by
          intro l
          simp [TypedValueFromJson_props, hg, hd]
        rw [hstep] at h
        obtain ⟨pre, name, ptype, post, hsplit, hpre, hcase⟩ := ih _ _ h
        refine ⟨(n, t) :: pre, name, ptype, post, by rw [hsplit]; rfl, by rw [hstep]; exact hpre,
          ?_⟩
        rw [hstep, hstep]
        exact hcase

theorem Object_first_rejected (write : Value → String) (props : List (String × PropType))
    (extra : Bool) (dict : List (String × Value)) (vo : List (String × PropValue))
    (e : Option ErrorPtr)
    (h : (TypedValueFromJson_props write props dict vo [] e).1 = false) :
    ∃ pre name ptype post, props = pre ++ (name, ptype) :: post ∧
      (TypedValueFromJson_props write pre dict vo [] e).1 = true ∧
      ((∃ param_value, GetWithoutPathExpansion dict name = some param_value ∧
          (ptype.CreateValueFromJson write param_value e).1 = false ∧
          TypedValueFromJson_Object write (.dictionary dict) (.mk props extra) vo e =
            (false, (TypedValueFromJson_props write pre dict vo [] e).2.1,
              (ptype.CreateValueFromJson write param_value e).2.2)) ∨
        (GetWithoutPathExpansion dict name = none ∧ ptype.GetDefaultValue = none ∧
          TypedValueFromJson_Object write (.dictionary dict) (.mk props extra) vo e =
            (false, (TypedValueFromJson_props write pre dict vo [] e).2.1,
              Error.AddToPrintf e "commands" "parameter_missing"
                ("Required parameter missing: " ++ name)))) := by
  obtain ⟨pre, name, ptype, post, hsplit, hpre, hcase⟩ :=
    props_first_rejected write props dict vo [] e h
  refine ⟨pre, name, ptype, post, hsplit, hpre, ?_⟩
  rw [Object_props_false write props extra dict vo e h]
  rcases hcase with ⟨pv, h1, h2, h3⟩ | ⟨h1, h2, h3⟩
  · exact Or.inl ⟨pv, h1, h2, by rw [h3]⟩
  · exact Or.inr ⟨h1, h2, by rw [h3]⟩

/-- Claim C3, amended: if some declared field is absent from the JSON dictionary and
declares no default, `TypedValueFromJson` fails. The error is `commands/parameter_missing`
with the message "Required parameter missing: " followed by the name of that field when the
loop accepted every field declared before it; otherwise the error of the first rejected
field is the one reported: in every case the declared fields split into fields the loop
accepted and the first field it rejected, and the error of the call is the error of the
conversion of that field when its key is present, `commands/parameter_missing` naming that
field when its key is absent. -/
theorem C3_missing_parameter (write : Value → String) (extra : Bool)
    (dict : List (String × Value)) (value_out : List (String × PropValue))
    (error : Option ErrorPtr) :
    (∀ props : List (String × PropType),
      (∃ p ∈ props, GetWithoutPathExpansion dict p.1 = none ∧ p.2.GetDefaultValue = none) →
      (TypedValueFromJson_Object write (.dictionary dict) (.mk props extra) value_out
        error).1 = false) ∧
    (∀ (pre post : List (String × PropType)) (name : String) (ptype : PropType),
      (TypedValueFromJson_props write pre dict value_out [] error).1 = true →
      GetWithoutPathExpansion dict name = none → ptype.GetDefaultValue = none →
      TypedValueFromJson_Object write (.dictionary dict)
          (.mk (pre ++ (name, ptype) :: post) extra) value_out error
        = (false, (TypedValueFromJson_props write pre dict value_out [] error).2.1,
            Error.AddToPrintf error "commands" "parameter_missing"
              ("Required parameter missing: " ++ name))) ∧
    (∀ props : List (String × PropType),
      (∃ p ∈ props, GetWithoutPathExpansion dict p.1 = none ∧ p.2.GetDefaultValue = none) →
      ∃ pre name ptype post, props = pre ++ (name, ptype) :: post ∧
        (TypedValueFromJson_props write pre dict value_out [] error).1 = true ∧
        ((∃ param_value, GetWithoutPathExpansion dict name = some param_value ∧
            (ptype.CreateValueFromJson write param_value error).1 = false ∧
            TypedValueFromJson_Object write (.dictionary dict) (.mk props extra) value_out
                error =
              (false, (TypedValueFromJson_props write pre dict value_out [] error).2.1,
                (ptype.CreateValueFromJson write param_value error).2.2)) ∨
          (GetWithoutPathExpansion dict name = none ∧ ptype.GetDefaultValue = none ∧
            TypedValueFromJson_Object write (.dictionary dict) (.mk props extra) value_out
                error =
              (false, (TypedValueFromJson_props write pre dict value_out [] error).2.1,
                Error.AddToPrintf error "commands" "parameter_missing"
                  ("Required parameter missing: " ++ name))))) := by
  have hfails : ∀ props : List (String × PropType),
      (∃ p ∈ props, GetWithoutPathExpansion dict p.1 = none ∧ p.2.GetDefaultValue = none) →
      (TypedValueFromJson_props write props dict value_out [] error).1 = false := by
    intro props ⟨p, hp, habs, hdef⟩
    cases hl : (TypedValueFromJson_props write props dict value_out [] error).1 with
    | false => rfl
    | true =>
      exfalso
      generalize hr : TypedValueFromJson_props write props dict value_out [] error = r at hl
      obtain ⟨ok, out, ks, e1⟩ := r
      simp only at hl
      subst hl
      obtain ⟨-, -, h3, -⟩ := props_ok2 write props dict value_out [] error out ks e1 hr
      have := h3 p hp
      simp [fieldValue, habs, hdef] at this
  refine ⟨?_, ?_, ?_⟩
  · intro props hmissing
    rw [Object_props_false write props extra dict value_out error (hfails props hmissing)]
  rotate_left
  · intro props hmissing
    exact Object_first_rejected write props extra dict value_out error (hfails props hmissing)
  · intro pre post name ptype hpre habs hdef
    generalize hr : TypedValueFromJson_props write pre dict value_out [] error = r at hpre
    obtain ⟨ok, out, ks, e1⟩ := r
    simp only at hpre
    subst hpre
    obtain ⟨he, -, -, -⟩ := props_ok2 write pre dict value_out [] error out ks e1 hr
    subst he
    have hloop : TypedValueFromJson_props write (pre ++ (name, ptype) :: post) dict value_out []
        e1 = (false, out, ks, (ErrorMissingProperty e1 name).2) := by
      rw [props_append, hr]
      simp [TypedValueFromJson_props, habs, hdef]
    rw [Object_props_false write _ extra dict value_out e1 (by rw [hloop])]
    rw [hloop]
    rfl

end buffet

/-! ### Defaults and parsed fields (C6) -/

namespace buffet
open base

theorem mapFind_eq_none_iff {α : Type} (key : String) (m : List (String × α)) :
    mapFind key m = none ↔ key ∉ m.map Prod.fst := by
  induction m with
  | nil => simp [mapFind]
  | cons p rest ih =>
    obtain ⟨k, x⟩ := p
    by_cases hk : k = key
    · simp [mapFind, hk]
    · simp only [mapFind, hk, if_false, ih, List.map_cons, List.mem_cons, not_or]
      constructor
      · intro h; exact ⟨fun h2 => hk h2.symm, h⟩
      · intro h; exact h.2

theorem mapFind_mapInsert_of_absent {α : Type} (key k2 : String) (v : α)
    (m : List (String × α)) (h : mapFind k2 m = none) :
    mapFind key (mapInsert k2 v m) = if k2 = key then some v else mapFind key m := by
  induction m with
  | nil => simp [mapInsert, mapFind]
  | cons p rest ih =>
    obtain ⟨k, x⟩ := p
    have hk : k ≠ k2 := by
      intro hk; simp [mapFind, hk] at h
    have hrest : mapFind k2 rest = none := by
      simpa [mapFind, hk] using h
    simp only [mapInsert, hk, if_false]
    by_cases hlt : keyLt k2 k = true
    · simp only [hlt, if_true, mapFind]
    · simp only [hlt, mapFind, ih hrest]
      by_cases hkk : k = key
      · have : k2 ≠ key := fun h2 => hk (hkk.trans h2.symm)
        simp [hkk, this]
      · simp [hkk]

theorem mapFind_insertAll (key : String) (fields vo : List (String × PropValue))
    (hnd : (fields.map Prod.fst).Nodup) (habs : ∀ p ∈ fields, mapFind p.1 vo = none) :
    mapFind key (insertAll fields vo) =
      match mapFind key fields with
      | some x => some x
      | none => mapFind key vo := by
  induction fields generalizing vo with
  | nil => simp [insertAll, mapFind]
  | cons p rest ih =>
    obtain ⟨k, x⟩ := p
    simp only [List.map_cons, List.nodup_cons] at hnd
    have hvo : mapFind k vo = none := habs (k, x) (List.mem_cons_self _ _)
    have habs2 : ∀ p ∈ rest, mapFind p.1 (mapInsert k x vo) = none := by
      intro p hp
      rw [mapFind_mapInsert_of_absent _ _ _ _ hvo]
      have hne : k ≠ p.1 := by
        intro h; exact hnd.1 (h ▸ List.mem_map_of_mem Prod.fst hp)
      simp [hne, habs p (List.mem_cons_of_mem _ hp)]
    have := ih (mapInsert k x vo) hnd.2 habs2
    simp only [insertAll, List.foldl_cons] at this ⊢
    rw [this, mapFind_mapInsert_of_absent _ _ _ _ hvo]
    by_cases hk : k = key
    · subst hk
      have : mapFind k rest = none := (mapFind_eq_none_iff _ _).mpr hnd.1
      simp [mapFind, this]
    · simp [mapFind, hk]

theorem parsedFields_of_ok (write : Value → String) (dict : List (String × Value))
    (e : Option ErrorPtr) (props : List (String × PropType))
    (hall : ∀ p ∈ props, (fieldValue write dict e p.1 p.2).isSome = true) :
    (parsedFields write dict e props).map Prod.fst = props.map Prod.fst ∧
    ∀ name t, (props.map Prod.fst).Nodup → (name, t) ∈ props →
      mapFind name (parsedFields write dict e props) = fieldValue write dict e name t := by
  induction props with
  | nil => simp [parsedFields]
  | cons p rest ih =>
    obtain ⟨k, t0⟩ := p
    have h0 := hall (k, t0) (List.mem_cons_self _ _)
    obtain ⟨val, hval⟩ := Option.isSome_iff_exists.mp h0
    have ih2 := ih (fun p hp => hall p (List.mem_cons_of_mem _ hp))
    have hpf : parsedFields write dict e ((k, t0) :: rest) =
        (k, val) :: parsedFields write dict e rest := by
      simp only at hval
      simp [parsedFields, List.filterMap_cons, hval]
    refine ⟨by rw [hpf]; simp [ih2.1], ?_⟩
    intro name t hnd hmem
    simp only [List.map_cons, List.nodup_cons] at hnd
    rw [hpf]
    rcases List.mem_cons.mp hmem with heq | hm
    · simp only [Prod.mk.injEq] at heq
      obtain ⟨rfl, rfl⟩ := heq
      simp only at hval
      simp [mapFind, hval]
    · have hne : k ≠ name := by
        intro h; exact hnd.1 (h ▸ List.mem_map_of_mem Prod.fst hm)
      simp only [mapFind, hne, if_false]
      exact ih2.2 name t hnd.2 hm

/-- Claim C6: for a schema with distinct field names and a JSON dictionary accepted by
`TypedValueFromJson` into an object that held none of these names, every declared field
absent from the JSON has a declared default and appears in the parsed object as a clone of
it, and every declared field present in the JSON appears with the value parsed from its
JSON node. -/
theorem C6_defaults_fill_absent_fields (write : Value → String)
    (props : List (String × PropType)) (extra : Bool) (dict : List (String × Value))
    (value_out : List (String × PropValue)) (error : Option ErrorPtr)
    (out : List (String × PropValue)) (error2 : Option ErrorPtr)
    (hdistinct : (props.map Prod.fst).Nodup)
    (hfresh : ∀ p ∈ props, mapFind p.1 value_out = none)
    (hok : TypedValueFromJson_Object write (.dictionary dict) (.mk props extra) value_out error
      = (true, out, error2))
    (name : String) (ptype : PropType) (hfield : (name, ptype) ∈ props) :
    (GetWithoutPathExpansion dict name = none →
      ∃ def_value, ptype.GetDefaultValue = some def_value ∧
        mapFind name out = some def_value.Clone) ∧
    (∀ param_value, GetWithoutPathExpansion dict name = some param_value →
      ∃ value, ptype.CreateValueFromJson write param_value error = (true, value, error) ∧
        mapFind name out = some value) := by
  cases hl : (TypedValueFromJson_props write props dict value_out [] error).1 with
  | false =>
    rw [Object_props_false write props extra dict value_out error hl] at hok
    simp at hok
  | true =>
    generalize hr : TypedValueFromJson_props write props dict value_out [] error = r at hl
    obtain ⟨ok, out1, ks, e1⟩ := r
    simp only at hl
    subst hl
    obtain ⟨he, -, hall, hout⟩ := props_ok2 write props dict value_out [] error out1 ks e1 hr
    subst he
    have hout1 : out = out1 := by
      simp only [TypedValueFromJson_Object, Value.GetAsDictionary, hr] at hok
      cases hu : FindUnknownKey ks extra dict with
      | some key => rw [hu] at hok; simp at hok
      | none =>
        rw [hu] at hok
        simp only [Prod.mk.injEq] at hok
        exact hok.2.1.symm
    subst hout1
    obtain ⟨hkeys, hfind⟩ := parsedFields_of_ok write dict e1 props hall
    have hlook : mapFind name out = fieldValue write dict e1 name ptype := by
      rw [hout, mapFind_insertAll name _ value_out (by rw [hkeys]; exact hdistinct)
        (by
          intro p hp
          have : p.1 ∈ props.map Prod.fst := hkeys ▸ List.mem_map_of_mem Prod.fst hp
          obtain ⟨q, hq, hq1⟩ := List.mem_map.mp this
          rw [← hq1]; exact hfresh q hq)]
      rw [hfind name ptype hdistinct hfield]
      have hs := hall (name, ptype) hfield
      obtain ⟨val, hval⟩ := Option.isSome_iff_exists.mp hs
      simp only at hval
      simp [hval]
    have hs := hall (name, ptype) hfield
    constructor
    · intro habs
      simp only [fieldValue, habs] at hlook hs
      cases hd : ptype.GetDefaultValue with
      | none => simp [hd] at hs
      | some dv => exact ⟨dv, rfl, by simpa [hd] using hlook⟩
    · intro pv hpv
      simp only [fieldValue, hpv] at hlook hs
      generalize hc : ptype.CreateValueFromJson write pv e1 = r at hlook hs
      obtain ⟨ok, val, e2⟩ := r
      cases ok with
      | false => simp at hs
      | true =>
        have := CreateValueFromJson_ok_error write ptype pv e1 val e2 hc
        subst this
        exact ⟨val, rfl, by simpa using hlook⟩

end buffet

/-! ### Unknown properties (C4) -/

namespace buffet
open base

theorem FindUnknownKey_allowed (ks : List String) (dict : List (String × Value)) :
    FindUnknownKey ks true dict = none := by
  induction dict with
  | nil => rfl
  | cons p rest ih => obtain ⟨k, v⟩ := p; simp [FindUnknownKey, ih]

theorem FindUnknownKey_forbidden (ks : List String) (dict : List (String × Value))
    (h : ∃ p ∈ dict, p.1 ∉ ks) :
    ∃ pre key v post, dict = pre ++ (key, v) :: post ∧ (∀ p ∈ pre, p.1 ∈ ks) ∧ key ∉ ks ∧
      FindUnknownKey ks false dict = some key := by
  induction dict with
  | nil => simp at h
  | cons p rest ih =>
    obtain ⟨k, v⟩ := p
    by_cases hk : k ∈ ks
    · have h' : ∃ p ∈ rest, p.1 ∉ ks := by
        obtain ⟨p, hp, hpk⟩ := h
        rcases List.mem_cons.mp hp with rfl | hm
        · exact absurd hk hpk
        · exact ⟨p, hm, hpk⟩
      obtain ⟨pre, key, v2, post, heq, hpre, hkey, hres⟩ := ih h'
      refine ⟨(k, v) :: pre, key, v2, post, by simp [heq], ?_, hkey, ?_⟩
      · intro p hp
        rcases List.mem_cons.mp hp with rfl | hm
        · exact hk
        · exact hpre p hm
      · simp [FindUnknownKey, hk, hres]
    · exact ⟨[], k, v, rest, rfl, by simp, hk, by simp [FindUnknownKey, hk]⟩

theorem mapFind_filter {α : Type} (f : String → Bool) (key : String) (hf : f key = true)
    (l : List (String × α)) : mapFind key (l.filter fun p => f p.1) = mapFind key l := by
  induction l with
  | nil => rfl
  | cons p rest ih =>
    obtain ⟨k, v⟩ := p
    by_cases hk : k = key
    · subst hk; simp [List.filter, hf, mapFind]
    · cases hfk : f k with
      | true => simp [List.filter, hfk, mapFind, hk, ih]
      | false => simp [List.filter, hfk, mapFind, hk, ih]

theorem props_congr (write : Value → String) (props : List (String × PropType))
    (dict dict2 : List (String × Value))
    (h : ∀ p ∈ props, GetWithoutPathExpansion dict p.1 = GetWithoutPathExpansion dict2 p.1)
    (vo : List (String × PropValue)) (ks : List String) (e : Option ErrorPtr) :
    TypedValueFromJson_props write props dict vo ks e =
      TypedValueFromJson_props write props dict2 vo ks e := by
  induction props generalizing vo ks e with
  | nil => simp [TypedValueFromJson_props]
  | cons p rest ih =>
    obtain ⟨name, t⟩ := p
    have h1 := h (name, t) (List.mem_cons_self _ _)
    have h2 : ∀ p ∈ rest, GetWithoutPathExpansion dict p.1 = GetWithoutPathExpansion dict2 p.1 :=
      fun p hp => h p (List.mem_cons_of_mem _ hp)
    simp only [TypedValueFromJson_props]
    simp only at h1
    rw [← h1]
    cases hg : GetWithoutPathExpansion dict name with
    | some j =>
      simp only
      generalize hc : t.CreateValueFromJson write j e = r
      obtain ⟨ok, val, e1⟩ := r
      cases ok with
      | false => rfl
      | true => simp only; exact ih h2 _ _ _
    | none =>
      simp only
      cases hd : t.GetDefaultValue with
      | none => rfl
      | some dv => simp only; exact ih h2 _ _ _

/-- Claim C4, amended: with `extraPropertiesAllowed == false`, a JSON dictionary holding a
key the schema does not declare always makes `TypedValueFromJson` fail; the error is
`commands/unknown_property`, naming the first undeclared key of the dictionary, when the
first loop accepted every declared field. With `extraPropertiesAllowed == true` the
undeclared keys have no effect: the result equals the result on the dictionary without
them. Otherwise, when the first loop rejects a declared field, the error of that loop is
reported, whatever `extraPropertiesAllowed` is: the error of the conversion of the first
rejected field when its key is present, `commands/parameter_missing` naming it when its key
is absent. -/
theorem C4_unknown_property (write : Value → String) (props : List (String × PropType))
    (dict : List (String × Value)) (value_out : List (String × PropValue))
    (error : Option ErrorPtr) :
    ((∃ p ∈ dict, p.1 ∉ props.map Prod.fst) →
      (TypedValueFromJson_Object write (.dictionary dict) (.mk props false) value_out
        error).1 = false) ∧
    ((∃ p ∈ dict, p.1 ∉ props.map Prod.fst) →
      (TypedValueFromJson_props write props dict value_out [] error).1 = true →
      ∃ pre key v post, dict = pre ++ (key, v) :: post ∧
        (∀ p ∈ pre, p.1 ∈ props.map Prod.fst) ∧ key ∉ props.map Prod.fst ∧
        TypedValueFromJson_Object write (.dictionary dict) (.mk props false) value_out error
          = (false, (TypedValueFromJson_props write props dict value_out [] error).2.1,
              Error.AddToPrintf error "commands" "unknown_property"
                ("Unrecognized parameter \x27" ++ key ++ "\x27"))) ∧
    TypedValueFromJson_Object write (.dictionary dict) (.mk props true) value_out error
      = TypedValueFromJson_Object write
          (.dictionary (dict.filter fun p => decide (p.1 ∈ props.map Prod.fst)))
          (.mk props true) value_out error ∧
    (∀ extra : Bool,
      (TypedValueFromJson_props write props dict value_out [] error).1 = false →
      ∃ pre name ptype post, props = pre ++ (name, ptype) :: post ∧
        (TypedValueFromJson_props write pre dict value_out [] error).1 = true ∧
        ((∃ param_value, GetWithoutPathExpansion dict name = some param_value ∧
            (ptype.CreateValueFromJson write param_value error).1 = false ∧
            TypedValueFromJson_Object write (.dictionary dict) (.mk props extra) value_out
                error =
              (false, (TypedValueFromJson_props write pre dict value_out [] error).2.1,
                (ptype.CreateValueFromJson write param_value error).2.2)) ∨
          (GetWithoutPathExpansion dict name = none ∧ ptype.GetDefaultValue = none ∧
            TypedValueFromJson_Object write (.dictionary dict) (.mk props extra) value_out
                error =
              (false, (TypedValueFromJson_props write pre dict value_out [] error).2.1,
                Error.AddToPrintf error "commands" "parameter_missing"
                  ("Required parameter missing: " ++ name))))) := by
  have key_step : (∃ p ∈ dict, p.1 ∉ props.map Prod.fst) →
      (TypedValueFromJson_props write props dict value_out [] error).1 = true →
      ∃ pre key v post, dict = pre ++ (key, v) :: post ∧
        (∀ p ∈ pre, p.1 ∈ props.map Prod.fst) ∧ key ∉ props.map Prod.fst ∧
        TypedValueFromJson_Object write (.dictionary dict) (.mk props false) value_out error
          = (false, (TypedValueFromJson_props write props dict value_out [] error).2.1,
              Error.AddToPrintf error "commands" "unknown_property"
                ("Unrecognized parameter \x27" ++ key ++ "\x27")) := by
    intro hex hl
    generalize hr : TypedValueFromJson_props write props dict value_out [] error = r at hl
    obtain ⟨ok, out, ks, e1⟩ := r
    simp only at hl
    subst hl
    obtain ⟨he, hks, -, -⟩ := props_ok2 write props dict value_out [] error out ks e1 hr
    subst he
    have hks2 : ∀ k, k ∈ ks ↔ k ∈ props.map Prod.fst := by
      intro k; rw [hks]; simp
    have hex2 : ∃ p ∈ dict, p.1 ∉ ks := by
      obtain ⟨p, hp, hpk⟩ := hex
      exact ⟨p, hp, fun h => hpk ((hks2 _).mp h)⟩
    obtain ⟨pre, key, v, post, heq, hpre, hkey, hres⟩ := FindUnknownKey_forbidden ks dict hex2
    refine ⟨pre, key, v, post, heq, fun p hp => (hks2 _).mp (hpre p hp),
      fun h => hkey ((hks2 _).mpr h), ?_⟩
    simp only [TypedValueFromJson_Object, Value.GetAsDictionary, hr, hres]
    rfl
  refine ⟨?_, key_step, ?_,
    fun extra hl => Object_first_rejected write props extra dict value_out error hl⟩
  · intro hex
    cases hl : (TypedValueFromJson_props write props dict value_out [] error).1 with
    | false => rw [Object_props_false write props false dict value_out error hl]
    | true =>
      obtain ⟨pre, key, v, post, -, -, -, hres⟩ := key_step hex hl
      rw [hres]
  · have hc := props_congr write props dict
      (dict.filter fun p => decide (p.1 ∈ props.map Prod.fst))
      (fun p hp => by
        simp only [GetWithoutPathExpansion]
        exact (mapFind_filter (fun k => decide (k ∈ props.map Prod.fst)) p.1
          (by simpa using List.mem_map_of_mem Prod.fst hp) dict).symm)
      value_out [] error
    simp only [TypedValueFromJson_Object, Value.GetAsDictionary, hc, FindUnknownKey_allowed]

end buffet

/-! ### Maps with ascending keys, serialization -/

namespace base

theorem keyLt_iff (a b : String) : keyLt a b = true ↔ a < b := by
  simp [keyLt, String.lt_iff_toList_lt]

theorem keyLt_ne {a b : String} (h : keyLt a b = true) : a ≠ b := by
  rw [keyLt_iff] at h; exact ne_of_lt h

theorem keyLt_asymm {a b : String} (h : keyLt a b = true) : keyLt b a = false := by
  cases hb : keyLt b a with
  | false => rfl
  | true =>
    rw [keyLt_iff] at h hb
    exact absurd h (lt_asymm hb)

theorem mapSet_append {α : Type} (key : String) (v : α) (m : List (String × α))
    (h : ∀ k ∈ m.map Prod.fst, keyLt k key = true) : mapSet key v m = m ++ [(key, v)] := by
  induction m with
  | nil => rfl
  | cons p rest ih =>
    obtain ⟨k, x⟩ := p
    have hk : keyLt k key = true := h k (by simp)
    have hrest : ∀ k ∈ rest.map Prod.fst, keyLt k key = true :=
      fun k2 hk2 => h k2 (by simp only [List.map_cons, List.mem_cons]; exact Or.inr hk2)
    simp [mapSet, keyLt_ne hk, keyLt_asymm hk, ih hrest]

theorem mapInsert_append {α : Type} (key : String) (v : α) (m : List (String × α))
    (h : ∀ k ∈ m.map Prod.fst, keyLt k key = true) : mapInsert key v m = m ++ [(key, v)] := by
  induction m with
  | nil => rfl
  | cons p rest ih =>
    obtain ⟨k, x⟩ := p
    have hk : keyLt k key = true := h k (by simp)
    have hrest : ∀ k ∈ rest.map Prod.fst, keyLt k key = true :=
      fun k2 hk2 => h k2 (by simp only [List.map_cons, List.mem_cons]; exact Or.inr hk2)
    simp [mapInsert, keyLt_ne hk, keyLt_asymm hk, ih hrest]

end base

namespace buffet
open base

theorem keysAscending_iff (l : List String) :
    keysAscending l = true ↔ l.Pairwise (fun a b => keyLt a b = true) := by
  induction l with
  | nil => simp [keysAscending]
  | cons k rest ih =>
    simp [keysAscending, List.pairwise_cons, ih]

theorem propsSortedKeys_iff (props : List (String × PropType)) :
    propsSortedKeys props = true ↔ ∀ p ∈ props, p.2.SortedKeys = true := by
  induction props with
  | nil => simp [propsSortedKeys]
  | cons p rest ih =>
    obtain ⟨k, t⟩ := p
    simp [propsSortedKeys, ih]

theorem insertAll_ascending (fields vo : List (String × PropValue))
    (h : keysAscending ((vo ++ fields).map Prod.fst) = true) :
    insertAll fields vo = vo ++ fields := by
  induction fields generalizing vo with
  | nil => simp [insertAll]
  | cons p rest ih =>
    obtain ⟨k, x⟩ := p
    rw [keysAscending_iff] at h
    have hlt : ∀ k2 ∈ vo.map Prod.fst, keyLt k2 k = true := by
      intro k2 hk2
      simp only [List.map_append, List.map_cons, List.pairwise_append] at h
      exact h.2.2 k2 hk2 k (by simp)
    have h2 : keysAscending (((vo ++ [(k, x)]) ++ rest).map Prod.fst) = true := by
      rw [keysAscending_iff]; simpa using h
    have := ih (vo ++ [(k, x)]) h2
    simp only [insertAll, List.foldl_cons] at this ⊢
    rw [mapInsert_append k x vo hlt, this]
    simp

theorem PropValue_induct {P : PropValue → Prop}
    (hb : ∀ t b, P (.BooleanValue t b)) (hi : ∀ t i, P (.IntValue t i))
    (hd : ∀ t d, P (.DoubleValue t d)) (hs : ∀ t s, P (.StringValue t s))
    (ho : ∀ t obj, (∀ p ∈ obj, P p.2) → P (.ObjectValue t obj)) : ∀ v, P v
  | .BooleanValue t b => hb t b
  | .IntValue t i => hi t i
  | .DoubleValue t d => hd t d
  | .StringValue t s => hs t s
  | .ObjectValue t obj => ho t obj (fun p hp => PropValue_induct hb hi hd hs ho p.2)
termination_by v => sizeOf v
decreasing_by
  have h1 := List.sizeOf_lt_of_mem hp
  have h2 : sizeOf p.2 < sizeOf p := by
    cases p; simp
  simp
  omega

theorem ToJson_fields_total (obj : List (String × PropValue)) (e : Option ErrorPtr)
    (h : ∀ p ∈ obj, PropValue.ToJson p.2 e = PropValue.ToJson p.2 none ∧
      (PropValue.ToJson p.2 none).isSome = true)
    (acc : List (String × Value)) :
    TypedValueToJson_fields obj acc e = TypedValueToJson_fields obj acc none ∧
      (TypedValueToJson_fields obj acc none).isSome = true := by
  induction obj generalizing acc with
  | nil => simp [TypedValueToJson_fields]
  | cons p rest ih =>
    obtain ⟨k, x⟩ := p
    obtain ⟨h1, h2⟩ := h (k, x) (List.mem_cons_self _ _)
    obtain ⟨j, hj⟩ := Option.isSome_iff_exists.mp h2
    simp only at h1 hj
    simp only [TypedValueToJson_fields, h1, hj]
    exact ih (fun p hp => h p (List.mem_cons_of_mem _ hp)) _

theorem ToJson_total (v : PropValue) : ∀ e : Option ErrorPtr,
    PropValue.ToJson v e = PropValue.ToJson v none ∧
      (PropValue.ToJson v none).isSome = true := by
  induction v using PropValue_induct with
  | hb t b => intro e; simp [PropValue.ToJson, TypedValueToJson_bool]
  | hi t b => intro e; simp [PropValue.ToJson, TypedValueToJson_int]
  | hd t b => intro e; simp [PropValue.ToJson, TypedValueToJson_double]
  | hs t b => intro e; simp [PropValue.ToJson, TypedValueToJson_string]
  | ho t obj ih =>
    intro e
    simp only [PropValue.ToJson]
    exact ToJson_fields_total obj e (fun p hp => ih p hp e) []

theorem ToJson_fields_ascending (fields : List (String × PropValue))
    (L acc : List (String × Value)) (ej : Option ErrorPtr)
    (hmap : fields.map (fun p => (p.1, PropValue.ToJson p.2 ej)) =
      L.map (fun q => (q.1, some q.2)))
    (hasc : keysAscending ((acc ++ L).map Prod.fst) = true) :
    TypedValueToJson_fields fields acc ej = some (.dictionary (acc ++ L)) := by
  induction fields generalizing L acc with
  | nil =>
    cases L with
    | nil => simp [TypedValueToJson_fields]
    | cons q L => simp at hmap
  | cons p rest ih =>
    obtain ⟨k, x⟩ := p
    cases L with
    | nil => simp at hmap
    | cons q L =>
      obtain ⟨k2, j⟩ := q
      simp only [List.map_cons, List.cons.injEq, Prod.mk.injEq] at hmap
      obtain ⟨⟨rfl, hx⟩, hrest⟩ := hmap
      rw [keysAscending_iff] at hasc
      have hlt : ∀ k2 ∈ acc.map Prod.fst, keyLt k2 k = true := by
        intro k2 hk2
        simp only [List.map_append, List.map_cons, List.pairwise_append] at hasc
        exact hasc.2.2 k2 hk2 k (by simp)
      have h2 : keysAscending (((acc ++ [(k, j)]) ++ L).map Prod.fst) = true := by
        rw [keysAscending_iff]; simpa using hasc
      simp only [TypedValueToJson_fields, hx, SetWithoutPathExpansion]
      rw [mapSet_append k j acc hlt, ih L (acc ++ [(k, j)]) hrest h2]
      simp

end buffet

/-! ### The round trip (C2) -/

namespace buffet
open base

theorem parsedFields_cons (write : Value → String) (dict : List (String × Value))
    (e : Option ErrorPtr) (k : String) (t : PropType) (rest : List (String × PropType))
    (val : PropValue) (h : fieldValue write dict e k t = some val) :
    parsedFields write dict e ((k, t) :: rest) = (k, val) :: parsedFields write dict e rest := by
  simp [parsedFields, List.filterMap_cons, h]

theorem parsed_toJson (write : Value → String) (dict : List (String × Value))
    (e ej : Option ErrorPtr) (props : List (String × PropType))
    (hK : ∀ p ∈ props, ∀ j e pv e2, p.2.CreateValueFromJson write j e = (true, pv, e2) →
      PropValue.ToJson pv ej = some (normalizeDeclaredValue p.2 j))
    (hall : ∀ p ∈ props, (fieldValue write dict e p.1 p.2).isSome = true) :
    (parsedFields write dict e props).map (fun p => (p.1, PropValue.ToJson p.2 ej)) =
        (normalizeDeclaredFields props dict).map (fun q => (q.1, some q.2)) ∧
      (normalizeDeclaredFields props dict).map Prod.fst = props.map Prod.fst := by
  induction props with
  | nil => simp [parsedFields, normalizeDeclaredFields]
  | cons p rest ih =>
    obtain ⟨k, t⟩ := p
    obtain ⟨type, c, d, s⟩ := t
    have ih2 := ih (fun p hp => hK p (List.mem_cons_of_mem _ hp))
      (fun p hp => hall p (List.mem_cons_of_mem _ hp))
    have h0 := hall (k, .mk type c d s) (List.mem_cons_self _ _)
    have hK0 := hK (k, .mk type c d s) (List.mem_cons_self _ _)
    obtain ⟨val, hval⟩ := Option.isSome_iff_exists.mp h0
    simp only at hK0 hval
    rw [parsedFields_cons write dict e k _ rest val hval]
    simp only [normalizeDeclaredFields, List.map_cons]
    cases hg : mapFind k dict with
    | some j =>
      simp only [fieldValue, GetWithoutPathExpansion, hg] at hval
      generalize hc : (PropType.mk type c d s).CreateValueFromJson write j e = r at hval
      obtain ⟨ok, val2, e1⟩ := r
      cases ok with
      | false => simp at hval
      | true =>
        simp only [Option.some.injEq] at hval
        subst hval
        have := hK0 j e val2 e1 hc
        simp only [List.map_cons, this, normalizeDeclaredValue]
        exact ⟨by rw [ih2.1], by rw [ih2.2]⟩
    | none =>
      simp only [fieldValue, GetWithoutPathExpansion, hg] at hval
      cases d with
      | none => simp [PropType.GetDefaultValue] at hval
      | some dv =>
        simp only [PropType.GetDefaultValue, Option.map_some', PropValue.Clone,
          Option.some.injEq] at hval
        subst hval
        obtain ⟨h1, h2⟩ := ToJson_total dv ej
        obtain ⟨j, hj⟩ := Option.isSome_iff_exists.mp h2
        simp only [List.map_cons, h1, hj, Option.getD_some]
        exact ⟨by rw [ih2.1], by rw [ih2.2]⟩

theorem Object_roundtrip_aux (write : Value → String) (props : List (String × PropType))
    (extra : Bool) (ej : Option ErrorPtr)
    (hK : ∀ p ∈ props, ∀ j e pv e2, p.2.CreateValueFromJson write j e = (true, pv, e2) →
      PropValue.ToJson pv ej = some (normalizeDeclaredValue p.2 j))
    (hasc : keysAscending (props.map Prod.fst) = true)
    (v : Value) (e : Option ErrorPtr) (out : List (String × PropValue))
    (e2 : Option ErrorPtr)
    (h : TypedValueFromJson_Object write v (.mk props extra) [] e = (true, out, e2)) :
    TypedValueToJson_fields out [] ej = some (normalizeDeclared (.mk props extra) v) := by
  cases v with
  | dictionary dict =>
    cases hl : (TypedValueFromJson_props write props dict [] [] e).1 with
    | false =>
      rw [Object_props_false write props extra dict [] e hl] at h
      simp at h
    | true =>
      generalize hr : TypedValueFromJson_props write props dict [] [] e = r at hl
      obtain ⟨ok, out1, ks, e1⟩ := r
      simp only at hl
      subst hl
      obtain ⟨he, -, hall, hout⟩ := props_ok2 write props dict [] [] e out1 ks e1 hr
      subst he
      have hout1 : out = out1 := by
        simp only [TypedValueFromJson_Object, Value.GetAsDictionary, hr] at h
        cases hu : FindUnknownKey ks extra dict with
        | some key => rw [hu] at h; simp at h
        | none =>
          rw [hu] at h
          simp only [Prod.mk.injEq] at h
          exact h.2.1.symm
      subst hout1
      obtain ⟨hmap, hkeys⟩ := parsed_toJson write dict e1 ej props hK hall
      have hpk := (parsedFields_of_ok write dict e1 props hall).1
      rw [hout, insertAll_ascending _ [] (by simpa [hpk] using hasc)]
      simp only [List.nil_append]
      have := ToJson_fields_ascending (parsedFields write dict e1 props)
        (normalizeDeclaredFields props dict) [] ej hmap (by simpa [hkeys] using hasc)
      simpa [normalizeDeclared] using this
  | null => simp [TypedValueFromJson_Object, Value.GetAsDictionary] at h
  | boolean b => simp [TypedValueFromJson_Object, Value.GetAsDictionary] at h
  | integer b => simp [TypedValueFromJson_Object, Value.GetAsDictionary] at h
  | double b => simp [TypedValueFromJson_Object, Value.GetAsDictionary] at h
  | string b => simp [TypedValueFromJson_Object, Value.GetAsDictionary] at h
  | list b => simp [TypedValueFromJson_Object, Value.GetAsDictionary] at h

theorem CreateValueFromJson_roundtrip (write : Value → String) (ej : Option ErrorPtr)
    (t : PropType) : t.SortedKeys = true →
    ∀ j e pv e2, t.CreateValueFromJson write j e = (true, pv, e2) →
      PropValue.ToJson pv ej = some (normalizeDeclaredValue t j) := by
  induction t using PropType_induct with
  | step type c d props extra ih =>
    intro hs j e pv e2 h
    cases type with
    | Boolean =>
      simp only [PropType.CreateValueFromJson, TypedValueFromJson_bool] at h
      cases j <;> simp [Value.GetAsBoolean] at h
      obtain ⟨rfl, -⟩ := h
      simp [PropValue.ToJson, TypedValueToJson_bool, normalizeDeclaredValue, coerced]
    | Int =>
      simp only [PropType.CreateValueFromJson, TypedValueFromJson_int] at h
      cases j <;> simp [Value.GetAsInteger] at h
      obtain ⟨rfl, -⟩ := h
      simp [PropValue.ToJson, TypedValueToJson_int, normalizeDeclaredValue, coerced]
    | Double =>
      simp only [PropType.CreateValueFromJson, TypedValueFromJson_double] at h
      cases j <;> simp [Value.GetAsDouble] at h
      · obtain ⟨rfl, -⟩ := h
        simp [PropValue.ToJson, TypedValueToJson_double, normalizeDeclaredValue, coerced]
      · obtain ⟨rfl, -⟩ := h
        simp [PropValue.ToJson, TypedValueToJson_double, normalizeDeclaredValue, coerced]
    | String =>
      simp only [PropType.CreateValueFromJson, TypedValueFromJson_string] at h
      cases j <;> simp [Value.GetAsString] at h
      obtain ⟨rfl, -⟩ := h
      simp [PropValue.ToJson, TypedValueToJson_string, normalizeDeclaredValue, coerced]
    | Object =>
      simp only [PropType.SortedKeys, ObjectSchema.SortedKeys, if_true, Bool.and_eq_true] at hs
      simp only [PropType.CreateValueFromJson] at h
      generalize ho : TypedValueFromJson_Object write j (.mk props extra) [] e = r at h
      obtain ⟨ok, obj, e1⟩ := r
      simp only [Prod.mk.injEq] at h
      obtain ⟨rfl, rfl, rfl⟩ := h
      have hK : ∀ p ∈ props, ∀ j e pv e2, p.2.CreateValueFromJson write j e = (true, pv, e2) →
          PropValue.ToJson pv ej = some (normalizeDeclaredValue p.2 j) :=
        fun p hp => ih p hp ((propsSortedKeys_iff props).mp hs.2 p hp)
      simp only [PropValue.ToJson, normalizeDeclaredValue, if_true]
      exact Object_roundtrip_aux write props extra ej hK hs.1 j e obj e1 ho

/-- Claim C2, amended: for every object schema whose fields are declared in ascending key
order (at every nesting level) and every JSON value that `TypedValueFromJson` accepts into
an empty object, `TypedValueToJson` of the parsed object is `normalizeDeclared` of the JSON
value: exactly the declared fields, in schema declaration order, each absent field filled
with the JSON of its default, an integer given for a Number field written as a double. -/
theorem C2_round_trip_declared (write : Value → String) (object_schema : ObjectSchema)
    (value_in : Value) (error : Option ErrorPtr) (value_out : List (String × PropValue))
    (error2 error3 : Option ErrorPtr)
    (hsorted : object_schema.SortedKeys = true)
    (haccepted : TypedValueFromJson_Object write value_in object_schema [] error
      = (true, value_out, error2)) :
    TypedValueToJson_Object value_out error3 =
      some (normalizeDeclared object_schema value_in) := by
  obtain ⟨props, extra⟩ := object_schema
  simp only [ObjectSchema.SortedKeys, Bool.and_eq_true] at hsorted
  have hK : ∀ p ∈ props, ∀ j e pv e2, p.2.CreateValueFromJson write j e = (true, pv, e2) →
      PropValue.ToJson pv error3 = some (normalizeDeclaredValue p.2 j) :=
    fun p hp => CreateValueFromJson_roundtrip write error3 p.2
      ((propsSortedKeys_iff props).mp hsorted.2 p hp)
  exact Object_roundtrip_aux write props extra error3 hK hsorted.1 value_in error value_out
    error2 haccepted

end buffet

/-! ### Coercion of JSON nodes (C5) -/

namespace buffet
open base

/-- Claim C5, amended: for the bool, int, double and string targets `TypedValueFromJson`
succeeds exactly when the JSON node is a boolean, an integer, an integer or a double, a
string, and then yields that value (an integer converted for a double target) and leaves
the error slot as it was; on every other node it returns false, leaves the output as it was
and adds one `commands/type_mismatch` error. For the object target a node that is not a
dictionary is rejected in the same way, and success implies the node is a dictionary (a
dictionary is handed to the field loops, which decide). Adding to a slot that holds a chain
puts exactly one error on top of that chain. -/
theorem C5_type_coercion (write : Value → String) (value_in : Value)
    (error : Option ErrorPtr) :
    (∀ value_out : Bool,
      ((TypedValueFromJson_bool write value_in value_out error).1 = true ↔
        ∃ b, value_in = .boolean b) ∧
      (∀ b, value_in = .boolean b →
        TypedValueFromJson_bool write value_in value_out error = (true, b, error)) ∧
      ((∀ b, value_in ≠ .boolean b) →
        TypedValueFromJson_bool write value_in value_out error =
          (false, value_out, Error.AddToPrintf error "commands" "type_mismatch"
            ("Unable to convert value " ++ write value_in ++ " into " ++ "boolean")))) ∧
    (∀ value_out : Int,
      ((TypedValueFromJson_int write value_in value_out error).1 = true ↔
        ∃ i, value_in = .integer i) ∧
      (∀ i, value_in = .integer i →
        TypedValueFromJson_int write value_in value_out error = (true, i, error)) ∧
      ((∀ i, value_in ≠ .integer i) →
        TypedValueFromJson_int write value_in value_out error =
          (false, value_out, Error.AddToPrintf error "commands" "type_mismatch"
            ("Unable to convert value " ++ write value_in ++ " into " ++ "integer")))) ∧
    (∀ value_out : Rat,
      ((TypedValueFromJson_double write value_in value_out error).1 = true ↔
        (∃ i, value_in = .integer i) ∨ ∃ d, value_in = .double d) ∧
      (∀ i, value_in = .integer i →
        TypedValueFromJson_double write value_in value_out error = (true, (i : Rat), error)) ∧
      (∀ d, value_in = .double d →
        TypedValueFromJson_double write value_in value_out error = (true, d, error)) ∧
      ((∀ i, value_in ≠ .integer i) → (∀ d, value_in ≠ .double d) →
        TypedValueFromJson_double write value_in value_out error =
          (false, value_out, Error.AddToPrintf error "commands" "type_mismatch"
            ("Unable to convert value " ++ write value_in ++ " into " ++ "number")))) ∧
    (∀ value_out : String,
      ((TypedValueFromJson_string write value_in value_out error).1 = true ↔
        ∃ s, value_in = .string s) ∧
      (∀ s, value_in = .string s →
        TypedValueFromJson_string write value_in value_out error = (true, s, error)) ∧
      ((∀ s, value_in ≠ .string s) →
        TypedValueFromJson_string write value_in value_out error =
          (false, value_out, Error.AddToPrintf error "commands" "type_mismatch"
            ("Unable to convert value " ++ write value_in ++ " into " ++ "string")))) ∧
    (∀ (object_schema : ObjectSchema) (value_out : List (String × PropValue)),
      ((TypedValueFromJson_Object write value_in object_schema value_out error).1 = true →
        ∃ dict, value_in = .dictionary dict) ∧
      ((∀ dict, value_in ≠ .dictionary dict) →
        TypedValueFromJson_Object write value_in object_schema value_out error =
          (false, value_out, Error.AddToPrintf error "commands" "type_mismatch"
            ("Unable to convert value " ++ write value_in ++ " into " ++ "object")))) ∧
    (∀ (chain : ErrorPtr) (message : String),
      Error.AddToPrintf (some chain) "commands" "type_mismatch" message =
        some (some (Error.mk "commands" "type_mismatch" message chain))) := by
  refine ⟨?_, ?_, ?_, ?_, ?_, ?_⟩
  · intro value_out
    cases value_in <;>
      simp [TypedValueFromJson_bool, Value.GetAsBoolean, ReportUnexpectedJson,
        ReportJsonTypeMismatch, PropType.GetTypeStringFromType, errors.commands.kDomain,
        errors.commands.kTypeMismatch]
  · intro value_out
    cases value_in <;>
      simp [TypedValueFromJson_int, Value.GetAsInteger, ReportUnexpectedJson,
        ReportJsonTypeMismatch, PropType.GetTypeStringFromType, errors.commands.kDomain,
        errors.commands.kTypeMismatch]
  · intro value_out
    cases value_in <;>
      simp [TypedValueFromJson_double, Value.GetAsDouble, ReportUnexpectedJson,
        ReportJsonTypeMismatch, PropType.GetTypeStringFromType, errors.commands.kDomain,
        errors.commands.kTypeMismatch]
  · intro value_out
    cases value_in <;>
      simp [TypedValueFromJson_string, Value.GetAsString, ReportUnexpectedJson,
        ReportJsonTypeMismatch, PropType.GetTypeStringFromType, errors.commands.kDomain,
        errors.commands.kTypeMismatch]
  · intro object_schema value_out
    obtain ⟨props, extra⟩ := object_schema
    cases value_in <;>
      simp [TypedValueFromJson_Object, Value.GetAsDictionary, ReportUnexpectedJson,
        ReportJsonTypeMismatch, PropType.GetTypeStringFromType, errors.commands.kDomain,
        errors.commands.kTypeMismatch]
  · intro chain message
    rfl

end buffet

/-! ### Constraint violations (C1) -/

namespace buffet
open base

/-- Claim C1: when the structural parse of the object overload succeeds (the first loop
accepts every declared field, present and convertible or defaulted, and no forbidden extra
key is found) and some value of the resulting object violates a constraint of its own type,
`TypedValueFromJson` fails. The error it returns is `commands/invalid_parameter_value`,
naming the first violating field of the object, wrapping the `commands/out_of_range` error
that `ValidateConstraints` reported for that field, which wraps the chain the slot held. -/
theorem C1_violation_reports_invalid_parameter_value (write : Value → String)
    (props : List (String × PropType)) (extra : Bool) (dict : List (String × Value))
    (value_out : List (String × PropValue)) (error : Option ErrorPtr)
    (hparse : (TypedValueFromJson_props write props dict value_out [] error).1 = true)
    (hkeys : FindUnknownKey (TypedValueFromJson_props write props dict value_out [] error).2.2.1
      extra dict = none)
    (hviolates : ∃ p ∈ (TypedValueFromJson_props write props dict value_out [] error).2.1,
      (p.2.GetPropType.ValidateConstraints p.2 error).1 = false) :
    ∃ pre name v post c,
      (TypedValueFromJson_props write props dict value_out [] error).2.1
        = pre ++ (name, v) :: post ∧
      (∀ p ∈ pre, (p.2.GetPropType.ValidateConstraints p.2 error).1 = true) ∧
      c ∈ v.GetPropType.GetConstraints ∧ c.holds v = false ∧
      (v.GetPropType.ValidateConstraints v error).2
        = Error.AddToPrintf error "commands" "out_of_range" c.describe ∧
      TypedValueFromJson_Object write (.dictionary dict) (.mk props extra) value_out error
        = (false, pre ++ (name, v) :: post,
            Error.AddToPrintf (v.GetPropType.ValidateConstraints v error).2 "commands"
              "invalid_parameter_value"
              ("Invalid parameter value for property \x27" ++ name ++ "\x27")) ∧
      ∀ chain, error = some chain →
        (TypedValueFromJson_Object write (.dictionary dict) (.mk props extra) value_out
          error).2.2
          = some (some (Error.mk "commands" "invalid_parameter_value"
              ("Invalid parameter value for property \x27" ++ name ++ "\x27")
              (some (Error.mk "commands" "out_of_range" c.describe chain)))) := by
  generalize hl : TypedValueFromJson_props write props dict value_out [] error = r at *
  obtain ⟨ok, out, ks, e1⟩ := r
  simp only at hparse hkeys hviolates
  subst hparse
  obtain ⟨he1, -, -, -⟩ := props_ok2 write props dict value_out [] error out ks e1 hl
  subst he1
  obtain ⟨pre, name, v, post, hout, hpre, hv, hres⟩ := ValidateProps_false out e1 hviolates
  obtain ⟨c, hc, hch, hce⟩ := ValidateConstraints_false _ v e1 hv
  have hobj : TypedValueFromJson_Object write (.dictionary dict) (.mk props extra) value_out e1
      = (false, pre ++ (name, v) :: post,
          Error.AddToPrintf (v.GetPropType.ValidateConstraints v e1).2 "commands"
            "invalid_parameter_value"
            ("Invalid parameter value for property \x27" ++ name ++ "\x27")) := by
    subst hout
    simp only [TypedValueFromJson_Object, Value.GetAsDictionary, hl, hkeys, hres]
    rfl
  refine ⟨pre, name, v, post, c, hout, hpre, hc, hch, ?_, hobj, ?_⟩
  · rw [hce]; rfl
  · intro chain hchain
    rw [hobj, hce, hchain]
    rfl

/-- Claim C1 at `_ledflasher._set` with `{"_led": 5, "_on": true}`: `_led` is above the
maximum 3. -/
theorem C1_witness_ledflasher :
    ∃ pre name v post c,
      (TypedValueFromJson_props plainWriter ledflasher_set_parameters.GetProps
          [("_led", .integer 5), ("_on", .boolean true)] [] [] (some none)).2.1
        = pre ++ (name, v) :: post ∧
      (∀ p ∈ pre, (p.2.GetPropType.ValidateConstraints p.2 (some none)).1 = true) ∧
      c ∈ v.GetPropType.GetConstraints ∧ c.holds v = false ∧
      (v.GetPropType.ValidateConstraints v (some none)).2
        = Error.AddToPrintf (some none) "commands" "out_of_range" c.describe ∧
      TypedValueFromJson_Object plainWriter
          (.dictionary [("_led", .integer 5), ("_on", .boolean true)])
          (.mk ledflasher_set_parameters.GetProps false) [] (some none)
        = (false, pre ++ (name, v) :: post,
            Error.AddToPrintf (v.GetPropType.ValidateConstraints v (some none)).2 "commands"
              "invalid_parameter_value"
              ("Invalid parameter value for property \x27" ++ name ++ "\x27")) ∧
      ∀ chain, some none = some chain →
        (TypedValueFromJson_Object plainWriter
          (.dictionary [("_led", .integer 5), ("_on", .boolean true)])
          (.mk ledflasher_set_parameters.GetProps false) [] (some none)).2.2
          = some (some (Error.mk "commands" "invalid_parameter_value"
              ("Invalid parameter value for property \x27" ++ name ++ "\x27")
              (some (Error.mk "commands" "out_of_range" c.describe chain)))) :=
  C1_violation_reports_invalid_parameter_value plainWriter
    ledflasher_set_parameters.GetProps false
    [("_led", .integer 5), ("_on", .boolean true)] [] (some none) rfl rfl
    ⟨("_led", .IntValue ledflasher_led 5), List.Mem.head _, by decide⟩

end buffet

/-! ### Concrete inputs for C2 to C6 -/

namespace buffet
open base

/-- Claim C2 fails as stated: with extra properties allowed the undeclared key `extra` is
accepted and dropped, while `normalize` keeps it; and an integer given for a Number field
comes back as a double, while `normalize` keeps the integer. -/
theorem C2_counterexample :
    TypedValueFromJson_Object plainWriter
        (.dictionary [("_led", .integer 2), ("extra", .integer 0)])
        ledflasher_toggle_open [] (some none)
      = (true, [("_led", .IntValue ledflasher_led 2)], some none) ∧
    TypedValueToJson_Object [("_led", .IntValue ledflasher_led 2)] (some none)
      = some (.dictionary [("_led", .integer 2)]) ∧
    normalize ledflasher_toggle_open (.dictionary [("_led", .integer 2), ("extra", .integer 0)])
      = .dictionary [("_led", .integer 2), ("extra", .integer 0)] ∧
    TypedValueToJson_Object [("_led", .IntValue ledflasher_led 2)] (some none)
      ≠ some (normalize ledflasher_toggle_open
          (.dictionary [("_led", .integer 2), ("extra", .integer 0)])) ∧
    TypedValueFromJson_Object plainWriter (.dictionary [("x", .integer 5)]) number_schema []
        (some none)
      = (true, [("x", .DoubleValue (.mk .Double [] none (.mk [] false)) 5)], some none) ∧
    TypedValueToJson_Object [("x", .DoubleValue (.mk .Double [] none (.mk [] false)) 5)]
        (some none)
      = some (.dictionary [("x", .double 5)]) ∧
    normalize number_schema (.dictionary [("x", .integer 5)])
      = .dictionary [("x", .integer 5)] ∧
    TypedValueToJson_Object [("x", .DoubleValue (.mk .Double [] none (.mk [] false)) 5)]
        (some none)
      ≠ some (normalize number_schema (.dictionary [("x", .integer 5)])) := by
  refine ⟨rfl, rfl, rfl, ?_, rfl, rfl, rfl, ?_⟩
  · intro h
    have h2 : (some (Value.dictionary [("_led", .integer 2)]) : Option Value) =
        some (.dictionary [("_led", .integer 2), ("extra", .integer 0)]) := h
    simp at h2
  · intro h
    have h2 : (some (Value.dictionary [("x", .double 5)]) : Option Value) =
        some (.dictionary [("x", .integer 5)]) := h
    simp at h2

/-- Claim C2, amended, at `_ledflasher._set` with `_on` defaulted and an undeclared key. -/
theorem C2_witness :
    TypedValueToJson_Object
        [("_led", .IntValue ledflasher_led 2), ("_on", .BooleanValue ledflasher_on false)] none
      = some (normalizeDeclared set_parameters_defaulted
          (.dictionary [("_led", .integer 2), ("extra", .null)])) :=
  C2_round_trip_declared plainWriter set_parameters_defaulted
    (.dictionary [("_led", .integer 2), ("extra", .null)]) (some none) _ (some none) none
    rfl rfl


/-- Claim C3 fails as stated: `_on` is absent and has no default, but `_led`, declared
before it, does not convert, so the error is `commands/type_mismatch`. -/
theorem C3_counterexample :
    GetWithoutPathExpansion [("_led", .string "x")] "_on" = none ∧
    ledflasher_on.GetDefaultValue = none ∧
    ("_on", ledflasher_on) ∈ ledflasher_set_parameters.GetProps ∧
    TypedValueFromJson_Object plainWriter (.dictionary [("_led", .string "x")])
        ledflasher_set_parameters [] (some none)
      = (false, [], some (some (Error.mk "commands" "type_mismatch"
          "Unable to convert value ? into integer" none))) ∧
    "type_mismatch" ≠ "parameter_missing" := by
  refine ⟨rfl, rfl, ?_, rfl, by decide⟩
  simp [ledflasher_set_parameters, ObjectSchema.GetProps]

/-- Claim C3, amended, at `_ledflasher._set` with `{"_led": 2}`, where `_on` is the first
rejected field, and with `{"_led": "x"}`, where a first rejected field decides the error
although `_on` is missing. -/
theorem C3_witness :
    TypedValueFromJson_Object plainWriter (.dictionary [("_led", .integer 2)])
        (.mk ([("_led", ledflasher_led)] ++ ("_on", ledflasher_on) :: []) false) []
        (some none)
      = (false,
          (TypedValueFromJson_props plainWriter [("_led", ledflasher_led)]
            [("_led", .integer 2)] [] [] (some none)).2.1,
          Error.AddToPrintf (some none) "commands" "parameter_missing"
            ("Required parameter missing: " ++ "_on")) ∧
    ∃ pre name ptype post,
      [("_led", ledflasher_led), ("_on", ledflasher_on)] = pre ++ (name, ptype) :: post ∧
      (TypedValueFromJson_props plainWriter pre [("_led", .string "x")] [] []
        (some none)).1 = true ∧
      ((∃ param_value, GetWithoutPathExpansion [("_led", .string "x")] name =
            some param_value ∧
          (ptype.CreateValueFromJson plainWriter param_value (some none)).1 = false ∧
          TypedValueFromJson_Object plainWriter (.dictionary [("_led", .string "x")])
              (.mk [("_led", ledflasher_led), ("_on", ledflasher_on)] false) [] (some none) =
            (false, (TypedValueFromJson_props plainWriter pre [("_led", .string "x")] [] []
                (some none)).2.1,
              (ptype.CreateValueFromJson plainWriter param_value (some none)).2.2)) ∨
        (GetWithoutPathExpansion [("_led", .string "x")] name = none ∧
          ptype.GetDefaultValue = none ∧
          TypedValueFromJson_Object plainWriter (.dictionary [("_led", .string "x")])
              (.mk [("_led", ledflasher_led), ("_on", ledflasher_on)] false) [] (some none) =
            (false, (TypedValueFromJson_props plainWriter pre [("_led", .string "x")] [] []
                (some none)).2.1,
              Error.AddToPrintf (some none) "commands" "parameter_missing"
                ("Required parameter missing: " ++ name)))) :=
  ⟨(C3_missing_parameter plainWriter false [("_led", .integer 2)] [] (some none)).2.1
      [("_led", ledflasher_led)] [] "_on" ledflasher_on rfl rfl rfl,
   (C3_missing_parameter plainWriter false [("_led", .string "x")] [] (some none)).2.2
      [("_led", ledflasher_led), ("_on", ledflasher_on)]
      ⟨("_on", ledflasher_on), by simp, rfl, rfl⟩⟩

/-- Claim C4 fails as stated: `_on` is not declared by `_ledflasher._toggle`, but `_led` is
missing, so the error is `commands/parameter_missing`. -/
theorem C4_counterexample :
    "_on" ∉ ledflasher_toggle_parameters.GetProps.map Prod.fst ∧
    ledflasher_toggle_parameters.GetExtraPropertiesAllowed = false ∧
    TypedValueFromJson_Object plainWriter (.dictionary [("_on", .boolean true)])
        ledflasher_toggle_parameters [] (some none)
      = (false, [], some (some (Error.mk "commands" "parameter_missing"
          "Required parameter missing: _led" none))) ∧
    "parameter_missing" ≠ "unknown_property" := by
  refine ⟨?_, rfl, rfl, by decide⟩
  simp [ledflasher_toggle_parameters, ObjectSchema.GetProps]

/-- Claim C4, amended, at `_ledflasher._toggle` with `{"_led": 2, "_on": true}`, where the
unknown key decides the error, and with `{"_on": true}`, where the first loop rejects
`_led` and its error is reported. -/
theorem C4_witness :
    (∃ pre key v post,
      [("_led", Value.integer 2), ("_on", Value.boolean true)] = pre ++ (key, v) :: post ∧
      (∀ p ∈ pre, p.1 ∈ [("_led", ledflasher_led)].map Prod.fst) ∧
      key ∉ [("_led", ledflasher_led)].map Prod.fst ∧
      TypedValueFromJson_Object plainWriter
          (.dictionary [("_led", .integer 2), ("_on", .boolean true)])
          (.mk [("_led", ledflasher_led)] false) [] (some none)
        = (false,
            (TypedValueFromJson_props plainWriter [("_led", ledflasher_led)]
              [("_led", .integer 2), ("_on", .boolean true)] [] [] (some none)).2.1,
            Error.AddToPrintf (some none) "commands" "unknown_property"
              ("Unrecognized parameter \x27" ++ key ++ "\x27"))) ∧
    ∃ pre name ptype post, [("_led", ledflasher_led)] = pre ++ (name, ptype) :: post ∧
      (TypedValueFromJson_props plainWriter pre [("_on", .boolean true)] [] []
        (some none)).1 = true ∧
      ((∃ param_value, GetWithoutPathExpansion [("_on", .boolean true)] name =
            some param_value ∧
          (ptype.CreateValueFromJson plainWriter param_value (some none)).1 = false ∧
          TypedValueFromJson_Object plainWriter (.dictionary [("_on", .boolean true)])
              (.mk [("_led", ledflasher_led)] false) [] (some none) =
            (false, (TypedValueFromJson_props plainWriter pre [("_on", .boolean true)] [] []
                (some none)).2.1,
              (ptype.CreateValueFromJson plainWriter param_value (some none)).2.2)) ∨
        (GetWithoutPathExpansion [("_on", .boolean true)] name = none ∧
          ptype.GetDefaultValue = none ∧
          TypedValueFromJson_Object plainWriter (.dictionary [("_on", .boolean true)])
              (.mk [("_led", ledflasher_led)] false) [] (some none) =
            (false, (TypedValueFromJson_props plainWriter pre [("_on", .boolean true)] [] []
                (some none)).2.1,
              Error.AddToPrintf (some none) "commands" "parameter_missing"
                ("Required parameter missing: " ++ name)))) :=
  ⟨(C4_unknown_property plainWriter [("_led", ledflasher_led)]
      [("_led", .integer 2), ("_on", .boolean true)] [] (some none)).2.1
      ⟨("_on", .boolean true), by simp, by simp⟩ rfl,
   (C4_unknown_property plainWriter [("_led", ledflasher_led)]
      [("_on", .boolean true)] [] (some none)).2.2.2 false rfl⟩

/-- Claim C5 fails as stated for the object target: the empty dictionary is a dictionary,
yet `_ledflasher._toggle` rejects it, with `commands/parameter_missing`. -/
theorem C5_counterexample :
    (Value.dictionary []).GetAsDictionary = some [] ∧
    TypedValueFromJson_Object plainWriter (.dictionary []) ledflasher_toggle_parameters []
        (some none)
      = (false, [], some (some (Error.mk "commands" "parameter_missing"
          "Required parameter missing: _led" none))) :=
  ⟨rfl, rfl⟩

/-- Claim C5, amended, at the integer 5 for a double target and the double 5 for an int
target. -/
theorem C5_witness :
    TypedValueFromJson_double plainWriter (.integer 5) 0 (some none) = (true, 5, some none) ∧
    TypedValueFromJson_int plainWriter (.double 5) 0 (some none) =
      (false, 0, Error.AddToPrintf (some none) "commands" "type_mismatch"
        ("Unable to convert value " ++ plainWriter (.double 5) ++ " into " ++ "integer")) :=
  ⟨((C5_type_coercion plainWriter (.integer 5) (some none)).2.2.1 0).2.1 5 rfl,
   ((C5_type_coercion plainWriter (.double 5) (some none)).2.1 0).2.2
     (fun i h => by cases h)⟩

/-- Claim C6 at `{"_led": 2}` with `_on` defaulted to false. -/
theorem C6_witness :
    (GetWithoutPathExpansion [("_led", Value.integer 2)] "_on" = none →
      ∃ def_value, on_defaulted.GetDefaultValue = some def_value ∧
        mapFind "_on"
          [("_led", PropValue.IntValue ledflasher_led 2),
           ("_on", PropValue.BooleanValue ledflasher_on false)] = some def_value.Clone) ∧
    (∀ param_value, GetWithoutPathExpansion [("_led", Value.integer 2)] "_on"
        = some param_value →
      ∃ value, on_defaulted.CreateValueFromJson plainWriter param_value (some none)
          = (true, value, some none) ∧
        mapFind "_on"
          [("_led", PropValue.IntValue ledflasher_led 2),
           ("_on", PropValue.BooleanValue ledflasher_on false)] = some value) :=
  C6_defaults_fill_absent_fields plainWriter
    [("_led", ledflasher_led), ("_on", on_defaulted)] true [("_led", .integer 2)] []
    (some none) _ (some none) (by decide) (by simp [mapFind]) rfl "_on" on_defaulted
    (by simp)

end buffet

/-! ### MergeDictionary -/

namespace base

theorem mapFind_mapSet {α : Type} (key k2 : String) (v : α) (m : List (String × α)) :
    mapFind key (mapSet k2 v m) = if k2 = key then some v else mapFind key m := by
  induction m with
  | nil => simp [mapSet, mapFind]
  | cons p rest ih =>
    obtain ⟨k, x⟩ := p
    simp only [mapSet]
    by_cases hk : k = k2
    · subst hk
      by_cases hkk : k = key <;> simp [mapFind, hkk]
    · simp only [hk, if_false]
      by_cases hlt : keyLt k2 k = true
      · simp only [hlt, if_true, mapFind]
      · simp only [hlt, mapFind, ih]
        by_cases hkk : k = key
        · have : k2 ≠ key := fun h2 => hk (hkk.trans h2.symm)
          simp [hkk, this]
        · simp [hkk]

end base

namespace weave
open base

/-- The value `MergeEntry` stores under the key. -/
theorem mapFind_MergeEntry (target : List (String × Value)) (k : String) (v : Value)
    (key : String) :
    mapFind key (MergeEntry target k v) =
      if k = key then
        (match v, mapFind k target with
         | .dictionary source, some (.dictionary sub_dict) =>
           some (.dictionary (MergeDictionary sub_dict source))
         | merge_value, _ => some merge_value)
      else mapFind key target := by
  cases v with
  | dictionary source =>
    simp only [MergeEntry]
    cases hf : mapFind k target with
    | none => simp [mapFind_mapSet]
    | some x =>
      cases x <;> simp [mapFind_mapSet]
  | null => simp [MergeEntry, mapFind_mapSet]
  | boolean b => simp [MergeEntry, mapFind_mapSet]
  | integer b => simp [MergeEntry, mapFind_mapSet]
  | double b => simp [MergeEntry, mapFind_mapSet]
  | string b => simp [MergeEntry, mapFind_mapSet]
  | list b => simp [MergeEntry, mapFind_mapSet]

theorem mapFind_none_of_not_mem {α : Type} (key : String) (m : List (String × α))
    (h : key ∉ m.map Prod.fst) : mapFind key m = none := by
  induction m with
  | nil => rfl
  | cons p rest ih =>
    obtain ⟨k, x⟩ := p
    simp only [List.map_cons, List.mem_cons, not_or] at h
    simp [mapFind, Ne.symm h.1, ih h.2]

theorem mapFind_MergeDictionary (source target : List (String × Value)) (key : String)
    (hnd : (source.map Prod.fst).Nodup) :
    mapFind key (MergeDictionary target source) =
      match mapFind key source, mapFind key target with
      | some (.dictionary src), some (.dictionary sub_dict) =>
        some (.dictionary (MergeDictionary sub_dict src))
      | some merge_value, _ => some merge_value
      | none, kept => kept := by
  induction source generalizing target with
  | nil => simp [MergeDictionary, mapFind]
  | cons p rest ih =>
    obtain ⟨k, v⟩ := p
    simp only [List.map_cons, List.nodup_cons] at hnd
    simp only [MergeDictionary]
    rw [ih _ hnd.2, mapFind_MergeEntry]
    by_cases hk : k = key
    · subst hk
      have hrest : mapFind k rest = none := mapFind_none_of_not_mem k rest hnd.1
      simp only [hrest, mapFind, if_true]
      cases v with
      | dictionary source =>
        cases hf : mapFind k target with
        | none => rfl
        | some x => cases x <;> rfl
      | null => rfl
      | boolean b => rfl
      | integer b => rfl
      | double b => rfl
      | string b => rfl
      | list b => rfl
    · simp only [hk, if_false, mapFind]

end weave

/-! ### Updates with one timestamp (C7) -/

namespace weave
open base

theorem RecordChange_of_new (K : Nat) (es : List StateChange) (c : StateChange)
    (h : ∀ e, es.getLast? = some e → e.timestamp ≠ c.timestamp) :
    RecordChange K es c = AppendBounded K es c := by
  unfold RecordChange
  cases hl : es.getLast? with
  | none => rfl
  | some newest => simp only; rw [if_neg (h newest hl)]

theorem RecordChange_of_same (K : Nat) (es : List StateChange) (newest c : StateChange)
    (h : newest.timestamp = c.timestamp) :
    RecordChange K (es ++ [newest]) c =
      es ++ [{ timestamp := c.timestamp
               changed_properties :=
                 MergeDictionary newest.changed_properties c.changed_properties }] := by
  unfold RecordChange
  simp [h]

theorem MergeOldestTwo_timestamps (es : List StateChange) (t : Int)
    (h : ∀ e ∈ es, e.timestamp ≠ t) : ∀ e ∈ MergeOldestTwo es, e.timestamp ≠ t := by
  match es with
  | [] => simp [MergeOldestTwo]
  | [e1] => simp only [MergeOldestTwo]; exact h
  | e1 :: e2 :: rest =>
    intro e he
    simp only [MergeOldestTwo, List.mem_cons] at he
    rcases he with rfl | he
    · simp only
      have h1 := h e1 (by simp)
      have h2 := h e2 (by simp)
      rcases max_choice e1.timestamp e2.timestamp with hm | hm <;> rw [hm] <;> assumption
    · exact h e (by simp [he])

/-- Claim C7: two `NotifyPropertiesUpdated` calls `(t, a)` and `(t, b)` on a queue that
holds no entry for `t` leave exactly one entry for `t`, with changed properties
`MergeDictionary a b`; on a fresh queue it is the only entry, and a third call `(t, c)` merges
`c` into it. Under a key of `b` (keys
distinct) the merge holds the value of `b`, merged recursively into the value of `a` when
both are dictionaries; the other keys keep the value of `a`. -/
theorem C7_same_timestamp_updates_merge (timestamp : Int) (a b : List (String × Value)) :
    (∀ q : StateChangeQueue, (∀ e ∈ q.state_changes, e.timestamp ≠ timestamp) →
      (((q.NotifyPropertiesUpdated timestamp a).2.NotifyPropertiesUpdated timestamp
        b).2.GetAndClearRecordedStateChanges.1.filter
          fun e => decide (e.timestamp = timestamp)) =
        [{ timestamp := timestamp, changed_properties := MergeDictionary a b }]) ∧
    (∀ max_queue_size : Nat,
      (((StateChangeQueue.create max_queue_size).NotifyPropertiesUpdated timestamp
        a).2.NotifyPropertiesUpdated timestamp b).2.GetAndClearRecordedStateChanges.1 =
        [{ timestamp := timestamp, changed_properties := MergeDictionary a b }]) ∧
    (∀ (max_queue_size : Nat) (c : List (String × Value)),
      ((((StateChangeQueue.create max_queue_size).NotifyPropertiesUpdated timestamp
        a).2.NotifyPropertiesUpdated timestamp b).2.NotifyPropertiesUpdated timestamp
          c).2.GetAndClearRecordedStateChanges.1 =
        [{ timestamp := timestamp
           changed_properties := MergeDictionary (MergeDictionary a b) c }]) ∧
    (∀ key : String, (b.map Prod.fst).Nodup →
      mapFind key (MergeDictionary a b) =
        match mapFind key b, mapFind key a with
        | some (.dictionary source), some (.dictionary sub_dict) =>
          some (.dictionary (MergeDictionary sub_dict source))
        | some merge_value, _ => some merge_value
        | none, kept => kept) := by
  have hstep : ∀ (K : Nat) (es : List StateChange), (∀ e ∈ es, e.timestamp ≠ timestamp) →
      RecordChange K (RecordChange K es ⟨timestamp, a⟩) ⟨timestamp, b⟩ =
        (if K ≤ es.length then MergeOldestTwo es else es) ++
          [⟨timestamp, MergeDictionary a b⟩] := by
    intro K es hes
    rw [RecordChange_of_new K es ⟨timestamp, a⟩
      (fun e he => hes e (List.mem_of_getLast?_eq_some he))]
    unfold AppendBounded
    rw [RecordChange_of_same K _ ⟨timestamp, a⟩ ⟨timestamp, b⟩ rfl]
  refine ⟨?_, ?_, ?_, ?_⟩
  · intro q hq
    show (RecordChange q.max_queue_size (RecordChange q.max_queue_size q.state_changes _)
      _).filter _ = _
    rw [hstep _ _ hq, List.filter_append]
    have hnone : ∀ e ∈ (if q.max_queue_size ≤ q.state_changes.length
        then MergeOldestTwo q.state_changes else q.state_changes), e.timestamp ≠ timestamp := by
      split
      · exact MergeOldestTwo_timestamps _ _ hq
      · exact hq
    have : (List.filter (fun e => decide (e.timestamp = timestamp))
        (if q.max_queue_size ≤ q.state_changes.length
          then MergeOldestTwo q.state_changes else q.state_changes)) = [] := by
      rw [List.filter_eq_nil_iff]
      intro e he
      simpa using hnone e he
    rw [this]
    simp
  · intro K
    show RecordChange K (RecordChange K [] _) _ = _
    rw [hstep K [] (by simp)]
    simp [MergeOldestTwo]
  · intro K c
    show RecordChange K (RecordChange K (RecordChange K [] _) _) _ = _
    rw [hstep K [] (by simp)]
    have hnil : (if K ≤ ([] : List StateChange).length then MergeOldestTwo [] else []) = [] := by
      split <;> rfl
    rw [hnil]
    exact RecordChange_of_same K [] ⟨timestamp, MergeDictionary a b⟩ ⟨timestamp, c⟩ rfl
  · intro key hnd
    exact mapFind_MergeDictionary b a key hnd

end weave

/-! ### The bounded queue (C8, C9) -/

namespace weave
open base

end weave

namespace weave
open base

end weave

/-! ### The counter of the queue (C10) -/

namespace weave
open base

/-- Claim C10: `GetLastStateChangeId()` is 0 on a fresh queue and, after any sequence of
`NotifyPropertiesUpdated` and `GetAndClearRecordedStateChanges` calls on a fresh queue, is
the number of `NotifyPropertiesUpdated` calls made: every notification adds one, whatever
merge it causes, a drain leaves the counter unchanged, and the counter never decreases. -/
theorem C10_last_state_change_id_counts_notifications (max_queue_size : Nat) :
    (StateChangeQueue.create max_queue_size).GetLastStateChangeId = 0 ∧
    (∀ calls : List QueueCall,
      (runCalls (StateChangeQueue.create max_queue_size) calls).GetLastStateChangeId =
        (calls.filter fun c => match c with
          | .Notify _ _ => true
          | .Drain => false).length) ∧
    (∀ (q : StateChangeQueue) (timestamp : Int) (changed : List (String × Value)),
      (q.NotifyPropertiesUpdated timestamp changed).2.GetLastStateChangeId =
        q.GetLastStateChangeId + 1) ∧
    (∀ q : StateChangeQueue,
      q.GetAndClearRecordedStateChanges.2.GetLastStateChangeId = q.GetLastStateChangeId) ∧
    (∀ (q : StateChangeQueue) (calls : List QueueCall),
      q.GetLastStateChangeId ≤ (runCalls q calls).GetLastStateChangeId) := by
  have hgen : ∀ (calls : List QueueCall) (q : StateChangeQueue),
      (runCalls q calls).GetLastStateChangeId = q.GetLastStateChangeId +
        (calls.filter fun c => match c with
          | .Notify _ _ => true
          | .Drain => false).length := by
    intro calls
    induction calls with
    | nil => intro q; simp [runCalls]
    | cons c rest ih =>
      intro q
      have := ih (QueueCall.apply q c)
      simp only [runCalls, List.foldl_cons] at this ⊢
      rw [this]
      cases c with
      | Notify t ch =>
        simp [QueueCall.apply, StateChangeQueue.NotifyPropertiesUpdated,
          StateChangeQueue.GetLastStateChangeId, List.filter_cons]
        omega
      | Drain =>
        simp [QueueCall.apply, StateChangeQueue.GetAndClearRecordedStateChanges,
          StateChangeQueue.GetLastStateChangeId, List.filter_cons]
  refine ⟨rfl, ?_, ?_, ?_, ?_⟩
  · intro calls
    rw [hgen]
    simp [StateChangeQueue.create, StateChangeQueue.GetLastStateChangeId]
  · intro q t ch; rfl
  · intro q; rfl
  · intro q calls
    rw [hgen]
    omega

end weave

namespace weave
open base

/-- Claim C8: when a `NotifyPropertiesUpdated` with a new timestamp arrives at a queue that
holds `max_queue_size` entries, the oldest two entries are merged into one (the newer
merged over the older, stamped with the later of the two timestamps) and the new entry is
appended, so the queue holds `max_queue_size` entries again. With capacity 2 and updates at
`start_time`, `start_time + time_delta1` and `start_time + time_delta2` the drain returns the
merge of the first two, stamped `start_time + time_delta1`, and the third. -/
theorem C8_full_queue_merges_oldest_two :
    (∀ (q : StateChangeQueue) (element_old element_new : StateChange)
      (rest : List StateChange) (timestamp : Int) (changed_properties : List (String × Value)),
      q.state_changes = element_old :: element_new :: rest →
      q.state_changes.length = q.max_queue_size →
      (∀ e ∈ q.state_changes, e.timestamp ≠ timestamp) →
      (q.NotifyPropertiesUpdated timestamp changed_properties).2.state_changes =
        { timestamp := max element_old.timestamp element_new.timestamp
          changed_properties :=
            MergeDictionary element_old.changed_properties
              element_new.changed_properties } ::
          (rest ++ [{ timestamp := timestamp, changed_properties := changed_properties }]) ∧
      (q.NotifyPropertiesUpdated timestamp changed_properties).2.state_changes.length =
        q.max_queue_size ∧
      (q.NotifyPropertiesUpdated timestamp changed_properties).2.max_queue_size =
        q.max_queue_size) ∧
    (∀ (start_time time_delta1 time_delta2 : Int) (first second third : List (String × Value)),
      0 < time_delta1 → time_delta1 < time_delta2 →
      (notifyAll (StateChangeQueue.create 2)
        [{ timestamp := start_time, changed_properties := first },
         { timestamp := start_time + time_delta1, changed_properties := second },
         { timestamp := start_time + time_delta2, changed_properties := third }]
        ).GetAndClearRecordedStateChanges.1 =
      [{ timestamp := start_time + time_delta1
         changed_properties := MergeDictionary first second },
       { timestamp := start_time + time_delta2, changed_properties := third }]) := by
  constructor
  · intro q element_old element_new rest timestamp changed_properties hentries hfull hnew
    have hrec : RecordChange q.max_queue_size q.state_changes
        { timestamp := timestamp, changed_properties := changed_properties } =
        { timestamp := max element_old.timestamp element_new.timestamp
          changed_properties :=
            MergeDictionary element_old.changed_properties element_new.changed_properties } ::
          (rest ++ [{ timestamp := timestamp, changed_properties := changed_properties }]) := by
      have happ : AppendBounded q.max_queue_size q.state_changes
          { timestamp := timestamp, changed_properties := changed_properties } =
          { timestamp := max element_old.timestamp element_new.timestamp
            changed_properties :=
              MergeDictionary element_old.changed_properties element_new.changed_properties } ::
            (rest ++ [{ timestamp := timestamp, changed_properties := changed_properties }]) := by
        unfold AppendBounded
        rw [if_pos (le_of_eq hfull.symm), hentries]
        simp [MergeOldestTwo]
      unfold RecordChange
      cases hl : q.state_changes.getLast? with
      | none => simp only; exact happ
      | some newest =>
        simp only
        have hne : newest.timestamp ≠ timestamp :=
          hnew newest (List.mem_of_getLast?_eq_some hl)
        rw [if_neg hne]
        exact happ
    refine ⟨hrec, ?_, rfl⟩
    show (RecordChange q.max_queue_size q.state_changes _).length = q.max_queue_size
    rw [hrec, ← hfull, hentries]
    simp
  · intro start_time time_delta1 time_delta2 first second third h1 h2
    have e1 : ¬ start_time = start_time + time_delta1 := by omega
    have e2 : ¬ start_time + time_delta1 = start_time + time_delta2 := by omega
    have e2b : ¬ time_delta1 = time_delta2 := by omega
    have e3 : max start_time (start_time + time_delta1) = start_time + time_delta1 :=
      max_eq_right (by omega)
    simp [notifyAll, StateChangeQueue.NotifyPropertiesUpdated, StateChangeQueue.create,
      RecordChange, AppendBounded, MergeOldestTwo,
      StateChangeQueue.GetAndClearRecordedStateChanges, e1, e2, e2b, e3]

/-- Claim C8 at the unit test `MaxQueueSize`: the third update arrives at a full queue of
capacity 2. -/
theorem C8_witness_MaxQueueSize :
    ((notifyAll (StateChangeQueue.create 2)
        [⟨0, test_max1⟩, ⟨60, test_max2⟩]).NotifyPropertiesUpdated 180
        test_max3).2.state_changes =
      [⟨60, [("prop", .dictionary
          [("name1", .integer 3), ("name2", .integer 2), ("name3", .integer 4)])]⟩,
       ⟨180, test_max3⟩] ∧
    (notifyAll (StateChangeQueue.create 2)
        [⟨0, test_max1⟩, ⟨60, test_max2⟩, ⟨180, test_max3⟩]
        ).GetAndClearRecordedStateChanges.1 =
      [⟨0 + 60, MergeDictionary test_max1 test_max2⟩, ⟨0 + 180, test_max3⟩] :=
  ⟨(C8_full_queue_merges_oldest_two.1
      (notifyAll (StateChangeQueue.create 2) [⟨0, test_max1⟩, ⟨60, test_max2⟩])
      ⟨0, test_max1⟩ ⟨60, test_max2⟩ [] 180 test_max3 rfl rfl (by decide)).1,
   C8_full_queue_merges_oldest_two.2 0 60 180 test_max1 test_max2 test_max3 (by decide)
     (by decide)⟩

end weave

/-! ### Concrete inputs for C7 and C9 -/

namespace weave
open base

/-- Claim C7 at the unit test `GroupByTimestamp`. -/
theorem C7_witness :
    ((((StateChangeQueue.create 100).NotifyPropertiesUpdated 0 test_name1_1).2.NotifyPropertiesUpdated
        0 test_name2_2).2.GetAndClearRecordedStateChanges.1.filter
          fun e => decide (e.timestamp = 0)) =
      [{ timestamp := 0, changed_properties := MergeDictionary test_name1_1 test_name2_2 }] ∧
    (notifyAll (StateChangeQueue.create 100)
        [⟨0, test_name1_1⟩, ⟨0, test_name2_2⟩, ⟨0, test_name1_3⟩,
          ⟨60, [("prop", .dictionary [("name1", .integer 4)])]⟩]
        ).GetAndClearRecordedStateChanges.1 =
      [⟨0, [("prop", .dictionary [("name1", .integer 3), ("name2", .integer 2)])]⟩,
       ⟨60, [("prop", .dictionary [("name1", .integer 4)])]⟩] ∧
    ((((StateChangeQueue.create 100).NotifyPropertiesUpdated 0
        test_name1_1).2.NotifyPropertiesUpdated 0 test_name2_2).2.NotifyPropertiesUpdated 0
          test_name1_3).2.GetAndClearRecordedStateChanges.1 =
      [⟨0, [("prop", .dictionary [("name1", .integer 3), ("name2", .integer 2)])]⟩] ∧
    mapFind "prop" (MergeDictionary test_name1_1 test_name2_2) =
      some (.dictionary (MergeDictionary [("name1", .integer 1)] [("name2", .integer 2)])) :=
  ⟨(C7_same_timestamp_updates_merge 0 test_name1_1 test_name2_2).1
      (StateChangeQueue.create 100) (by simp [StateChangeQueue.create]),
   rfl,
   (C7_same_timestamp_updates_merge 0 test_name1_1 test_name2_2).2.2.1 100 test_name1_3,
   (C7_same_timestamp_updates_merge 0 test_name1_1 test_name2_2).2.2.2 "prop" (by decide)⟩

end weave

/-! ### The drain of the queue and its observers (C11, C12) -/

namespace weave
open base

/-- Claim C12: `AddOnStateUpdatedCallback(cb)` registers `cb` and invokes it before
returning, with the current `GetLastStateChangeId()`, if and only if the queue is empty at
registration time; a queue that holds an undrained change, in particular any queue right
after a `NotifyPropertiesUpdated`, makes no invocation during registration. -/
theorem C12_callback_invoked_iff_queue_empty {Callback : Type} (q : StateChangeQueue)
    (callbacks : List Callback) (callback : Callback) :
    (q.IsEmpty = true →
      (q.AddOnStateUpdatedCallback callbacks callback).2 =
        [(callback, q.GetLastStateChangeId)]) ∧
    (q.IsEmpty = false → (q.AddOnStateUpdatedCallback callbacks callback).2 = []) ∧
    ((∃ id, (callback, id) ∈ (q.AddOnStateUpdatedCallback callbacks callback).2) ↔
      q.IsEmpty = true) ∧
    (q.AddOnStateUpdatedCallback callbacks callback).1 = callbacks ++ [callback] ∧
    (∀ (timestamp : Int) (changed : List (String × Value)),
      ((q.NotifyPropertiesUpdated timestamp changed).2.AddOnStateUpdatedCallback callbacks
        callback).2 = []) := by
  refine ⟨?_, ?_, ?_, rfl, ?_⟩
  · intro h
    simp [StateChangeQueue.AddOnStateUpdatedCallback, h,
      StateChangeQueue.GetLastStateChangeId]
  · intro h
    simp [StateChangeQueue.AddOnStateUpdatedCallback, h]
  · cases h : q.IsEmpty <;> simp [StateChangeQueue.AddOnStateUpdatedCallback, h]
  · intro timestamp changed
    have hne : (q.NotifyPropertiesUpdated timestamp changed).2.IsEmpty = false := by
      show (RecordChange _ _ _).isEmpty = false
      unfold RecordChange AppendBounded
      split
      · split <;> simp
      · simp
    simp [StateChangeQueue.AddOnStateUpdatedCallback, hne]

/-- Claim C12 at the unit tests `ImmediateStateChangeNotification` (fresh queue, the
callback is invoked with 0) and `DelayedStateChangeNotification` (one recorded update, no
invocation). -/
theorem C12_witness_unit_tests :
    ((StateChangeQueue.create 100).AddOnStateUpdatedCallback ([] : List String) "callback").2
      = [("callback", 0)] ∧
    (((StateChangeQueue.create 100).NotifyPropertiesUpdated 0
        [("prop", .dictionary [("name1", .integer 1), ("name3", .integer 2)])]
      ).2.AddOnStateUpdatedCallback ([] : List String) "callback").2 = [] :=
  ⟨(C12_callback_invoked_iff_queue_empty (StateChangeQueue.create 100) [] "callback").1 rfl,
   (C12_callback_invoked_iff_queue_empty (StateChangeQueue.create 100) [] "callback").2.2.2.2
     0 [("prop", .dictionary [("name1", .integer 1), ("name3", .integer 2)])]⟩

end weave

/-! ### Equality of objects (C13) -/

namespace buffet
open base

theorem ObjectsMatch_iff (obj1 obj2 : List (String × PropValue)) :
    ObjectsMatch obj1 obj2 = true ↔
      List.Forall₂ (fun p1 p2 => p1.1 = p2.1 ∧ PropValue.IsEqual p1.2 p2.2 = true) obj1 obj2 := by
  induction obj1 generalizing obj2 with
  | nil =>
    cases obj2 with
    | nil => simp [ObjectsMatch]
    | cons p rest => simp [ObjectsMatch]
  | cons p1 rest1 ih =>
    obtain ⟨k1, v1⟩ := p1
    cases obj2 with
    | nil => simp [ObjectsMatch]
    | cons p2 rest2 =>
      obtain ⟨k2, v2⟩ := p2
      simp only [ObjectsMatch, List.forall₂_cons]
      by_cases hk : k1 = k2
      · by_cases hv : PropValue.IsEqual v1 v2 = true
        · simp [hk, hv, ih]
        · simp [hk, hv]
      · simp [hk]

theorem Object_eq_iff (obj1 obj2 : List (String × PropValue)) :
    Object_eq obj1 obj2 = true ↔
      List.Forall₂ (fun p1 p2 => p1.1 = p2.1 ∧ PropValue.IsEqual p1.2 p2.2 = true) obj1 obj2 := by
  unfold Object_eq
  constructor
  · intro h
    by_cases hl : obj1.length ≠ obj2.length
    · simp [hl] at h
    · rw [if_neg hl] at h
      exact (ObjectsMatch_iff _ _).mp h
  · intro h
    have hl := h.length_eq
    rw [if_neg (by simp [hl])]
    exact (ObjectsMatch_iff _ _).mpr h

theorem ascending_keys_eq (l1 l2 : List String)
    (h1 : keysAscending l1 = true) (h2 : keysAscending l2 = true)
    (hmem : ∀ k, k ∈ l1 ↔ k ∈ l2) : l1 = l2 := by
  rw [keysAscending_iff] at h1 h2
  have s1 : l1.Sorted (· < ·) := h1.imp (fun h => (keyLt_iff _ _).mp h)
  have s2 : l2.Sorted (· < ·) := h2.imp (fun h => (keyLt_iff _ _).mp h)
  have n1 : l1.Nodup := s1.nodup
  have n2 : l2.Nodup := s2.nodup
  exact List.eq_of_perm_of_sorted ((List.perm_ext_iff_of_nodup n1 n2).mpr hmem) s1 s2

theorem forall2_of_lookup (obj1 obj2 : List (String × PropValue))
    (hkeys : mapKeys obj1 = mapKeys obj2)
    (h1 : keysAscending (mapKeys obj1) = true)
    (hval : ∀ k v1 v2, mapFind k obj1 = some v1 → mapFind k obj2 = some v2 →
      PropValue.IsEqual v1 v2 = true) :
    List.Forall₂ (fun p1 p2 => p1.1 = p2.1 ∧ PropValue.IsEqual p1.2 p2.2 = true) obj1 obj2 := by
  induction obj1 generalizing obj2 with
  | nil =>
    cases obj2 with
    | nil => exact List.Forall₂.nil
    | cons p rest => simp [mapKeys] at hkeys
  | cons p1 rest1 ih =>
    obtain ⟨k1, v1⟩ := p1
    cases obj2 with
    | nil => simp [mapKeys] at hkeys
    | cons p2 rest2 =>
      obtain ⟨k2, v2⟩ := p2
      simp only [mapKeys, List.map_cons, List.cons.injEq] at hkeys
      obtain ⟨rfl, hrest⟩ := hkeys
      have h1' := h1
      simp only [mapKeys, List.map_cons, keysAscending, Bool.and_eq_true,
        List.all_eq_true] at h1'
      refine List.Forall₂.cons ⟨rfl, hval k1 v1 v2 (by simp [mapFind]) (by simp [mapFind])⟩ ?_
      apply ih rest2 hrest h1'.2
      intro k w1 w2 hw1 hw2
      have hne : k1 ≠ k := by
        intro h
        subst h
        have hin : k1 ∈ rest1.map Prod.fst := by
          by_contra hc
          rw [(mapFind_eq_none_iff k1 rest1).mpr hc] at hw1
          exact absurd hw1 (by simp)
        exact keyLt_ne (h1'.1 k1 hin) rfl
      exact hval k w1 w2 (by simp [mapFind, hne, hw1]) (by simp [mapFind, hne, hw2])

theorem lookup_of_forall2 (obj1 obj2 : List (String × PropValue))
    (h : List.Forall₂ (fun p1 p2 => p1.1 = p2.1 ∧ PropValue.IsEqual p1.2 p2.2 = true)
      obj1 obj2) :
    mapKeys obj1 = mapKeys obj2 ∧
      ∀ k v1 v2, mapFind k obj1 = some v1 → mapFind k obj2 = some v2 →
        PropValue.IsEqual v1 v2 = true := by
  induction obj1 generalizing obj2 with
  | nil =>
    cases h
    simp [mapKeys, mapFind]
  | cons p1 r1 ih =>
    cases h with
    | cons hp hr =>
      rename_i p2 r2
      obtain ⟨k1, v1⟩ := p1
      obtain ⟨k2, v2⟩ := p2
      simp only at hp
      obtain ⟨rfl, hv⟩ := hp
      have ih2 := ih r2 hr
      refine ⟨by simp only [mapKeys, List.map_cons] at ih2 ⊢; rw [ih2.1], ?_⟩
      intro k w1 w2 hw1 hw2
      by_cases hk : k1 = k
      · simp only [mapFind, hk, if_true, Option.some.injEq] at hw1 hw2
        subst hw1 hw2
        exact hv
      · simp only [mapFind, hk, if_false] at hw1 hw2
        exact ih2.2 k w1 w2 hw1 hw2

/-- Claim C13: `operator==` on two Objects returns false when their sizes differ; for two
Objects (maps, so their keys ascend) it returns true if and only if both have the same set
of field names and, for every field name, the two values compare equal under
`PropValue::IsEqual`; in general it is the entry-by-entry comparison with `obj_cmp`. -/
theorem C13_object_equality_is_set_equality (obj1 obj2 : List (String × PropValue)) :
    (obj1.length ≠ obj2.length → Object_eq obj1 obj2 = false) ∧
    (keysAscending (mapKeys obj1) = true → keysAscending (mapKeys obj2) = true →
      (Object_eq obj1 obj2 = true ↔
        (∀ k, k ∈ mapKeys obj1 ↔ k ∈ mapKeys obj2) ∧
        ∀ k v1 v2, mapFind k obj1 = some v1 → mapFind k obj2 = some v2 →
          PropValue.IsEqual v1 v2 = true)) ∧
    (Object_eq obj1 obj2 = true ↔
      List.Forall₂ (fun p1 p2 => obj_cmp p1 p2 = true) obj1 obj2) := by
  refine ⟨?_, ?_, ?_⟩
  · intro h
    simp [Object_eq, h]
  · intro h1 h2
    rw [Object_eq_iff]
    constructor
    · intro h
      obtain ⟨hk, hv⟩ := lookup_of_forall2 obj1 obj2 h
      exact ⟨fun k => by rw [hk], hv⟩
    · rintro ⟨hk, hv⟩
      exact forall2_of_lookup obj1 obj2 (ascending_keys_eq _ _ h1 h2 hk) h1 hv
  · rw [Object_eq_iff]
    simp [obj_cmp]

/-- Claim C13 at two objects with the fields `_led` and `_on` that differ in the value of
`_on`. -/
theorem C13_witness :
    Object_eq
        [("_led", .IntValue ledflasher_led 2), ("_on", .BooleanValue ledflasher_on true)]
        [("_led", .IntValue ledflasher_led 2), ("_on", .BooleanValue ledflasher_on false)]
      = true ↔
      (∀ k, k ∈ mapKeys [("_led", PropValue.IntValue ledflasher_led 2),
            ("_on", PropValue.BooleanValue ledflasher_on true)] ↔
          k ∈ mapKeys [("_led", PropValue.IntValue ledflasher_led 2),
            ("_on", PropValue.BooleanValue ledflasher_on false)]) ∧
      ∀ k v1 v2,
        mapFind k [("_led", PropValue.IntValue ledflasher_led 2),
          ("_on", PropValue.BooleanValue ledflasher_on true)] = some v1 →
        mapFind k [("_led", PropValue.IntValue ledflasher_led 2),
          ("_on", PropValue.BooleanValue ledflasher_on false)] = some v2 →
        PropValue.IsEqual v1 v2 = true :=
  (C13_object_equality_is_set_equality
    [("_led", .IntValue ledflasher_led 2), ("_on", .BooleanValue ledflasher_on true)]
    [("_led", .IntValue ledflasher_led 2), ("_on", .BooleanValue ledflasher_on false)]).2.1
    (by decide) (by decide)

end buffet

/-! ### URLs, the authorization header and required parameters (C14, C15, C16) -/

namespace buffet
open base chromeos.http

theorem append_ne_empty_of_left (a b : String) (h : a ≠ "") : a ++ b ≠ "" := by
  intro hab
  apply h
  have := congrArg String.length hab
  simp only [String.length_append] at this
  have h0 : a.length = 0 := by
    have : ("" : String).length = 0 := rfl
    omega
  exact String.ext (List.length_eq_zero.mp h0)

theorem BuildURL_eq (enc : WebParamList → String) (url subpath : String)
    (params : WebParamList) :
    BuildURL enc url subpath params =
      url ++ (if subpath ≠ "" ∧ url ≠ "" ∧ url.back ≠ '/' then "/" else "") ++ subpath
        ++ (if params ≠ [] then "?" ++ enc params else "") := by
  unfold BuildURL
  by_cases hs : subpath = ""
  · subst hs
    by_cases hp : params = []
    · simp [hp]
    · simp [hp, String.append_assoc]
  · by_cases hu : url ≠ "" ∧ url.back ≠ '/'
    · by_cases hp : params = []
      · simp [hs, hu, hp]
      · simp [hs, hu, hp, String.append_assoc]
    · by_cases hp : params = []
      · simp [hs, hu, hp]
      · simp [hs, hu, hp, String.append_assoc]

/-- Claim C14: for a device ID that is not empty, `GetDeviceURL(subpath, params)` is the
service URL, a `/` exactly when the service URL is neither empty nor ends in `/`, then
`devices/` and the device ID, then `/` and the subpath exactly when the subpath is not
empty, then `?` and the form-encoding of the parameters exactly when there are
parameters. -/
theorem C14_device_url_composition (WebParamsEncode : WebParamList → String)
    (self : DeviceRegistrationInfo) (subpath : String) (params : WebParamList)
    (hid : self.device_id_ ≠ "") :
    self.GetDeviceURL WebParamsEncode subpath params =
      some (self.service_url_
        ++ (if self.service_url_ ≠ "" ∧ self.service_url_.back ≠ '/' then "/" else "")
        ++ ("devices/" ++ self.device_id_)
        ++ (if subpath ≠ "" then "/" ++ subpath else "")
        ++ (if params ≠ [] then "?" ++ WebParamsEncode params else "")) := by
  have hne : ∀ s : String, "devices/" ++ s ≠ "" :=
    fun s => append_ne_empty_of_left _ _ (by decide)
  unfold DeviceRegistrationInfo.GetDeviceURL DeviceRegistrationInfo.GetServiceURL
  rw [if_neg hid, BuildURL_eq]
  by_cases hs : subpath = ""
  · simp [hs, hne, String.append_assoc]
  · simp [hs, hne, String.append_assoc]

/-- Claim C14 at a service URL that ends in `/`, the subpath `commands` and one
parameter. -/
theorem C14_witness :
    registered_device.GetDeviceURL plainEncode "commands" [("state", "queued")] =
      some "https://cloud.example/api/devices/device9/commands?state=queued" :=
  (C14_device_url_composition plainEncode registered_device "commands" [("state", "queued")]
    (by decide)).trans (by decide)

/-- Claim C15: `GetAuthorizationHeader()` returns the pair of the header name `Authorization`
and the text `OAuth`, one space and the access token; the scheme is not `Bearer`. -/
theorem C15_authorization_header (self : DeviceRegistrationInfo) :
    self.GetAuthorizationHeader = ("Authorization", "OAuth " ++ self.access_token_) ∧
    self.GetAuthorizationHeader ≠ ("Authorization", "Bearer " ++ self.access_token_) := by
  have h : self.GetAuthorizationHeader = ("Authorization", "OAuth " ++ self.access_token_) := by
    simp only [DeviceRegistrationInfo.GetAuthorizationHeader, BuildAuthHeader, Join,
      request_header.kAuthorization, String.append_assoc, Prod.mk.injEq, true_and]
    rfl
  refine ⟨h, ?_⟩
  rw [h]
  intro hc
  have h2 := congrArg (fun p => p.2.data.head?) hc
  simp at h2

theorem GetParamValue_snd (params : List (String × Value)) (name old : String) :
    (GetParamValue params name old).2 =
      match mapFind name params with
      | some (.string s) => s
      | _ => old := by
  unfold GetParamValue
  cases h : mapFind name params with
  | none => rfl
  | some p => cases p <;> rfl

theorem CheckParams_first_empty (self : DeviceRegistrationInfo) (error_msg : Option String)
    (name value : String)
    (h : self.RequiredParams.find? (fun p => p.2 = "") = some (name, value)) :
    self.CheckParams error_msg =
      (false, error_msg.map fun _ => "Parameter " ++ name ++ " not specified") := by
  unfold DeviceRegistrationInfo.RequiredParams at h
  unfold DeviceRegistrationInfo.CheckParams CheckParam
  by_cases h1 : self.client_id_ = ""
  · simp [List.find?, h1] at h
    simp [h1, ← h.1]
  by_cases h2 : self.client_secret_ = ""
  · simp [List.find?, h1, h2] at h
    simp [h1, h2, ← h.1]
  by_cases h3 : self.api_key_ = ""
  · simp [List.find?, h1, h2, h3] at h
    simp [h1, h2, h3, ← h.1]
  by_cases h4 : self.device_kind_ = ""
  · simp [List.find?, h1, h2, h3, h4] at h
    simp [h1, h2, h3, h4, ← h.1]
  by_cases h5 : self.system_name_ = ""
  · simp [List.find?, h1, h2, h3, h4, h5] at h
    simp [h1, h2, h3, h4, h5, ← h.1]
  by_cases h6 : self.oauth_url_ = ""
  · simp [List.find?, h1, h2, h3, h4, h5, h6] at h
    simp [h1, h2, h3, h4, h5, h6, ← h.1]
  by_cases h7 : self.service_url_ = ""
  · simp [List.find?, h1, h2, h3, h4, h5, h6, h7] at h
    simp [h1, h2, h3, h4, h5, h6, h7, ← h.1]
  · simp [List.find?, h1, h2, h3, h4, h5, h6, h7] at h

/-- Claim C16 fails as stated: on a blank record and no parameters `StartRegistration`
returns the empty string and reports the message "Parameter client_id not specified", or
nothing when the caller passes no error string; whatever the caller passes, the report is
never the identifier `registration/parameter_missing`. -/
theorem C16_counterexample :
    DeviceRegistrationInfo.StartRegistration plainEncode plainWriter refresh_cloud blank_device (quiet_world 0) []
        (some "") =
      ("", some "Parameter client_id not specified", blank_device, quiet_world 0) ∧
    DeviceRegistrationInfo.StartRegistration plainEncode plainWriter refresh_cloud blank_device (quiet_world 0) []
        none =
      ("", none, blank_device, quiet_world 0) ∧
    ∀ error_msg,
      (DeviceRegistrationInfo.StartRegistration plainEncode plainWriter refresh_cloud
        blank_device (quiet_world 0) [] error_msg).2.1 ≠
        some "registration/parameter_missing" := by
  refine ⟨rfl, rfl, ?_⟩
  intro error_msg
  cases error_msg with
  | none => exact fun h => nomatch h
  | some e =>
    intro h
    have h2 : some "Parameter client_id not specified" =
        some "registration/parameter_missing" := h
    revert h2
    decide

/-- Claim C16, amended: `StartRegistration` merges the string-valued parameters over the
record (a key that is absent, or holds no string, keeps its previous value) and, when after
the merge the first empty one of the seven required values is the one checked under `name`,
it fails: it returns the empty string, keeps the ticket ID, leaves the world as it was (no
HTTP request is sent) and reports, when the caller passes an error string, the message
"Parameter `name` not specified", without any error domain or code. -/
theorem C16_missing_required_parameter (WebParamsEncode : WebParamList → String)
    (write : Value → String) (env : Environment) (self : DeviceRegistrationInfo) (w : World)
    (params : List (String × Value)) (error_msg : Option String) (name value : String)
    (hmissing : (self.MergeParams params).RequiredParams.find? (fun p => p.2 = "") =
      some (name, value)) :
    DeviceRegistrationInfo.StartRegistration WebParamsEncode write env self w params error_msg =
        ("", error_msg.map (fun _ => "Parameter " ++ name ++ " not specified"),
          self.MergeParams params, w) ∧
      (self.MergeParams params).RequiredParams =
        self.RequiredParams.map (fun p =>
          (p.1, match mapFind p.1 params with
                | some (.string s) => s
                | _ => p.2)) ∧
      (self.MergeParams params).ticket_id_ = self.ticket_id_ := by
  refine ⟨?_, ?_, rfl⟩
  · unfold DeviceRegistrationInfo.StartRegistration
    rw [CheckParams_first_empty _ error_msg name value hmissing]
  · simp only [DeviceRegistrationInfo.RequiredParams, DeviceRegistrationInfo.MergeParams,
      GetParamValue_snd, List.map_cons, List.map_nil]

/-- Claim C16, amended, at parameters that replace the client ID, empty the API key and
hold an integer under `oauth_url`. -/
theorem C16_witness :
    DeviceRegistrationInfo.StartRegistration plainEncode plainWriter refresh_cloud ticketed_device (quiet_world 0)
        [("api_key", .string ""), ("client_id", .string "other"), ("oauth_url", .integer 1)]
        (some "") =
      ("", some "Parameter api_key not specified",
        { ticketed_device with client_id_ := "other", api_key_ := "" }, quiet_world 0) :=
  (C16_missing_required_parameter plainEncode plainWriter refresh_cloud ticketed_device
    (quiet_world 0)
    [("api_key", .string ""), ("client_id", .string "other"), ("oauth_url", .integer 1)]
    (some "") "api_key" "" (by decide)).1.trans (by rfl)

end buffet

/-! ### The finalize loop and the completed registration (C17, C18) -/

namespace buffet
open base chromeos.http

theorem FinalizeLoop_retries (env : Environment) (url : String) (k : Nat) :
    ∀ (fuel : Nat) (w : World), k < fuel →
      (∀ i, i < k → ∃ r, env.server (w.sent ++ List.replicate (i + 1) (.PostBinary url "")) =
        some r ∧ r.GetStatusCode = status_code.BadRequest) →
      (∀ r, env.server (w.sent ++ List.replicate (k + 1) (.PostBinary url "")) = some r →
        r.GetStatusCode ≠ status_code.BadRequest) →
      ∃ w2, DeviceRegistrationInfo.FinalizeLoop env url fuel w =
          some (env.server (w.sent ++ List.replicate (k + 1) (.PostBinary url "")), w2) ∧
        w2.sent = w.sent ++ List.replicate (k + 1) (.PostBinary url "") ∧
        w2.slept = w.slept + k ∧ w2.written = w.written ∧ w2.file = w.file := by
  induction k with
  | zero =>
    intro fuel w hfuel _ hlast
    obtain ⟨f, rfl⟩ : ∃ f, fuel = f + 1 := ⟨fuel - 1, by omega⟩
    simp only [zero_add, List.replicate_one] at hlast ⊢
    unfold DeviceRegistrationInfo.FinalizeLoop Send
    cases hs : env.server (w.sent ++ [Request.PostBinary url ""]) with
    | none => exact ⟨_, rfl, rfl, rfl, rfl, rfl⟩
    | some r =>
      have hr := hlast r hs
      simp only [hr, if_false]
      exact ⟨_, rfl, rfl, rfl, rfl, rfl⟩
  | succ k ih =>
    intro fuel w hfuel h400 hlast
    obtain ⟨f, rfl⟩ : ∃ f, fuel = f + 1 := ⟨fuel - 1, by omega⟩
    obtain ⟨r, hs, hr⟩ := h400 0 (by omega)
    simp only [zero_add, List.replicate_one] at hs
    have hshift : ∀ n, w.sent ++ List.replicate (n + 1 + 1) (Request.PostBinary url "") =
        (w.sent ++ [Request.PostBinary url ""]) ++
          List.replicate (n + 1) (Request.PostBinary url "") := by
      intro n
      rw [List.replicate_succ (n := n + 1), List.append_assoc, List.singleton_append]
    have hstep : DeviceRegistrationInfo.FinalizeLoop env url (f + 1) w =
        DeviceRegistrationInfo.FinalizeLoop env url f
          (sleep { w with sent := w.sent ++ [Request.PostBinary url ""],
                          now := w.now + env.elapsed (w.sent ++ [Request.PostBinary url ""]) }
            1) := by
      conv_lhs => unfold DeviceRegistrationInfo.FinalizeLoop Send
      simp only [hs, hr, if_true]
    obtain ⟨w2, h1, h2, h3, h4, h5⟩ := ih f
      (sleep { w with sent := w.sent ++ [Request.PostBinary url ""],
                      now := w.now + env.elapsed (w.sent ++ [Request.PostBinary url ""]) } 1)
      (by omega)
      (fun i hi => by
        obtain ⟨r, h1, h2⟩ := h400 (i + 1) (by omega)
        exact ⟨r, by rw [← h1, hshift]; rfl, h2⟩)
      (fun r h => hlast r (by rw [← h, hshift]; rfl))
    refine ⟨w2, ?_, ?_, ?_, h4, h5⟩
    · rw [hstep, h1, hshift]
      rfl
    · rw [h2, hshift]
      rfl
    · rw [h3]
      simp only [sleep]
      omega

theorem Save_world (self : DeviceRegistrationInfo) (env : Environment) (w : World) :
    (self.Save env w).2.sent = w.sent ∧ (self.Save env w).2.slept = w.slept ∧
      (self.Save env w).2.written = w.written ++ [self.SavedDictionary] := by
  unfold DeviceRegistrationInfo.Save
  split <;> exact ⟨rfl, rfl, rfl⟩

theorem ExchangeRobotCode_world (enc : WebParamList → String) (env : Environment)
    (self : DeviceRegistrationInfo) (w : World) (auth_code : String) :
    (DeviceRegistrationInfo.ExchangeRobotCode enc env self w auth_code).2.2.sent =
        w.sent ++ [.PostFormData (self.GetOAuthURL enc "token" [])
          [("code", auth_code), ("client_id", self.client_id_),
           ("client_secret", self.client_secret_), ("redirect_uri", "oob"),
           ("scope", "https://www.googleapis.com/auth/clouddevices"),
           ("grant_type", "authorization_code")] []] ∧
      (DeviceRegistrationInfo.ExchangeRobotCode enc env self w auth_code).2.2.slept =
        w.slept := by
  unfold DeviceRegistrationInfo.ExchangeRobotCode
  generalize hS : Send env w _ = S
  obtain ⟨resp, w1⟩ := S
  have hw1 : w1.sent = w.sent ++ [.PostFormData (self.GetOAuthURL enc "token" [])
          [("code", auth_code), ("client_id", self.client_id_),
           ("client_secret", self.client_secret_), ("redirect_uri", "oob"),
           ("scope", "https://www.googleapis.com/auth/clouddevices"),
           ("grant_type", "authorization_code")] []] ∧ w1.slept = w.slept := by
    simp only [Send, Prod.mk.injEq] at hS
    obtain ⟨_, rfl⟩ := hS
    exact ⟨rfl, rfl⟩
  cases resp with
  | none => exact hw1
  | some response =>
    simp only
    repeat' split
    all_goals first
      | exact hw1
      | (simp only [Save_world]; exact hw1)

theorem CompleteRegistration_world (enc : WebParamList → String) (env : Environment)
    (self : DeviceRegistrationInfo) (w : World) (response : Option Response) :
    (DeviceRegistrationInfo.CompleteRegistration enc env self w response).2.2.slept = w.slept ∧
      ((DeviceRegistrationInfo.CompleteRegistration enc env self w response).2.2.sent = w.sent ∨
        ∃ auth_code,
          (DeviceRegistrationInfo.CompleteRegistration enc env self w response).2.2.sent =
            w.sent ++ [self.RobotTokenRequest enc auth_code]) := by
  unfold DeviceRegistrationInfo.CompleteRegistration
  repeat' split
  all_goals first
    | exact ⟨rfl, Or.inl rfl⟩
    | exact ⟨(ExchangeRobotCode_world enc env _ w _).2,
        Or.inr ⟨_, (ExchangeRobotCode_world enc env _ w _).1⟩⟩

/-- Claim C17: for every k, when `FinishRegistration` with a ticket ID that is not empty
reaches the loop and the cloud answers the first k finalize requests with HTTP 400 and the
next one with another status or not at all, then with any fuel above k the call returns,
having slept k seconds (one after each 400) and having sent exactly k + 1 `PostBinary`
requests without data to the service URL joined with `registrationTickets/`, the ticket ID
and `/finalize?key=` with the API key, followed by at most the one token request of the
robot account. -/
theorem C17_finalize_retries_while_bad_request (WebParamsEncode : WebParamList → String)
    (env : Environment) (self : DeviceRegistrationInfo) (w w1 : World)
    (user_auth_code : String) (k fuel : Nat)
    (hticket : self.ticket_id_ ≠ "")
    (hstart : self.PopulateUserInfo WebParamsEncode env w user_auth_code = (true, w1))
    (h400 : ∀ i, i < k → ∃ r,
      env.server (w1.sent ++ List.replicate (i + 1) (self.FinalizeRequest WebParamsEncode)) =
        some r ∧ r.GetStatusCode = status_code.BadRequest)
    (hlast : ∀ r,
      env.server (w1.sent ++ List.replicate (k + 1) (self.FinalizeRequest WebParamsEncode)) =
        some r → r.GetStatusCode ≠ status_code.BadRequest)
    (hfuel : k < fuel) :
    self.FinalizeRequest WebParamsEncode =
        .PostBinary (self.service_url_
          ++ (if self.service_url_ ≠ "" ∧ self.service_url_.back ≠ '/' then "/" else "")
          ++ "registrationTickets/" ++ self.ticket_id_ ++ "/finalize?key=" ++ self.api_key_)
          "" ∧
      ∃ result,
        DeviceRegistrationInfo.FinishRegistration WebParamsEncode env fuel self w
            user_auth_code = some result ∧
          result.2.2.slept = w1.slept + k ∧
          (result.2.2.sent =
              w1.sent ++ List.replicate (k + 1) (self.FinalizeRequest WebParamsEncode) ∨
            ∃ auth_code, result.2.2.sent =
              w1.sent ++ List.replicate (k + 1) (self.FinalizeRequest WebParamsEncode) ++
                [self.RobotTokenRequest WebParamsEncode auth_code]) := by
  constructor
  · have hne : ∀ s : String, "registrationTickets/" ++ s ≠ "" :=
      fun s => append_ne_empty_of_left _ _ (by decide)
    simp [DeviceRegistrationInfo.FinalizeRequest, DeviceRegistrationInfo.FinalizeURL,
      DeviceRegistrationInfo.GetServiceURL,
      BuildURL_eq, hne, String.append_assoc]
  · obtain ⟨w2, hloop, hsent, hslept, _, _⟩ :=
      FinalizeLoop_retries env _ k fuel w1 hfuel h400 hlast
    refine ⟨DeviceRegistrationInfo.CompleteRegistration WebParamsEncode env self w2
      (env.server (w1.sent ++
        List.replicate (k + 1) (self.FinalizeRequest WebParamsEncode))), ?_, ?_, ?_⟩
    · unfold DeviceRegistrationInfo.FinishRegistration
      rw [if_neg hticket, hstart]
      simp only
      rw [hloop]
      rfl
    · rw [(CompleteRegistration_world WebParamsEncode env self w2 _).1, hslept]
    · rcases (CompleteRegistration_world WebParamsEncode env self w2 _).2 with h | ⟨c, h⟩
      · exact Or.inl (h.trans hsent)
      · exact Or.inr ⟨c, by rw [h, hsent]; rfl⟩

/-- Claim C17 at k = 2: the cloud answers 400 twice and then 200. -/
theorem C17_witness_two_retries :
    ∃ result,
      DeviceRegistrationInfo.FinishRegistration plainEncode approving_cloud 3 ticketed_device
          (quiet_world 0) "" = some result ∧
        result.2.2.slept = (quiet_world 0).slept + 2 ∧
        (result.2.2.sent =
            (quiet_world 0).sent ++ List.replicate (2 + 1)
              (ticketed_device.FinalizeRequest plainEncode) ∨
          ∃ auth_code, result.2.2.sent =
            (quiet_world 0).sent ++ List.replicate (2 + 1)
              (ticketed_device.FinalizeRequest plainEncode) ++
              [ticketed_device.RobotTokenRequest plainEncode auth_code]) :=
  (C17_finalize_retries_while_bad_request plainEncode approving_cloud ticketed_device
    (quiet_world 0) (quiet_world 0) "" 2 3 (by decide) rfl
    (fun i hi => by interval_cases i <;> exact ⟨_, rfl, rfl⟩)
    (fun r h => by
      obtain rfl : Response.mk 200 (some finalized_ticket) "" = r := Option.some.inj h
      decide)
    (by decide)).2

/-- Claim C18: when the loop of `FinishRegistration` ends on a response with HTTP 200 whose
JSON holds `robotAccountEmail`, `robotAccountAuthorizationCode` and `deviceDraft.id`, and
the token exchange for that authorization code yields an OAuth response with an
`access_token` and a `refresh_token` that are not empty and `expires_in > 0`, then
`FinishRegistration` returns true with the robot account, device ID, access token and
refresh token of the record set to those values, and `Save` is called once on that record:
the dictionary it writes holds exactly the eight persistent keys. -/
theorem C18_finish_registration_stores_and_saves (WebParamsEncode : WebParamList → String)
    (env : Environment) (self : DeviceRegistrationInfo) (w w1 w2 : World)
    (user_auth_code : String) (fuel : Nat) (r : Response)
    (finalize_json token_json : List (String × Value))
    (robot_account auth_code device_id access_token refresh_token : String)
    (expires_in : Int)
    (hticket : self.ticket_id_ ≠ "")
    (hstart : self.PopulateUserInfo WebParamsEncode env w user_auth_code = (true, w1))
    (hloop : DeviceRegistrationInfo.FinalizeLoop env (self.FinalizeURL WebParamsEncode) fuel
      w1 = some (some r, w2))
    (hok : r.GetStatusCode = status_code.Ok)
    (hjson : (ParseJsonResponse (some r) 0 none).1 = some finalize_json)
    (hrobot : GetString finalize_json "robotAccountEmail" = some robot_account)
    (hcode : GetString finalize_json "robotAccountAuthorizationCode" = some auth_code)
    (hid : GetString finalize_json "deviceDraft.id" = some device_id)
    (htoken : (ParseOAuthResponse
      (env.server (w2.sent ++ [self.RobotTokenRequest WebParamsEncode auth_code])) none).1 =
        some token_json)
    (haccess : GetString token_json "access_token" = some access_token)
    (haccess_ne : access_token ≠ "")
    (hrefresh : GetString token_json "refresh_token" = some refresh_token)
    (hrefresh_ne : refresh_token ≠ "")
    (hexpires : GetInteger token_json "expires_in" = some expires_in)
    (hexpires_pos : 0 < expires_in) :
    ∃ registered w3,
      DeviceRegistrationInfo.FinishRegistration WebParamsEncode env fuel self w
          user_auth_code = some (true, registered, w3) ∧
        registered.device_robot_account_ = robot_account ∧
        registered.device_id_ = device_id ∧
        registered.access_token_ = access_token ∧
        registered.refresh_token_ = refresh_token ∧
        w3.written = w2.written ++ [registered.SavedDictionary] ∧
        (env.writable = true → w3.file = .json (.dictionary registered.SavedDictionary)) ∧
        registered.SavedDictionary =
          [("api_key", .string self.api_key_), ("client_id", .string self.client_id_),
           ("client_secret", .string self.client_secret_), ("device_id", .string device_id),
           ("oauth_url", .string self.oauth_url_), ("refresh_token", .string refresh_token),
           ("robot_account", .string robot_account),
           ("service_url", .string self.service_url_)] := by
  have hneg : ¬ (access_token = "" ∨ refresh_token = "" ∨ expires_in ≤ 0) := by
    rintro (h | h | h)
    · exact haccess_ne h
    · exact hrefresh_ne h
    · omega
  cases hs : env.server (w2.sent ++ [self.RobotTokenRequest WebParamsEncode auth_code]) with
  | none =>
    rw [hs] at htoken
    exact absurd htoken (by simp [ParseOAuthResponse, ParseJsonResponse])
  | some r2 =>
    rw [hs] at htoken
    have hs2 : env.server (w2.sent ++
        [.PostFormData (BuildURL WebParamsEncode self.oauth_url_ "token" [])
          [("code", auth_code), ("client_id", self.client_id_),
           ("client_secret", self.client_secret_), ("redirect_uri", "oob"),
           ("scope", "https://www.googleapis.com/auth/clouddevices"),
           ("grant_type", "authorization_code")] []]) = some r2 := hs
    refine ⟨{ self with
        device_robot_account_ := robot_account
        device_id_ := device_id
        access_token_ := access_token
        refresh_token_ := refresh_token
        access_token_expiration_ :=
          (Send env w2 (self.RobotTokenRequest WebParamsEncode auth_code)).2.now +
            TimeDelta.FromSeconds expires_in },
      (DeviceRegistrationInfo.Save { self with
        device_robot_account_ := robot_account
        device_id_ := device_id
        access_token_ := access_token
        refresh_token_ := refresh_token
        access_token_expiration_ :=
          (Send env w2 (self.RobotTokenRequest WebParamsEncode auth_code)).2.now +
            TimeDelta.FromSeconds expires_in } env
        (Send env w2 (self.RobotTokenRequest WebParamsEncode auth_code)).2).2, ?_, ?_⟩
    · unfold DeviceRegistrationInfo.FinishRegistration
      rw [if_neg hticket, hstart]
      simp only
      rw [hloop]
      simp only [DeviceRegistrationInfo.CompleteRegistration, hok, if_true, hjson, hrobot,
        hcode, hid, DeviceRegistrationInfo.ExchangeRobotCode, Send,
        DeviceRegistrationInfo.GetOAuthURL, hs2, htoken, haccess, hrefresh, hexpires,
        if_neg hneg]
      rfl
    · refine ⟨rfl, rfl, rfl, rfl, ?_, ?_, rfl⟩
      · simp only [Save_world]
        rfl
      · intro hw
        simp [DeviceRegistrationInfo.Save, hw]

/-- Claim C18 at a cloud that approves the ticket after two refusals. -/
theorem C18_witness_approving_cloud :
    ∃ registered w3,
      DeviceRegistrationInfo.FinishRegistration plainEncode approving_cloud 3 ticketed_device
          (quiet_world 0) "" = some (true, registered, w3) ∧
        registered.device_robot_account_ = "robot@example" ∧
        registered.device_id_ = "device9" ∧
        registered.access_token_ = "access1" ∧
        registered.refresh_token_ = "refresh1" ∧
        w3.written = [] ++ [registered.SavedDictionary] ∧
        (approving_cloud.writable = true →
          w3.file = .json (.dictionary registered.SavedDictionary)) ∧
        registered.SavedDictionary =
          [("api_key", .string ticketed_device.api_key_),
           ("client_id", .string ticketed_device.client_id_),
           ("client_secret", .string ticketed_device.client_secret_),
           ("device_id", .string "device9"),
           ("oauth_url", .string ticketed_device.oauth_url_),
           ("refresh_token", .string "refresh1"),
           ("robot_account", .string "robot@example"),
           ("service_url", .string ticketed_device.service_url_)] :=
  C18_finish_registration_stores_and_saves plainEncode approving_cloud ticketed_device
    (quiet_world 0) (quiet_world 0)
    { now := 2000000, sent := List.replicate 3 (ticketed_device.FinalizeRequest plainEncode),
      slept := 2, file := .unreadable, written := [] }
    "" 3 (Response.mk 200 (some finalized_ticket) "") finalized_ticket robot_tokens
    "robot@example" "code4" "device9" "access1" "refresh1" 3600
    (by decide) rfl rfl rfl rfl rfl rfl rfl rfl rfl (by decide) rfl (by decide) rfl (by decide)

end buffet

/-! ### The access token (C19, C20) -/

namespace buffet
open base chromeos.http

theorem BuildURL_token (enc : WebParamList → String) (url : String) :
    BuildURL enc url "token" [] =
      url ++ (if url ≠ "" ∧ url.back ≠ '/' then "/" else "") ++ "token" := by
  unfold BuildURL
  by_cases hu : url ≠ "" ∧ url.back ≠ '/'
  · simp [hu]
  · have h1 : ("token" : String) ≠ "" := by decide
    simp only [ne_eq, h1, not_false_eq_true, if_true, hu, if_false, String.append_empty]
    simp

/-- Claim C19: when the access token is not empty, the expiration is set and lies after the
current time (the code uses no skew), `ValidateAndRefreshAccessToken` returns true and
changes neither the record nor the world, so it sends no request; in every other case
(token empty, expiration unset, or expiration not in the future) it sends exactly one
request, a `PostFormData` to the OAuth URL joined with `token` that carries
`refresh_token`, `client_id`, `client_secret` and `grant_type=refresh_token`. -/
theorem C19_valid_token_is_used_else_one_refresh (WebParamsEncode : WebParamList → String)
    (env : Environment) (self : DeviceRegistrationInfo) (w : World) :
    (self.access_token_ ≠ "" → Time.is_null self.access_token_expiration_ = false →
      w.now < self.access_token_expiration_ →
        DeviceRegistrationInfo.ValidateAndRefreshAccessToken WebParamsEncode env self w =
          (true, self, w)) ∧
    ((self.access_token_ = "" ∨ Time.is_null self.access_token_expiration_ = true ∨
        self.access_token_expiration_ ≤ w.now) →
      (DeviceRegistrationInfo.ValidateAndRefreshAccessToken WebParamsEncode env self
          w).2.2.sent =
        w.sent ++ [.PostFormData
          (self.oauth_url_
            ++ (if self.oauth_url_ ≠ "" ∧ self.oauth_url_.back ≠ '/' then "/" else "")
            ++ "token")
          [("refresh_token", self.refresh_token_), ("client_id", self.client_id_),
           ("client_secret", self.client_secret_), ("grant_type", "refresh_token")] []]) := by
  constructor
  · intro h1 h2 h3
    unfold DeviceRegistrationInfo.ValidateAndRefreshAccessToken
    rw [if_pos ⟨h1, h2, h3⟩]
  · intro h
    have hneg : ¬ (self.access_token_ ≠ "" ∧
        Time.is_null self.access_token_expiration_ = false ∧
        self.access_token_expiration_ > w.now) := by
      rintro ⟨h1, h2, h3⟩
      rcases h with h | h | h
      · exact h1 h
      · rw [h] at h2
        exact absurd h2 (by decide)
      · omega
    unfold DeviceRegistrationInfo.ValidateAndRefreshAccessToken
    rw [if_neg hneg, ← BuildURL_token WebParamsEncode]
    generalize hS : Send env w _ = S
    obtain ⟨resp, w1⟩ := S
    have hw1 : w1.sent = w.sent ++ [.PostFormData (self.GetOAuthURL WebParamsEncode "token" [])
        [("refresh_token", self.refresh_token_), ("client_id", self.client_id_),
         ("client_secret", self.client_secret_), ("grant_type", "refresh_token")] []] := by
      simp only [Send, Prod.mk.injEq] at hS
      obtain ⟨_, rfl⟩ := hS
      rfl
    cases resp with
    | none => exact hw1
    | some response =>
      simp only
      repeat' split
      all_goals exact hw1

/-- Claim C19 at a token that expires at 5000000: used at time 4000000, refreshed at time
5000000. -/
theorem C19_witness :
    DeviceRegistrationInfo.ValidateAndRefreshAccessToken plainEncode refresh_cloud
        registered_device (quiet_world 4000000) =
      (true, registered_device, quiet_world 4000000) ∧
    (DeviceRegistrationInfo.ValidateAndRefreshAccessToken plainEncode refresh_cloud
        registered_device (quiet_world 5000000)).2.2.sent =
      [] ++ [.PostFormData "https://oauth.example/o/token"
        [("refresh_token", "refresh1"), ("client_id", "client"),
         ("client_secret", "secret"), ("grant_type", "refresh_token")] []] :=
  ⟨(C19_valid_token_is_used_else_one_refresh plainEncode refresh_cloud registered_device
      (quiet_world 4000000)).1 (by decide) (by decide) (by decide),
   ((C19_valid_token_is_used_else_one_refresh plainEncode refresh_cloud registered_device
      (quiet_world 5000000)).2 (Or.inr (Or.inr (by decide)))).trans rfl⟩

theorem ParseOAuthResponse_some_iff (r : Response) (error_message : Option String)
    (json : List (String × Value)) :
    (ParseOAuthResponse (some r) error_message).1 = some json ↔
      r.GetStatusCode < status_code.BadRequest ∧ r.json = some json := by
  obtain ⟨code, js, pe⟩ := r
  unfold ParseOAuthResponse ParseJsonResponse
  cases js with
  | none => simp
  | some j =>
    simp only [Response.GetStatusCode]
    by_cases hc : code ≥ status_code.BadRequest
    · rw [if_pos hc]
      simp only [false_iff, not_and, reduceCtorEq]
      intro h
      omega
    · rw [if_neg hc]
      simp only [Option.some.injEq, iff_and_self]
      intro _
      omega

/-- Claim C20: when a refresh is performed, `ValidateAndRefreshAccessToken` returns true if
and only if the token endpoint answers with a status below 400 and a JSON object that holds
a string `access_token` that is not empty and an integer `expires_in > 0`; then the stored
access token is the returned one and the expiration is the time at which the response is
processed plus `expires_in` seconds. -/
theorem C20_refresh_succeeds_iff_token_response (WebParamsEncode : WebParamList → String)
    (env : Environment) (self : DeviceRegistrationInfo) (w : World)
    (hrefresh : ¬ (self.access_token_ ≠ "" ∧
      Time.is_null self.access_token_expiration_ = false ∧
      self.access_token_expiration_ > w.now)) :
    ((DeviceRegistrationInfo.ValidateAndRefreshAccessToken WebParamsEncode env self w).1 =
        true ↔
      ∃ r json access_token expires_in,
        env.server (w.sent ++ [self.RefreshRequest WebParamsEncode]) = some r ∧
        r.GetStatusCode < status_code.BadRequest ∧ r.json = some json ∧
        GetString json "access_token" = some access_token ∧ access_token ≠ "" ∧
        GetInteger json "expires_in" = some expires_in ∧ 0 < expires_in) ∧
    ∀ r json access_token expires_in,
      env.server (w.sent ++ [self.RefreshRequest WebParamsEncode]) = some r →
      r.GetStatusCode < status_code.BadRequest → r.json = some json →
      GetString json "access_token" = some access_token → access_token ≠ "" →
      GetInteger json "expires_in" = some expires_in → 0 < expires_in →
        (DeviceRegistrationInfo.ValidateAndRefreshAccessToken WebParamsEncode env self
          w).2.1 =
          { self with
            access_token_ := access_token
            access_token_expiration_ :=
              (DeviceRegistrationInfo.ValidateAndRefreshAccessToken WebParamsEncode env self
                w).2.2.now + expires_in * 1000000 } ∧
        (DeviceRegistrationInfo.ValidateAndRefreshAccessToken WebParamsEncode env self
          w).2.2.now = w.now + env.elapsed (w.sent ++ [self.RefreshRequest WebParamsEncode]) := by
  have hsucc : ∀ r json access_token expires_in,
      env.server (w.sent ++ [self.RefreshRequest WebParamsEncode]) = some r →
      r.GetStatusCode < status_code.BadRequest → r.json = some json →
      GetString json "access_token" = some access_token → access_token ≠ "" →
      GetInteger json "expires_in" = some expires_in → 0 < expires_in →
      DeviceRegistrationInfo.ValidateAndRefreshAccessToken WebParamsEncode env self w =
        (true,
          { self with
            access_token_ := access_token
            access_token_expiration_ :=
              w.now + env.elapsed (w.sent ++ [self.RefreshRequest WebParamsEncode]) +
                expires_in * 1000000 },
          { w with
            sent := w.sent ++ [self.RefreshRequest WebParamsEncode]
            now := w.now + env.elapsed (w.sent ++ [self.RefreshRequest WebParamsEncode]) }) := by
    intro r json access_token expires_in hs hc hj ha hane he hepos
    have hp := (ParseOAuthResponse_some_iff r (some "") json).mpr ⟨hc, hj⟩
    have hneg : ¬ (access_token = "" ∨ expires_in ≤ 0) := by
      rintro (h | h)
      · exact hane h
      · omega
    unfold DeviceRegistrationInfo.RefreshRequest at hs
    unfold DeviceRegistrationInfo.ValidateAndRefreshAccessToken
    rw [if_neg hrefresh]
    simp only [Send, hs, hp, ha, he, if_neg hneg, TimeDelta.FromSeconds]
    rfl
  constructor
  · constructor
    · intro h
      unfold DeviceRegistrationInfo.ValidateAndRefreshAccessToken at h
      rw [if_neg hrefresh] at h
      simp only [Send] at h
      cases hs : env.server (w.sent ++ [self.RefreshRequest WebParamsEncode]) with
      | none =>
        unfold DeviceRegistrationInfo.RefreshRequest at hs
        simp [hs] at h
      | some r =>
        have hs2 := hs
        unfold DeviceRegistrationInfo.RefreshRequest at hs2
        simp only [hs2] at h
        cases hp : (ParseOAuthResponse (some r) (some "")).1 with
        | none => simp [hp] at h
        | some json =>
          simp only [hp] at h
          cases ha : GetString json "access_token" with
          | none => simp [ha] at h
          | some access_token =>
            simp only [ha] at h
            cases he : GetInteger json "expires_in" with
            | none => simp [he] at h
            | some expires_in =>
              simp only [he] at h
              by_cases hbad : access_token = "" ∨ expires_in ≤ 0
              · simp [hbad] at h
              · have hp2 := (ParseOAuthResponse_some_iff r (some "") json).mp hp
                refine ⟨r, json, access_token, expires_in, rfl, hp2.1, hp2.2, ha, ?_, he, ?_⟩
                · exact fun h0 => hbad (Or.inl h0)
                · by_contra h0
                  exact hbad (Or.inr (by omega))
    · rintro ⟨r, json, access_token, expires_in, hs, hc, hj, ha, hane, he, hepos⟩
      rw [hsucc r json access_token expires_in hs hc hj ha hane he hepos]
  · intro r json access_token expires_in hs hc hj ha hane he hepos
    rw [hsucc r json access_token expires_in hs hc hj ha hane he hepos]
    exact ⟨rfl, rfl⟩

/-- Claim C20 at a token refreshed at time 5000000 by a response that takes two
microseconds and grants 3600 seconds. -/
theorem C20_witness :
    DeviceRegistrationInfo.ValidateAndRefreshAccessToken plainEncode refresh_cloud
        registered_device (quiet_world 5000000) =
      (true,
        { registered_device with
          access_token_ := "access2", access_token_expiration_ := 3605000002 },
        { quiet_world 5000002 with
          sent := [registered_device.RefreshRequest plainEncode] }) ∧
    (DeviceRegistrationInfo.ValidateAndRefreshAccessToken plainEncode refresh_cloud
        registered_device (quiet_world 5000000)).2.1 =
      { registered_device with
        access_token_ := "access2"
        access_token_expiration_ :=
          (DeviceRegistrationInfo.ValidateAndRefreshAccessToken plainEncode refresh_cloud
            registered_device (quiet_world 5000000)).2.2.now + 3600 * 1000000 } :=
  ⟨rfl,
   ((C20_refresh_succeeds_iff_token_response plainEncode refresh_cloud registered_device
      (quiet_world 5000000) (by decide)).2
      (Response.mk 200 (some refreshed_token) "") refreshed_token "access2" 3600
      rfl (by decide) rfl rfl (by decide) rfl (by decide)).1⟩

end buffet

/-! ### The persisted record (C21, C22, C28) -/

namespace buffet
open base chromeos.http

theorem GetString_persistent (dict : List (String × Value)) (key : String)
    (hkey : key ∈ DeviceRegistrationInfo.PersistentKeys) :
    GetString dict key = (mapFind key dict).bind Value.GetAsString := by
  simp only [DeviceRegistrationInfo.PersistentKeys, List.mem_cons, List.mem_singleton,
    List.not_mem_nil, or_false] at hkey
  rcases hkey with h | h | h | h | h | h | h | h <;> subst h <;> rfl

theorem GetString_persistent_iff (dict : List (String × Value)) (key s : String)
    (hkey : key ∈ DeviceRegistrationInfo.PersistentKeys) :
    GetString dict key = some s ↔ mapFind key dict = some (.string s) := by
  rw [GetString_persistent dict key hkey]
  cases mapFind key dict with
  | none => simp
  | some v => cases v <;> simp [Value.GetAsString]

theorem Load_cases (self : DeviceRegistrationInfo) (w : World) :
    (∃ dict client_id client_secret api_key refresh_token device_id oauth_url service_url
        device_robot_account,
      w.file = .json (.dictionary dict) ∧
      GetString dict kClientId = some client_id ∧
      GetString dict kClientSecret = some client_secret ∧
      GetString dict kApiKey = some api_key ∧
      GetString dict kRefreshToken = some refresh_token ∧
      GetString dict kDeviceId = some device_id ∧
      GetString dict kOAuthURL = some oauth_url ∧
      GetString dict kServiceURL = some service_url ∧
      GetString dict kRobotAccount = some device_robot_account ∧
      self.Load w = (true, { self with
        client_id_ := client_id
        client_secret_ := client_secret
        api_key_ := api_key
        refresh_token_ := refresh_token
        device_id_ := device_id
        oauth_url_ := oauth_url
        service_url_ := service_url
        device_robot_account_ := device_robot_account })) ∨
    (self.Load w = (false, self) ∧
      ∀ dict, w.file = .json (.dictionary dict) →
        ∃ key ∈ DeviceRegistrationInfo.PersistentKeys, GetString dict key = none) := by
  unfold DeviceRegistrationInfo.Load
  cases hf : w.file with
  | unreadable => exact Or.inr ⟨rfl, fun dict h => nomatch h⟩
  | invalid_json => exact Or.inr ⟨rfl, fun dict h => nomatch h⟩
  | json value =>
    cases value with
    | dictionary dict =>
      simp only [Value.GetAsDictionary]
      have hfail : ∀ key, key ∈ DeviceRegistrationInfo.PersistentKeys →
          GetString dict key = none →
          ∀ d, FileContent.json (Value.dictionary dict) = .json (.dictionary d) →
            ∃ key ∈ DeviceRegistrationInfo.PersistentKeys, GetString d key = none := by
        intro key hk hn d hd
        cases hd
        exact ⟨key, hk, hn⟩
      cases h1 : GetString dict kClientId with
      | none => exact Or.inr ⟨rfl, hfail _ (by simp [DeviceRegistrationInfo.PersistentKeys]) h1⟩
      | some c1 =>
      cases h2 : GetString dict kClientSecret with
      | none => exact Or.inr ⟨rfl, hfail _ (by simp [DeviceRegistrationInfo.PersistentKeys]) h2⟩
      | some c2 =>
      cases h3 : GetString dict kApiKey with
      | none => exact Or.inr ⟨rfl, hfail _ (by simp [DeviceRegistrationInfo.PersistentKeys]) h3⟩
      | some c3 =>
      cases h4 : GetString dict kRefreshToken with
      | none => exact Or.inr ⟨rfl, hfail _ (by simp [DeviceRegistrationInfo.PersistentKeys]) h4⟩
      | some c4 =>
      cases h5 : GetString dict kDeviceId with
      | none => exact Or.inr ⟨rfl, hfail _ (by simp [DeviceRegistrationInfo.PersistentKeys]) h5⟩
      | some c5 =>
      cases h6 : GetString dict kOAuthURL with
      | none => exact Or.inr ⟨rfl, hfail _ (by simp [DeviceRegistrationInfo.PersistentKeys]) h6⟩
      | some c6 =>
      cases h7 : GetString dict kServiceURL with
      | none => exact Or.inr ⟨rfl, hfail _ (by simp [DeviceRegistrationInfo.PersistentKeys]) h7⟩
      | some c7 =>
      cases h8 : GetString dict kRobotAccount with
      | none => exact Or.inr ⟨rfl, hfail _ (by simp [DeviceRegistrationInfo.PersistentKeys]) h8⟩
      | some c8 =>
        exact Or.inl ⟨dict, c1, c2, c3, c4, c5, c6, c7, c8, rfl, h1, h2, h3, h4, h5, h6, h7,
          h8, rfl⟩
    | null => exact Or.inr ⟨rfl, fun dict h => nomatch h⟩
    | boolean b => exact Or.inr ⟨rfl, fun dict h => nomatch h⟩
    | integer i => exact Or.inr ⟨rfl, fun dict h => nomatch h⟩
    | double d => exact Or.inr ⟨rfl, fun dict h => nomatch h⟩
    | string s => exact Or.inr ⟨rfl, fun dict h => nomatch h⟩
    | list l => exact Or.inr ⟨rfl, fun dict h => nomatch h⟩

/-- Claim C21: `Load` returns true exactly when the persisted content is a JSON object that
holds each of the eight persistent keys as a string; when it returns false (the file cannot
be read, is not JSON, is not an object, or lacks one of the keys as a string) the record is
unchanged; when it returns true the eight persisted fields of the record are the persisted
values and the other fields are unchanged. -/
theorem C21_load_is_atomic (self : DeviceRegistrationInfo) (w : World) :
    ((self.Load w).1 = true ↔
      ∃ dict, w.file = .json (.dictionary dict) ∧
        ∀ key ∈ DeviceRegistrationInfo.PersistentKeys,
          ∃ s, mapFind key dict = some (.string s)) ∧
    ((self.Load w).1 = false → (self.Load w).2 = self) ∧
    (∀ dict, w.file = .json (.dictionary dict) → (self.Load w).1 = true →
      (∀ p ∈ (self.Load w).2.PersistentFields, mapFind p.1 dict = some (.string p.2)) ∧
      (self.Load w).2.access_token_ = self.access_token_ ∧
      (self.Load w).2.access_token_expiration_ = self.access_token_expiration_ ∧
      (self.Load w).2.ticket_id_ = self.ticket_id_ ∧
      (self.Load w).2.device_kind_ = self.device_kind_ ∧
      (self.Load w).2.system_name_ = self.system_name_ ∧
      (self.Load w).2.display_name_ = self.display_name_) := by
  rcases Load_cases self w with
    ⟨dict, c1, c2, c3, c4, c5, c6, c7, c8, hf, h1, h2, h3, h4, h5, h6, h7, h8, hload⟩ |
    ⟨hload, hnone⟩
  · have hall : ∀ p ∈ DeviceRegistrationInfo.PersistentFields
        { self with
          client_id_ := c1, client_secret_ := c2, api_key_ := c3, refresh_token_ := c4,
          device_id_ := c5, oauth_url_ := c6, service_url_ := c7,
          device_robot_account_ := c8 },
        mapFind p.1 dict = some (.string p.2) := by
      intro p hp
      simp only [DeviceRegistrationInfo.PersistentFields, List.mem_cons, List.mem_singleton,
        List.not_mem_nil, or_false] at hp
      have hk : ∀ key s, key ∈ DeviceRegistrationInfo.PersistentKeys →
          GetString dict key = some s → mapFind key dict = some (.string s) :=
        fun key s hkey h => (GetString_persistent_iff dict key s hkey).mp h
      rcases hp with h | h | h | h | h | h | h | h <;> subst h
      · exact hk _ _ (by simp [DeviceRegistrationInfo.PersistentKeys]) h1
      · exact hk _ _ (by simp [DeviceRegistrationInfo.PersistentKeys]) h2
      · exact hk _ _ (by simp [DeviceRegistrationInfo.PersistentKeys]) h3
      · exact hk _ _ (by simp [DeviceRegistrationInfo.PersistentKeys]) h4
      · exact hk _ _ (by simp [DeviceRegistrationInfo.PersistentKeys]) h5
      · exact hk _ _ (by simp [DeviceRegistrationInfo.PersistentKeys]) h6
      · exact hk _ _ (by simp [DeviceRegistrationInfo.PersistentKeys]) h7
      · exact hk _ _ (by simp [DeviceRegistrationInfo.PersistentKeys]) h8
    rw [hload]
    refine ⟨⟨fun _ => ⟨dict, hf, ?_⟩, fun _ => rfl⟩, (fun h => nomatch h), ?_⟩
    · intro key hkey
      simp only [DeviceRegistrationInfo.PersistentKeys, List.mem_cons, List.mem_singleton,
        List.not_mem_nil, or_false] at hkey
      rcases hkey with h | h | h | h | h | h | h | h <;> subst h
      · exact ⟨c1, hall (kClientId, c1) (by simp [DeviceRegistrationInfo.PersistentFields])⟩
      · exact ⟨c2, hall (kClientSecret, c2) (by simp [DeviceRegistrationInfo.PersistentFields])⟩
      · exact ⟨c3, hall (kApiKey, c3) (by simp [DeviceRegistrationInfo.PersistentFields])⟩
      · exact ⟨c4, hall (kRefreshToken, c4) (by simp [DeviceRegistrationInfo.PersistentFields])⟩
      · exact ⟨c5, hall (kDeviceId, c5) (by simp [DeviceRegistrationInfo.PersistentFields])⟩
      · exact ⟨c6, hall (kOAuthURL, c6) (by simp [DeviceRegistrationInfo.PersistentFields])⟩
      · exact ⟨c7, hall (kServiceURL, c7) (by simp [DeviceRegistrationInfo.PersistentFields])⟩
      · exact ⟨c8, hall (kRobotAccount, c8) (by simp [DeviceRegistrationInfo.PersistentFields])⟩
    · intro d hd _
      rw [hf] at hd
      cases hd
      exact ⟨hall, rfl, rfl, rfl, rfl, rfl, rfl⟩
  · rw [hload]
    refine ⟨⟨(fun h => nomatch h), ?_⟩, fun _ => rfl, fun _ _ h => nomatch h⟩
    rintro ⟨dict, hf, hall⟩
    obtain ⟨key, hkey, hn⟩ := hnone dict hf
    obtain ⟨s, hs⟩ := hall key hkey
    rw [(GetString_persistent_iff dict key s hkey).mpr hs] at hn
    exact nomatch hn

end buffet

namespace buffet
open base chromeos.http

theorem SavedDictionary_entries (self : DeviceRegistrationInfo) :
    self.SavedDictionary =
      [("api_key", .string self.api_key_), ("client_id", .string self.client_id_),
       ("client_secret", .string self.client_secret_), ("device_id", .string self.device_id_),
       ("oauth_url", .string self.oauth_url_),
       ("refresh_token", .string self.refresh_token_),
       ("robot_account", .string self.device_robot_account_),
       ("service_url", .string self.service_url_)] := rfl

theorem SavedDictionary_find (self : DeviceRegistrationInfo) :
    (∀ p ∈ self.PersistentFields, mapFind p.1 self.SavedDictionary = some (.string p.2)) ∧
    (∀ key, key ∉ DeviceRegistrationInfo.PersistentKeys →
      mapFind key self.SavedDictionary = none) := by
  rw [SavedDictionary_entries]
  constructor
  · intro p hp
    simp only [DeviceRegistrationInfo.PersistentFields, List.mem_cons, List.mem_singleton,
      List.not_mem_nil, or_false] at hp
    rcases hp with h | h | h | h | h | h | h | h <;> subst h <;> rfl
  · intro key hkey
    rw [mapFind_eq_none_iff]
    intro hmem
    apply hkey
    simp only [List.map_cons, List.map_nil, List.mem_cons, List.mem_singleton,
      List.not_mem_nil, or_false] at hmem
    simp only [DeviceRegistrationInfo.PersistentKeys, List.mem_cons, List.mem_singleton,
      List.not_mem_nil, or_false, kClientId, kClientSecret, kApiKey, kRefreshToken, kDeviceId,
      kOAuthURL, kServiceURL, kRobotAccount]
    tauto

theorem SavedDictionary_keys (self : DeviceRegistrationInfo) (key : String) :
    key ∈ mapKeys self.SavedDictionary ↔ key ∈ DeviceRegistrationInfo.PersistentKeys := by
  rw [SavedDictionary_entries]
  simp only [mapKeys, List.map_cons, List.map_nil, List.mem_cons, List.mem_singleton,
    List.not_mem_nil, or_false, DeviceRegistrationInfo.PersistentKeys, kClientId,
    kClientSecret, kApiKey, kRefreshToken, kDeviceId, kOAuthURL, kServiceURL, kRobotAccount]
  constructor <;> (intro h; rcases h with h | h | h | h | h | h | h | h <;> simp [h])

theorem Load_saved (self other : DeviceRegistrationInfo) (w : World)
    (hfile : w.file = .json (.dictionary self.SavedDictionary)) :
    other.Load w = (true, { other with
      client_id_ := self.client_id_
      client_secret_ := self.client_secret_
      api_key_ := self.api_key_
      refresh_token_ := self.refresh_token_
      device_id_ := self.device_id_
      oauth_url_ := self.oauth_url_
      service_url_ := self.service_url_
      device_robot_account_ := self.device_robot_account_ }) := by
  unfold DeviceRegistrationInfo.Load
  rw [hfile, SavedDictionary_entries]
  rfl

/-- Claim C28: the dictionary `Save` writes has exactly the eight persistent keys, each
with the string value of its field, and `Load` applied to that dictionary, into the same
or any other record, succeeds and restores the same eight field values; loading what a
successful `Save` left in the file does the same. -/
theorem C28_save_load_round_trip (self other : DeviceRegistrationInfo) (env : Environment)
    (w : World) :
    mapKeys self.SavedDictionary =
      ["api_key", "client_id", "client_secret", "device_id", "oauth_url", "refresh_token",
       "robot_account", "service_url"] ∧
    (∀ key, key ∈ mapKeys self.SavedDictionary ↔
      key ∈ DeviceRegistrationInfo.PersistentKeys) ∧
    (∀ p ∈ self.PersistentFields, mapFind p.1 self.SavedDictionary = some (.string p.2)) ∧
    (self.Save env w).2.written = w.written ++ [self.SavedDictionary] ∧
    (other.Load { w with file := .json (.dictionary self.SavedDictionary) }).1 = true ∧
    (other.Load { w with file := .json (.dictionary self.SavedDictionary) }).2.PersistentFields
      = self.PersistentFields ∧
    self.Load { w with file := .json (.dictionary self.SavedDictionary) } = (true, self) ∧
    (env.writable = true →
      (other.Load (self.Save env w).2).1 = true ∧
      (other.Load (self.Save env w).2).2.PersistentFields = self.PersistentFields) := by
  have hload := Load_saved self other
    { w with file := .json (.dictionary self.SavedDictionary) } rfl
  refine ⟨rfl, ?_, (SavedDictionary_find self).1, ?_, ?_, ?_, ?_, ?_⟩
  · exact SavedDictionary_keys self
  · unfold DeviceRegistrationInfo.Save
    split <;> rfl
  · rw [hload]
  · rw [hload]
    rfl
  · rw [Load_saved self self _ rfl]
  · intro hw
    have hfile : (self.Save env w).2.file = .json (.dictionary self.SavedDictionary) := by
      simp [DeviceRegistrationInfo.Save, hw]
    rw [Load_saved self other _ hfile]
    exact ⟨rfl, rfl⟩

/-- Claim C28 at a registered record saved to a writable file and loaded into a blank
record. -/
theorem C28_witness :
    (blank_device.Load (registered_device.Save refresh_cloud (quiet_world 0)).2).1 = true ∧
    (blank_device.Load
        (registered_device.Save refresh_cloud (quiet_world 0)).2).2.PersistentFields =
      registered_device.PersistentFields :=
  (C28_save_load_round_trip registered_device blank_device refresh_cloud
    (quiet_world 0)).2.2.2.2.2.2.2 rfl

/-- Claim C22 fails as stated: a persisted registration with the additional key `note` is
loaded, and the record saved afterwards is written with the eight known keys only; `note`
is gone. -/
theorem C22_counterexample :
    mapFind "note" annotated_registration = some (.string "kept by hand") ∧
    (blank_device.Load (stored_world (.dictionary annotated_registration))).1 = true ∧
    (((blank_device.Load (stored_world (.dictionary annotated_registration))).2.Save
        refresh_cloud (stored_world (.dictionary annotated_registration))).2.file =
      .json (.dictionary
        [("api_key", .string "key"), ("client_id", .string "client"),
         ("client_secret", .string "secret"), ("device_id", .string "device9"),
         ("oauth_url", .string "https://oauth.example/o"),
         ("refresh_token", .string "refresh1"), ("robot_account", .string "robot@example"),
         ("service_url", .string "https://cloud.example/api/")])) ∧
    mapFind "note" ((blank_device.Load
      (stored_world (.dictionary annotated_registration))).2.SavedDictionary) = none :=
  ⟨rfl, rfl, rfl, rfl⟩

/-- Claim C22, amended: for every persisted JSON object that `Load` accepts, saving the
loaded record writes a dictionary (the content of the file when it can be written) that
holds each of the eight known keys with the same value as the persisted object, and no
other key: a key outside the eight known keys is not preserved. -/
theorem C22_rewrite_keeps_the_eight_keys_only (self : DeviceRegistrationInfo)
    (env : Environment) (w : World) (dict : List (String × Value))
    (hfile : w.file = .json (.dictionary dict)) (hload : (self.Load w).1 = true) :
    ((self.Load w).2.Save env w).2.written =
      w.written ++ [(self.Load w).2.SavedDictionary] ∧
    (env.writable = true →
      ((self.Load w).2.Save env w).2.file =
        .json (.dictionary (self.Load w).2.SavedDictionary)) ∧
    (∀ key ∈ DeviceRegistrationInfo.PersistentKeys,
      mapFind key (self.Load w).2.SavedDictionary = mapFind key dict) ∧
    (∀ key, key ∉ DeviceRegistrationInfo.PersistentKeys →
      mapFind key (self.Load w).2.SavedDictionary = none) := by
  refine ⟨?_, ?_, ?_, (SavedDictionary_find _).2⟩
  · unfold DeviceRegistrationInfo.Save
    split <;> rfl
  · intro hw
    simp [DeviceRegistrationInfo.Save, hw]
  · rcases Load_cases self w with
      ⟨d, c1, c2, c3, c4, c5, c6, c7, c8, hf, h1, h2, h3, h4, h5, h6, h7, h8, hl⟩ | ⟨hl, -⟩
    · rw [hfile] at hf
      cases hf
      rw [hl]
      have hk : ∀ key s, key ∈ DeviceRegistrationInfo.PersistentKeys →
          GetString dict key = some s → mapFind key dict = some (.string s) :=
        fun key s hkey h => (GetString_persistent_iff dict key s hkey).mp h
      intro key hkey
      have hkey2 := hkey
      simp only [DeviceRegistrationInfo.PersistentKeys, List.mem_cons, List.mem_singleton,
        List.not_mem_nil, or_false] at hkey2
      rcases hkey2 with h | h | h | h | h | h | h | h <;> subst h
      · rw [hk _ _ hkey h1]; rfl
      · rw [hk _ _ hkey h2]; rfl
      · rw [hk _ _ hkey h3]; rfl
      · rw [hk _ _ hkey h4]; rfl
      · rw [hk _ _ hkey h5]; rfl
      · rw [hk _ _ hkey h6]; rfl
      · rw [hk _ _ hkey h7]; rfl
      · rw [hk _ _ hkey h8]; rfl
    · rw [hl] at hload
      exact nomatch hload

/-- Claim C22, amended, at the persisted registration with the additional key `note`. -/
theorem C22_witness :
    (∀ key ∈ DeviceRegistrationInfo.PersistentKeys,
      mapFind key (blank_device.Load
        (stored_world (.dictionary annotated_registration))).2.SavedDictionary =
        mapFind key annotated_registration) ∧
    mapFind "note" (blank_device.Load
      (stored_world (.dictionary annotated_registration))).2.SavedDictionary = none :=
  ⟨(C22_rewrite_keeps_the_eight_keys_only blank_device refresh_cloud
      (stored_world (.dictionary annotated_registration)) annotated_registration rfl rfl).2.2.1,
   (C22_rewrite_keeps_the_eight_keys_only blank_device refresh_cloud
      (stored_world (.dictionary annotated_registration)) annotated_registration rfl rfl).2.2.2
      "note" (by decide)⟩

/-- Claim C21 at a persisted JSON list, which leaves a registered record as it was, and at a
persisted object with all eight keys, loaded into a blank record. -/
theorem C21_witness :
    (registered_device.Load (stored_world (.list []))).2 = registered_device ∧
    (∀ p ∈ (blank_device.Load
        (stored_world (.dictionary annotated_registration))).2.PersistentFields,
      mapFind p.1 annotated_registration = some (.string p.2)) :=
  ⟨(C21_load_is_atomic registered_device (stored_world (.list []))).2.1 rfl,
   ((C21_load_is_atomic blank_device
      (stored_world (.dictionary annotated_registration))).2.2 annotated_registration
      rfl rfl).1⟩

end buffet

/-! ### LoadJsonDict (C23) -/

namespace buffet
open base

/-- Claim C23: `LoadJsonDict` returns a dictionary exactly when the file can be read and
its content parses as a JSON object, and then leaves the error slot as it was; otherwise it
returns null and adds one error: `file_system/file_read_error` when the file cannot be
read, `json/parse_error` (with the message of the parser) when the content is not JSON,
`json/object_expected` when the content is JSON but not an object. Adding to a slot that
holds a chain puts exactly one error on top of that chain. -/
theorem C23_load_json_dict_errors (ReadFileToString : String → Option String)
    (ReadAndReturnError : String → Except String Value) (json_file_path : String)
    (error : Option ErrorPtr) :
    (((CommandManager.LoadJsonDict ReadFileToString ReadAndReturnError json_file_path
        error).1.isSome = true) ↔
      ∃ json_string dict, ReadFileToString json_file_path = some json_string ∧
        ReadAndReturnError json_string = .ok (.dictionary dict)) ∧
    (∀ json_string dict, ReadFileToString json_file_path = some json_string →
      ReadAndReturnError json_string = .ok (.dictionary dict) →
      CommandManager.LoadJsonDict ReadFileToString ReadAndReturnError json_file_path error =
        (some dict, error)) ∧
    (ReadFileToString json_file_path = none →
      CommandManager.LoadJsonDict ReadFileToString ReadAndReturnError json_file_path error =
        (none, Error.AddToPrintf error "file_system" "file_read_error"
          ("Failed to read file \x27" ++ json_file_path ++ "\x27"))) ∧
    (∀ json_string error_message, ReadFileToString json_file_path = some json_string →
      ReadAndReturnError json_string = .error error_message →
      CommandManager.LoadJsonDict ReadFileToString ReadAndReturnError json_file_path error =
        (none, Error.AddToPrintf error "json" "parse_error"
          ("Error parsing content of JSON file \x27" ++ json_file_path ++ "\x27: " ++
            error_message))) ∧
    (∀ json_string value, ReadFileToString json_file_path = some json_string →
      ReadAndReturnError json_string = .ok value → (∀ dict, value ≠ .dictionary dict) →
      CommandManager.LoadJsonDict ReadFileToString ReadAndReturnError json_file_path error =
        (none, Error.AddToPrintf error "json" "object_expected"
          ("Content of file \x27" ++ json_file_path ++ "\x27 is not a JSON object"))) ∧
    (∀ (chain : ErrorPtr) (domain code message : String),
      Error.AddToPrintf (some chain) domain code message =
        some (some (Error.mk domain code message chain))) := by
  have hok : ∀ json_string dict, ReadFileToString json_file_path = some json_string →
      ReadAndReturnError json_string = .ok (.dictionary dict) →
      CommandManager.LoadJsonDict ReadFileToString ReadAndReturnError json_file_path error =
        (some dict, error) := by
    intro json_string dict h1 h2
    simp [CommandManager.LoadJsonDict, h1, h2, Value.GetAsDictionary]
  refine ⟨⟨?_, ?_⟩, hok, ?_, ?_, ?_, fun _ _ _ _ => rfl⟩
  · intro h
    unfold CommandManager.LoadJsonDict at h
    cases h1 : ReadFileToString json_file_path with
    | none => simp [h1] at h
    | some json_string =>
      cases h2 : ReadAndReturnError json_string with
      | error msg => simp [h1, h2] at h
      | ok value =>
        cases value with
        | dictionary dict => exact ⟨json_string, dict, rfl, h2⟩
        | _ => simp [h1, h2, Value.GetAsDictionary] at h
  · rintro ⟨json_string, dict, h1, h2⟩
    rw [hok json_string dict h1 h2]
    rfl
  · intro h1
    simp [CommandManager.LoadJsonDict, h1, errors.file_system.kDomain,
      errors.file_system.kFileReadError]
  · intro json_string msg h1 h2
    simp [CommandManager.LoadJsonDict, h1, h2, errors.json.kDomain, errors.json.kParseError]
  · intro json_string value h1 h2 hnd
    have hd : value.GetAsDictionary = none := by
      cases value with
      | dictionary dict => exact absurd rfl (hnd dict)
      | _ => rfl
    simp [CommandManager.LoadJsonDict, h1, h2, hd, errors.json.kDomain,
      errors.json.kObjectExpected]

/-- Claim C23 at a file with a JSON object, a missing file, a file that is not JSON and a
file with a JSON list. -/
theorem C23_witness :
    CommandManager.LoadJsonDict example_files example_reader "commands.json" (some none) =
      (some [("_ledflasher", .dictionary [])], some none) ∧
    CommandManager.LoadJsonDict example_files example_reader "missing.json" (some none) =
      (none, some (some (Error.mk "file_system" "file_read_error"
        "Failed to read file \x27missing.json\x27" none))) ∧
    CommandManager.LoadJsonDict example_files example_reader "broken.json" (some none) =
      (none, some (some (Error.mk "json" "parse_error"
        "Error parsing content of JSON file \x27broken.json\x27: Line: 1, column: 1, Unexpected token."
        none))) ∧
    CommandManager.LoadJsonDict example_files example_reader "list.json" (some none) =
      (none, some (some (Error.mk "json" "object_expected"
        "Content of file \x27list.json\x27 is not a JSON object" none))) :=
  ⟨(C23_load_json_dict_errors example_files example_reader "commands.json" (some none)).2.1
      "object" [("_ledflasher", .dictionary [])] rfl rfl,
   ((C23_load_json_dict_errors example_files example_reader "missing.json"
      (some none)).2.2.1 rfl).trans rfl,
   ((C23_load_json_dict_errors example_files example_reader "broken.json"
      (some none)).2.2.2.1 "broken" "Line: 1, column: 1, Unexpected token." rfl rfl).trans rfl,
   ((C23_load_json_dict_errors example_files example_reader "list.json"
      (some none)).2.2.2.2.1 "list" (.list [.integer 1]) rfl rfl
      (fun _ h => nomatch h)).trans rfl⟩

end buffet

/-! ### Error chains (C24, C25) -/

namespace weave
open tracked_objects

theorem FindErrorFrom_eq_find : ∀ (e : Error) (domain code : String),
    e.FindErrorFrom domain code =
      e.Chain.find? (fun x => decide (x.GetDomain = domain ∧ x.GetCode = code))
  | .mk l d c m none, domain, code => by
    by_cases h : d = domain ∧ c = code
    · simp [Error.FindErrorFrom, Error.Chain, Error.GetDomain, Error.GetCode, h]
    · simp [Error.FindErrorFrom, Error.Chain, Error.GetDomain, Error.GetCode, h]
  | .mk l d c m (some inner), domain, code => by
    have ih := FindErrorFrom_eq_find inner domain code
    by_cases h : d = domain ∧ c = code
    · simp [Error.FindErrorFrom, Error.Chain, Error.GetDomain, Error.GetCode, h]
    · simp [Error.FindErrorFrom, Error.Chain, Error.GetDomain, Error.GetCode, h, ih]

theorem FindErrorOfDomainFrom_eq_find : ∀ (e : Error) (domain : String),
    e.FindErrorOfDomainFrom domain =
      e.Chain.find? (fun x => decide (x.GetDomain = domain))
  | .mk l d c m none, domain => by
    by_cases h : d = domain
    · simp [Error.FindErrorOfDomainFrom, Error.Chain, Error.GetDomain, h]
    · simp [Error.FindErrorOfDomainFrom, Error.Chain, Error.GetDomain, h]
  | .mk l d c m (some inner), domain => by
    have ih := FindErrorOfDomainFrom_eq_find inner domain
    by_cases h : d = domain
    · simp [Error.FindErrorOfDomainFrom, Error.Chain, Error.GetDomain, h]
    · simp [Error.FindErrorOfDomainFrom, Error.Chain, Error.GetDomain, h, ih]

theorem HasError_eq_any : ∀ (e : Error) (domain code : String),
    e.HasError domain code =
      e.Chain.any (fun x => decide (x.GetDomain = domain ∧ x.GetCode = code))
  | .mk l d c m none, domain, code => by
    simp [Error.HasError, Error.Chain, Error.GetDomain, Error.GetCode]
  | .mk l d c m (some inner), domain, code => by
    have ih := HasError_eq_any inner domain code
    simp [Error.HasError, Error.Chain, Error.GetDomain, Error.GetCode, ih]

theorem HasDomain_eq_any : ∀ (e : Error) (domain : String),
    e.HasDomain domain = e.Chain.any (fun x => decide (x.GetDomain = domain))
  | .mk l d c m none, domain => by
    simp [Error.HasDomain, Error.Chain, Error.GetDomain]
  | .mk l d c m (some inner), domain => by
    have ih := HasDomain_eq_any inner domain
    simp [Error.HasDomain, Error.Chain, Error.GetDomain, ih]

/-- Claim C24: `Error::AddTo` on a slot that holds the chain `chain` (possibly empty)
leaves in the slot a chain whose head has the given location, domain, code and message and
whose inner error is `chain`, unchanged: the errors of the new chain are the head followed
by the errors of `chain`, one more than before. On a null slot pointer nothing is
created. -/
theorem C24_add_to_wraps_the_chain (chain : ErrorPtr) (location : Location)
    (domain code message : String) :
    (∃ head, Error.AddTo (some chain) location domain code message = some (some head) ∧
      head.GetDomain = domain ∧ head.GetCode = code ∧ head.GetMessage = message ∧
      head.GetLocation = location ∧ head.GetInnerError = chain ∧
      head.Chain = head :: Error.ChainFrom chain ∧
      head.Chain.length = (Error.ChainFrom chain).length + 1) ∧
    Error.AddTo none location domain code message = none := by
  refine ⟨⟨Error.mk location domain code message chain, rfl, rfl, rfl, rfl, rfl, rfl, ?_, ?_⟩,
    rfl⟩
  · cases chain <;> rfl
  · cases chain <;> rfl

/-- Claim C25: `Error::FindError(start, domain, code)` is null for a null `start` and when
no error of the chain matches both domain and code; otherwise it is the first error from
the head of the chain that matches both, every error before it failing to match.
`FindErrorOfDomain` is the same for the domain alone. `HasError` is true exactly when
`FindError` on the same chain is not null, and `HasDomain` exactly when `FindErrorOfDomain`
is not null. -/
theorem C25_find_error_returns_first_match (start : Option Error) (domain code : String) :
    Error.FindError none domain code = none ∧
    Error.FindErrorOfDomain none domain = none ∧
    (Error.FindError start domain code = none ↔
      ∀ e ∈ Error.ChainFrom start, ¬ (e.GetDomain = domain ∧ e.GetCode = code)) ∧
    (∀ found, Error.FindError start domain code = some found ↔
      (found.GetDomain = domain ∧ found.GetCode = code) ∧
      ∃ before after, Error.ChainFrom start = before ++ found :: after ∧
        ∀ e ∈ before, ¬ (e.GetDomain = domain ∧ e.GetCode = code)) ∧
    (Error.FindErrorOfDomain start domain = none ↔
      ∀ e ∈ Error.ChainFrom start, e.GetDomain ≠ domain) ∧
    (∀ found, Error.FindErrorOfDomain start domain = some found ↔
      found.GetDomain = domain ∧
      ∃ before after, Error.ChainFrom start = before ++ found :: after ∧
        ∀ e ∈ before, e.GetDomain ≠ domain) ∧
    (∀ e : Error, e.HasError domain code = true ↔
      Error.FindError (some e) domain code ≠ none) ∧
    (∀ e : Error, e.HasDomain domain = true ↔
      Error.FindErrorOfDomain (some e) domain ≠ none) := by
  have hfind : Error.FindError start domain code =
      (Error.ChainFrom start).find?
        (fun x => decide (x.GetDomain = domain ∧ x.GetCode = code)) := by
    cases start with
    | none => rfl
    | some e => exact FindErrorFrom_eq_find e domain code
  have hfindd : Error.FindErrorOfDomain start domain =
      (Error.ChainFrom start).find? (fun x => decide (x.GetDomain = domain)) := by
    cases start with
    | none => rfl
    | some e => exact FindErrorOfDomainFrom_eq_find e domain
  refine ⟨rfl, rfl, ?_, ?_, ?_, ?_, ?_, ?_⟩
  · rw [hfind, List.find?_eq_none]
    simp
  · intro found
    rw [hfind, List.find?_eq_some]
    simp only [decide_eq_true_eq, Bool.not_eq_true', decide_eq_false_iff_not]
  · rw [hfindd, List.find?_eq_none]
    simp
  · intro found
    rw [hfindd, List.find?_eq_some]
    simp
  · intro e
    have h1 : Error.FindError (some e) domain code = e.FindErrorFrom domain code := rfl
    rw [h1, FindErrorFrom_eq_find, HasError_eq_any, ne_eq, List.find?_eq_none]
    simp
  · intro e
    have h1 : Error.FindErrorOfDomain (some e) domain = e.FindErrorOfDomainFrom domain := rfl
    rw [h1, FindErrorOfDomainFrom_eq_find, HasDomain_eq_any, ne_eq, List.find?_eq_none]
    simp

/-- Claim C25 at a chain of three errors, the first and the last of `http/timeout`, the
middle one of `json/parse_error`. -/
theorem C25_witness :
    example_chain.HasError "json" "parse_error" = true ∧
    Error.FindError (some example_chain) "json" "timeout" = none ∧
    (Error.FindError (some example_chain) "http" "timeout").map Error.GetMessage =
      some "third" ∧
    (Error.FindErrorOfDomain (some example_chain) "json").map Error.GetMessage =
      some "second" ∧
    example_chain.HasDomain "oauth" = false :=
  ⟨((C25_find_error_returns_first_match (some example_chain) "json"
      "parse_error").2.2.2.2.2.2.1 example_chain).mpr
      (fun h => absurd (congrArg Option.isSome h) (by decide)),
   (C25_find_error_returns_first_match (some example_chain) "json" "timeout").2.2.1.mpr
      (by decide),
   rfl, rfl, rfl⟩

end weave

/-! ### The keys and values of a parsed object (C27) -/

namespace buffet
open base

theorem mem_mapKeys_mapInsert {α : Type} (key k2 : String) (v : α) (m : List (String × α)) :
    key ∈ mapKeys (mapInsert k2 v m) ↔ key = k2 ∨ key ∈ mapKeys m := by
  induction m with
  | nil => simp [mapInsert, mapKeys]
  | cons p rest ih =>
    obtain ⟨k, x⟩ := p
    simp only [mapInsert]
    by_cases hk : k = k2
    · subst hk
      simp [mapKeys]
    · rw [if_neg hk]
      by_cases hlt : keyLt k2 k = true
      · rw [if_pos hlt]
        simp [mapKeys]
      · rw [if_neg hlt]
        simp only [mapKeys, List.map_cons, List.mem_cons] at ih ⊢
        rw [ih]
        tauto

theorem mem_mapKeys_insertAll (key : String) (fields vo : List (String × PropValue)) :
    key ∈ mapKeys (insertAll fields vo) ↔ key ∈ mapKeys fields ∨ key ∈ mapKeys vo := by
  induction fields generalizing vo with
  | nil => simp [insertAll, mapKeys]
  | cons p rest ih =>
    obtain ⟨k, x⟩ := p
    have hstep : insertAll ((k, x) :: rest) vo = insertAll rest (mapInsert k x vo) := by
      simp [insertAll]
    rw [hstep, ih, mem_mapKeys_mapInsert]
    simp only [mapKeys, List.map_cons, List.mem_cons]
    tauto

/-- Claim C27: when the object overload of `TypedValueFromJson` succeeds into an empty
output object, the input is a dictionary, the keys of the output are exactly the property
names the schema declares (a key the schema does not declare is absent from the output,
whether or not extra properties are allowed), and every value of the output, defaults
included, satisfies every constraint of its PropType. -/
theorem C27_parsed_object_holds_the_declared_keys (write : Value → String)
    (schema : ObjectSchema) (value_in : Value) (error : Option ErrorPtr)
    (out : List (String × PropValue)) (error2 : Option ErrorPtr)
    (hok : TypedValueFromJson_Object write value_in schema [] error = (true, out, error2)) :
    (∃ dict, value_in = .dictionary dict) ∧
    (∀ key, key ∈ mapKeys out ↔ key ∈ schema.GetProps.map Prod.fst) ∧
    (∀ key, key ∉ schema.GetProps.map Prod.fst → mapFind key out = none) ∧
    (∀ p ∈ out, ∀ c ∈ p.2.GetPropType.GetConstraints, c.holds p.2 = true) := by
  obtain ⟨props, extra⟩ := schema
  cases value_in with
  | dictionary dict =>
    cases hl : (TypedValueFromJson_props write props dict [] [] error).1 with
    | false =>
      rw [Object_props_false write props extra dict [] error hl] at hok
      simp at hok
    | true =>
      generalize hr : TypedValueFromJson_props write props dict [] [] error = r at hl
      obtain ⟨ok, out1, ks, e1⟩ := r
      simp only at hl
      subst hl
      obtain ⟨he, -, hall, hout⟩ := props_ok2 write props dict [] [] error out1 ks e1 hr
      subst he
      have hval : out = out1 ∧ (ValidateProps out1 e1).1 = true := by
        simp only [TypedValueFromJson_Object, Value.GetAsDictionary, hr] at hok
        cases hu : FindUnknownKey ks extra dict with
        | some key => rw [hu] at hok; simp at hok
        | none =>
          rw [hu] at hok
          simp only [Prod.mk.injEq] at hok
          exact ⟨hok.2.1.symm, hok.1⟩
      obtain ⟨hout1, hv⟩ := hval
      subst hout1
      have hkeys : ∀ key, key ∈ mapKeys out ↔ key ∈ props.map Prod.fst := by
        intro key
        rw [hout, mem_mapKeys_insertAll]
        have h1 := (parsedFields_of_ok write dict e1 props hall).1
        simp only [mapKeys, h1, List.map_nil, List.not_mem_nil, or_false]
      refine ⟨⟨dict, rfl⟩, hkeys, ?_, ?_⟩
      · intro key hkey
        rw [mapFind_eq_none_iff]
        exact fun h => hkey ((hkeys key).mp h)
      · intro p hp c hc
        have h2 := (ValidateProps_true out e1 hv).2 p hp
        exact (ValidateConstraintList_true _ p.2 e1 h2).2 c hc
  | _ =>
    simp [TypedValueFromJson_Object, Value.GetAsDictionary] at hok

/-- Claim C27 at `_ledflasher._set` with `_on` defaulted, extra properties allowed and the
JSON `{"_led": 2, "extra": 0}`. -/
theorem C27_witness :
    (∀ key, key ∈ mapKeys [("_led", PropValue.IntValue ledflasher_led 2),
        ("_on", PropValue.BooleanValue ledflasher_on false)] ↔
      key ∈ set_parameters_defaulted.GetProps.map Prod.fst) ∧
    mapFind "extra" [("_led", PropValue.IntValue ledflasher_led 2),
      ("_on", PropValue.BooleanValue ledflasher_on false)] = none ∧
    (∀ p ∈ [("_led", PropValue.IntValue ledflasher_led 2),
        ("_on", PropValue.BooleanValue ledflasher_on false)],
      ∀ c ∈ p.2.GetPropType.GetConstraints, c.holds p.2 = true) :=
  ⟨(C27_parsed_object_holds_the_declared_keys plainWriter set_parameters_defaulted
      (.dictionary [("_led", .integer 2), ("extra", .integer 0)]) (some none)
      [("_led", .IntValue ledflasher_led 2), ("_on", .BooleanValue ledflasher_on false)]
      (some none) rfl).2.1,
   (C27_parsed_object_holds_the_declared_keys plainWriter set_parameters_defaulted
      (.dictionary [("_led", .integer 2), ("extra", .integer 0)]) (some none)
      [("_led", .IntValue ledflasher_led 2), ("_on", .BooleanValue ledflasher_on false)]
      (some none) rfl).2.2.1 "extra" (by decide),
   (C27_parsed_object_holds_the_declared_keys plainWriter set_parameters_defaulted
      (.dictionary [("_led", .integer 2), ("extra", .integer 0)]) (some none)
      [("_led", .IntValue ledflasher_led 2), ("_on", .BooleanValue ledflasher_on false)]
      (some none) rfl).2.2.2⟩

end buffet

/-! ### FinishRegistration without a registration (C26) -/

namespace buffet
open base chromeos.http

/-- Claim C26 evaluated where it fails: with a ticket and no user authorization code,
`FinishRegistration` returns true when the finalize request is answered with HTTP 500, when
it gets no response, and when the response has the status 200 but lacks the authorization
code and the device ID; in the last case the robot account of the record is overwritten.
Nothing is saved, and device ID, refresh token and access token stay empty. -/
theorem C26_finish_registration_true_without_registration :
    DeviceRegistrationInfo.FinishRegistration plainEncode failing_cloud 1 ticketed_device
        (quiet_world 0) "" =
      some (true, ticketed_device,
        { quiet_world 0 with sent := [ticketed_device.FinalizeRequest plainEncode] }) ∧
    DeviceRegistrationInfo.FinishRegistration plainEncode silent_cloud 1 ticketed_device
        (quiet_world 0) "" =
      some (true, ticketed_device,
        { quiet_world 0 with sent := [ticketed_device.FinalizeRequest plainEncode] }) ∧
    DeviceRegistrationInfo.FinishRegistration plainEncode forgetful_cloud 1 ticketed_device
        (quiet_world 0) "" =
      some (true, { ticketed_device with device_robot_account_ := "robot@example" },
        { quiet_world 0 with sent := [ticketed_device.FinalizeRequest plainEncode] }) ∧
    ({ quiet_world 0 with
        sent := [ticketed_device.FinalizeRequest plainEncode] } : World).written = [] ∧
    ticketed_device.device_id_ = "" ∧ ticketed_device.refresh_token_ = "" ∧
    ticketed_device.access_token_ = "" :=
  ⟨rfl, rfl, rfl, rfl, rfl, rfl, rfl⟩

end buffet

/-! ### The content type of a response (C29) -/

namespace weave
namespace examples
open tracked_objects

/-- Claim C29 evaluated where it fails: for a header block with the lines `Content-Type:
application/json` and `Content-Length: 2` the text between the marker and the next line
break is ` application/json`, but `SendRequestBlocking` returns the content type
` application/json\r\nContent-Length: 2\r\n\r\n`, which runs into the later header line
(`substr` is given the end position where it takes a count). A header block without the
marker gives no response and the error `curl/no_content_header`. -/
theorem C29_content_type_runs_into_later_headers :
    TextAfterMarker json_header_block = some " application/json" ∧
    SendRequestBlocking json_transfer .kGet "https://cloud.example/api/" [] "" =
      (some { status := 200
              content_type := " application/json\r\nContent-Length: 2\r\n\r\n"
              data := "{}" }, none) ∧
    SendRequestBlocking plain_transfer .kGet "https://cloud.example/api/" [] "" =
      (none, some (Error.mk ⟨"SendRequestBlocking", "curl_http_client.cc", 97⟩ "curl"
        "no_content_header" "Content-Type header is missing" none)) :=
  ⟨by decide, rfl, rfl⟩

end examples
end weave

/-! ### The LED handlers (C30) -/

namespace ledflasher
open base

theorem ledflasher_led_range (led : Int)
    (hvalid : (buffet.ledflasher_led.ValidateConstraints
      (.IntValue buffet.ledflasher_led led) none).1 = true) : 1 ≤ led ∧ led ≤ 3 := by
  have h := (buffet.ValidateConstraintList_true _ _ none hvalid).2
  have h1 := h (.Min 1) (by simp [buffet.ledflasher_led, buffet.PropType.GetConstraints])
  have h2 := h (.Max 3) (by simp [buffet.ledflasher_led, buffet.PropType.GetConstraints])
  simp only [buffet.Constraint.holds, buffet.PropValue.numeric, decide_eq_true_eq] at h1 h2
  constructor
  · exact_mod_cast h1
  · exact_mod_cast h2

theorem bitset_get_in_range (bits : List Bool) (index : Int)
    (h : 0 ≤ index ∧ index < bits.length) :
    ∃ bit, bitset_get bits index = some bit ∧ bits[index.toNat]? = some bit := by
  have hlt : index.toNat < bits.length := by omega
  refine ⟨bits[index.toNat], ?_, ?_⟩
  · simp [bitset_get, h, List.getElem?_eq_getElem hlt]
  · exact List.getElem?_eq_getElem hlt

theorem bitset_set_in_range (bits : List Bool) (index : Int) (value : Bool)
    (h : 0 ≤ index ∧ index < bits.length) :
    bitset_set bits index value = some (bits.set index.toNat value) ∧
    (bits.set index.toNat value).length = bits.length ∧
    (bits.set index.toNat value)[index.toNat]? = some value ∧
    ∀ i, i ≠ index.toNat → (bits.set index.toNat value)[i]? = bits[i]? := by
  have hlt : index.toNat < bits.length := by omega
  refine ⟨by simp [bitset_set, h], by simp, ?_, ?_⟩
  · simp [List.getElem?_set_self, hlt]
  · intro i hi
    simp [List.getElem?_set_ne (Ne.symm hi)]

/-- Claim C30: when the bitset has `kLedCount` bits and the `_led` parameter of a command
passes the constraints of the declared schema (minimum 1, maximum 3), the index `_led - 1`
lies in `[0, kLedCount)` and both handlers complete the command without an access out of
range: `_set` leaves bit `_led - 1` equal to `_on`, `_toggle` leaves it flipped and
publishes the bits, and every other bit is unchanged. -/
theorem C30_led_index_in_range (self : LedFlasherHandler)
    (parameters : List (String × Value)) (led : Int)
    (hsize : self.led_status_.length = kLedCount)
    (hled : GetInteger parameters "_led" = some led)
    (hvalid : (buffet.ledflasher_led.ValidateConstraints
      (.IntValue buffet.ledflasher_led led) none).1 = true) :
    (0 ≤ led - 1 ∧ led - 1 < kLedCount) ∧
    (∀ cmd_value, GetBoolean parameters "_on" = some cmd_value →
      ∃ after, self.OnFlasherSetCommand (some parameters) = some (after, some .Complete) ∧
        after.led_status_.length = kLedCount ∧
        after.led_status_[(led - 1).toNat]? = some cmd_value ∧
        ∀ i, i ≠ (led - 1).toNat → after.led_status_[i]? = self.led_status_[i]?) ∧
    (∃ after bit,
      self.OnFlasherToggleCommand (some parameters) = some (after, some .Complete) ∧
        self.led_status_[(led - 1).toNat]? = some bit ∧
        after.led_status_.length = kLedCount ∧
        after.led_status_[(led - 1).toNat]? = some (!bit) ∧
        (∀ i, i ≠ (led - 1).toNat → after.led_status_[i]? = self.led_status_[i]?) ∧
        after.device_leds = after.led_status_) := by
  obtain ⟨h1, h3⟩ := ledflasher_led_range led hvalid
  have hrange : 0 ≤ led - 1 ∧ led - 1 < (self.led_status_.length : Int) := by
    rw [hsize]
    simp only [kLedCount]
    omega
  obtain ⟨bit, hget, hbit⟩ := bitset_get_in_range self.led_status_ (led - 1) hrange
  refine ⟨by simp only [kLedCount]; omega, ?_, ?_⟩
  · intro cmd_value hon
    obtain ⟨hset, hlen, hat, hother⟩ :=
      bitset_set_in_range self.led_status_ (led - 1) cmd_value hrange
    by_cases hchange : cmd_value ≠ bit
    · refine ⟨LedFlasherHandler.UpdateLedState
        { self with led_status_ := self.led_status_.set (led - 1).toNat cmd_value }, ?_, ?_, hat,
        hother⟩
      · simp only [LedFlasherHandler.OnFlasherSetCommand, hled, hon, hget, hset]
        rw [if_pos hchange]
      · exact hlen.trans hsize
    · refine ⟨{ self with led_status_ := self.led_status_.set (led - 1).toNat cmd_value }, ?_, ?_,
        hat, hother⟩
      · simp only [LedFlasherHandler.OnFlasherSetCommand, hled, hon, hget, hset]
        rw [if_neg hchange]
      · exact hlen.trans hsize
  · obtain ⟨hset, hlen, hat, hother⟩ :=
      bitset_set_in_range self.led_status_ (led - 1) (!bit) hrange
    refine ⟨LedFlasherHandler.UpdateLedState
      { self with led_status_ := self.led_status_.set (led - 1).toNat (!bit) }, bit, ?_, hbit,
      hlen.trans hsize, hat, hother, rfl⟩
    simp only [LedFlasherHandler.OnFlasherToggleCommand, hled, hget, hset]

/-- Claim C30 at the fresh handler: `_set` of LED 3 to on, `_toggle` of LED 1. -/
theorem C30_witness :
    (∃ after, fresh_handler.OnFlasherSetCommand
        (some [("_led", .integer 3), ("_on", .boolean true)]) = some (after, some .Complete) ∧
      after.led_status_.length = kLedCount ∧
      after.led_status_[((3 : Int) - 1).toNat]? = some true ∧
      ∀ i, i ≠ ((3 : Int) - 1).toNat →
        after.led_status_[i]? = fresh_handler.led_status_[i]?) ∧
    (fresh_handler.OnFlasherSetCommand
        (some [("_led", .integer 3), ("_on", .boolean true)])).map
        (fun r => r.1.led_status_) = some [false, false, true] ∧
    (fresh_handler.OnFlasherToggleCommand (some [("_led", .integer 1)])).map
        (fun r => r.1.led_status_) = some [true, false, false] :=
  ⟨(C30_led_index_in_range fresh_handler [("_led", .integer 3), ("_on", .boolean true)] 3
      rfl rfl (by decide)).2.1 true rfl,
   rfl, rfl⟩

end ledflasher
